import Mathlib

/-!
# skillchain: license lifecycle and access decision engine

A shallow embedding of `internal/kvstore/store.go` (`MemoryStore`, with
`NewMemoryStore` and `Close`), `internal/auth/eip32.go` (`NewSigner`,
`EIP712Signer.CreateLicenseSignature`, `EIP712Signer.VerifySignature`) and
`internal/blockchain/license_service.go` (`LicenseService`),
`internal/models/vote.go`, `internal/core/vote_service.go` (`VoteService`),
`internal/core/batch_processor.go` (`BatchProcessor.processAllPendingBatches`)
and `internal/core/service.go` (`VerificationService.generateProvenanceHash`,
`VerificationService.ValidateSignature`).

Modelling conventions
* An instant (`time.Time`) is an integer number of nanoseconds since the Unix
  epoch; a `time.Duration` is an integer number of nanoseconds.
* Every operation executes at one instant `now`: all the `time.Now()` readings
  made during one call return the same value.
* The Go map `map[string]entry` is an association list with unique keys;
  lookups, not the order of the list, are what the theorems speak about.
* `int`, `int64` are integers reduced into the signed 64-bit range after each
  arithmetic operation.
* `*big.Int` is `Int`; `common.Address` is represented by its `Hex()` rendering.
* Library functions that are not part of the repository (SHA-256, Keccak,
  secp256k1 signing, typed-data hashing, RFC 3339 formatting, `sort.Slice`)
  are parameters; SHA-256, RFC 3339 formatting in UTC and the insertion sort
  that `sort.Slice` runs on short slices are also given as definitions, for
  evaluating the services on concrete inputs.
* A pointer stored in the store is represented by the value it points to, as
  it stands when it is stored.
-/

namespace SkillChain

/-! ## Machine integers, time, bytes -/

/-- Reduction of an integer into the signed 64-bit range (two's complement). -/
def wrap64 (n : Int) : Int := (n + 2 ^ 63) % 2 ^ 64 - 2 ^ 63

/-- Instants, in nanoseconds since the Unix epoch. -/
abbrev Time := Int

/-- Durations, in nanoseconds. -/
abbrev Duration := Int

def Second : Duration := 1000000000
def Minute : Duration := 60 * Second
def Hour : Duration := 60 * Minute

/-- The zero value of `time.Time` (January 1, year 1, 00:00:00 UTC). -/
def zeroTime : Time := -62135596800 * 1000000000

/-- `t.Before(u)`. -/
def Time.Before (t u : Time) : Bool := decide (t < u)

/-- `t.After(u)`. -/
def Time.After (t u : Time) : Bool := decide (u < t)

/-- `t.Add(d)`. -/
def Time.Add (t : Time) (d : Duration) : Time := t + d

/-- `t.Unix()`: whole seconds since the epoch (rounded towards minus infinity). -/
def Time.Unix (t : Time) : Int := t / 1000000000

/-- `t.UnixNano()`, an `int64`. -/
def Time.UnixNano (t : Time) : Int := wrap64 t

/-- `time.Unix(sec, 0)`. -/
def timeUnix (sec : Int) : Time := sec * 1000000000

/-- `(*big.Int).Int64()`: the low 64 bits of the magnitude, read as an `int64`,
negated when the number is negative. -/
def bigInt64 (x : Int) : Int :=
  let v := wrap64 (Int.ofNat (x.natAbs % 2 ^ 64))
  if x < 0 then wrap64 (-v) else v

/-- `(*big.Int).String()`: the decimal rendering. -/
def bigString (x : Int) : String := toString x

/-- Byte strings; every element is below 256. -/
abbrev Bytes := List Nat

def hexDigit (n : Nat) : Char :=
  if n < 10 then Char.ofNat (48 + n) else Char.ofNat (87 + n)

/-- `hex.EncodeToString`: two lowercase hexadecimal digits per byte. -/
def hexEncodeToString (b : Bytes) : String :=
  String.mk (b.flatMap (fun x => [hexDigit (x / 16 % 16), hexDigit (x % 16)]))

/-- Outcome of a call: a value, a returned `error`, or a run-time panic. -/
inductive Result (α : Type) where
  | ok (a : α)
  | err (msg : String)
  | panic (msg : String)
  deriving DecidableEq, Repr

/-- Library functions used by the services and not defined in the repository. -/
structure Lib where
  /-- The SHA-256 digest of a byte string. -/
  sha256 : Bytes → Bytes
  /-- Formatting of an instant with layout `time.RFC3339`. -/
  formatRFC3339 : Time → String

/-- The bytes of a string (`[]byte(s)`). -/
def stringBytes (s : String) : Bytes :=
  s.data.flatMap (fun c => (String.utf8EncodeChar c).map (fun b => b.toNat))

/-! ## models.License -/

/-- The `common.Address` type, represented by its checksummed `Hex()` rendering. -/
structure Address where
  Hex : String
  deriving DecidableEq, Repr

/-- A cached license entry (`models.License`). -/
structure License where
  UserAddress : String
  ToolID : String
  ExpiresAt : Time
  Nonce : String
  Price : String
  CreatedAt : Time
  MaxCalls : Int
  CallsUsed : Int
  Tier : String
  deriving DecidableEq, Repr

/-- On-chain metadata of a license (`blockchain.LicenseMetadata`); only
`ExpiresAt` is read by the license service. -/
structure LicenseMetadata where
  ExpiresAt : Time
  deriving DecidableEq, Repr

/-! ## models.Vote, models.VoteBatch, models.ToolReputation -/

/-- A single vote (`models.Vote`); `Score` is an `int8`, `Nonce` a `uint64`. -/
structure Vote where
  ID : String
  ToolID : String
  VoterAddress : String
  Score : Int
  Nonce : Nat
  Signature : String
  CreatedAt : Time
  Processed : Bool
  BatchID : String
  deriving DecidableEq, Repr

/-- A batch of votes (`models.VoteBatch`). -/
structure VoteBatch where
  ID : String
  ToolID : String
  VotesCount : Int
  TotalScore : Int
  MerkleRoot : String
  BlockchainTx : String
  CommittedAt : Time
  CreatedAt : Time
  deriving DecidableEq, Repr

/-- The cached reputation of a tool (`models.ToolReputation`). The two
`float64` fields `AverageScore` and `RecentScore` are not represented. -/
structure ToolReputation where
  ToolID : String
  TotalScore : Int
  TotalVotes : Int
  LastCalculatedAt : Time
  LastBatchAt : Time
  deriving DecidableEq, Repr

/-- The request of `SubmitVote` (`models.VoteSubmission`). -/
structure VoteSubmission where
  ToolID : String
  VoterAddress : String
  Score : Int
  Nonce : Nat
  Signature : String
  deriving DecidableEq, Repr

/-- The answer of `SubmitVote` (`models.VoteVerificationResult`). -/
structure VoteVerificationResult where
  Valid : Bool
  Reason : String
  VoteID : String
  deriving DecidableEq, Repr

/-! ## kvstore.MemoryStore -/

/-- The dynamically typed values (`interface{}`) held by the store. -/
inductive Value where
  /-- A `*models.License`. -/
  | license (l : License)
  /-- An `int64` counter. -/
  | int64 (n : Int)
  /-- Any value of another dynamic type, identified by a description. -/
  | other (description : String)
  /-- A `*models.Vote`. -/
  | vote (v : Vote)
  /-- A `[]*models.Vote`. -/
  | votes (l : List Vote)
  /-- A `*models.ToolReputation`. -/
  | reputation (r : ToolReputation)
  /-- A `*models.VoteBatch`. -/
  | batch (b : VoteBatch)
  deriving DecidableEq, Repr

/-- A stored value with its expiration time. -/
structure entry where
  value : Value
  expiresAt : Time
  deriving DecidableEq, Repr

/-- `m[key]` on the Go map. -/
def mapGet : List (String × entry) → String → Option entry
  | [], _ => none
  | (k, e) :: rest, key => if k = key then some e else mapGet rest key

/-- `delete(m, key)` on the Go map. -/
def mapDelete : List (String × entry) → String → List (String × entry)
  | [], _ => []
  | (k, e) :: rest, key => if k = key then mapDelete rest key else (k, e) :: mapDelete rest key

/-- `m[key] = e` on the Go map. -/
def mapSet (m : List (String × entry)) (key : String) (e : entry) : List (String × entry) :=
  (key, e) :: mapDelete m key

/-- The in-memory store: the `data` map of `MemoryStore`. -/
structure MemoryStore where
  data : List (String × entry)
  deriving DecidableEq, Repr

/-- `NewMemoryStore`: the empty store. -/
def NewMemoryStore : MemoryStore := ⟨[]⟩

/-- `MemoryStore.Get`: lookup with lazy expiration. Returns the value (or
`none` for not found) and the store afterwards. -/
def MemoryStore.Get (ms : MemoryStore) (now : Time) (key : String) :
    Option Value × MemoryStore :=
  match mapGet ms.data key with
  | none => (none, ms)
  | some e =>
    if Time.After now e.expiresAt then
      (none, { data := mapDelete ms.data key })
    else
      (some e.value, ms)

/-- `MemoryStore.Set`: unconditional overwrite; the returned error is always nil. -/
def MemoryStore.Set (ms : MemoryStore) (now : Time) (key : String) (value : Value)
    (ttl : Duration) : Option String × MemoryStore :=
  (none, { data := mapSet ms.data key { value := value, expiresAt := Time.Add now ttl } })

/-- `MemoryStore.Increment`: returns the new counter value, the (always nil)
error and the store afterwards. -/
def MemoryStore.Increment (ms : MemoryStore) (now : Time) (key : String) (value : Int)
    (ttl : Duration) : (Int × Option String) × MemoryStore :=
  let existingEntry := mapGet ms.data key
  let exists_ : Bool :=
    match existingEntry with
    | none => false
    | some e => if Time.After now e.expiresAt then false else true
  let currentValue : Int :=
    if exists_ then
      match existingEntry with
      | some { value := Value.int64 counter, .. } => counter
      | _ => 0
    else 0
  let newValue := wrap64 (currentValue + value)
  ((newValue, none),
    { data := mapSet ms.data key { value := Value.int64 newValue, expiresAt := Time.Add now ttl } })

/-- `MemoryStore.Delete`: unconditional removal; the returned error is always nil. -/
def MemoryStore.Delete (ms : MemoryStore) (key : String) : Option String × MemoryStore :=
  (none, { data := mapDelete ms.data key })

/-! ## auth.EIP712Signer -/

/-- The typed-data domain (`apitypes.TypedDataDomain`). -/
structure TypedDataDomain where
  Name : String
  Version : String
  ChainId : Int
  VerifyingContract : String
  deriving DecidableEq, Repr

/-- Cryptographic library functions of go-ethereum used by the signer. -/
structure Crypto where
  /-- The call `typedData.HashStruct(primaryType, data)` for the typed data built
  by the signer: the declared types are fixed, so the hash depends on the
  domain, the primary type and the field values. Returns the hash and the error. -/
  HashStruct : TypedDataDomain → String → List (String × String) → Bytes × Option String
  /-- The Keccak-256 digest, `crypto.Keccak256`. -/
  Keccak256 : Bytes → Bytes
  /-- The signature `crypto.Sign(hash, privateKey)` and its error. -/
  Sign : Bytes → Bytes → Bytes × Option String

structure EIP712Signer where
  privateKey : Bytes
  publicAddress : Address
  domain : TypedDataDomain
  chainID : Int

/-- `typedData.Domain.Map()`. -/
def TypedDataDomain.Map (d : TypedDataDomain) : List (String × String) :=
  [("name", d.Name), ("version", d.Version), ("chainId", bigString d.ChainId),
   ("verifyingContract", d.VerifyingContract)]

/-- `EIP712Signer.CreateLicenseSignature`. -/
def EIP712Signer.CreateLicenseSignature (s : EIP712Signer) (c : Crypto) (user : Address)
    (toolId expiresAt nonce : Int) : Result (Bytes × Bytes × Bytes) :=
  let message : List (String × String) :=
    [("user", user.Hex), ("toolId", bigString toolId), ("expiresAt", bigString expiresAt),
     ("nonce", bigString nonce)]
  match c.HashStruct s.domain "EIP712Domain" s.domain.Map with
  | (_, some err) => Result.err ("failed to hash domain: " ++ err)
  | (domainSeparator, none) =>
    match c.HashStruct s.domain "MintLicense" message with
    | (_, some err) => Result.err ("failed to hash message: " ++ err)
    | (hash, none) =>
      let rawData : Bytes := [0x19, 0x01] ++ domainSeparator ++ hash
      let sighash := c.Keccak256 rawData
      match c.Sign sighash s.privateKey with
      | (_, some err) => Result.err ("failed to sign: " ++ err)
      | (signature, none) =>
        if signature.length < 65 then
          Result.panic "runtime error: index out of range"
        else
          let r := signature.take 32
          let sigS := (signature.drop 32).take 32
          let sigV := signature.drop 64
          let sigV := if sigV.headD 0 < 27 then (sigV.headD 0 + 27) :: sigV.tail else sigV
          Result.ok (r, sigS, sigV)

/-! ## blockchain.LicenseService -/

/-- The fields of `config.Config` read by the services. -/
structure Config where
  LicenseNFTAddress : String
  SignatureNonce : String
  ChainID : Int
  deriving DecidableEq, Repr

/-- The chain view consumed by the service; each method returns its value and
its error (`none` for a nil error, a nil metadata pointer is `none`). -/
structure BlockchainInterface where
  IsLicenseValid : Address → Int → Bool × Option String
  GetLicenseMetadata : String → Option LicenseMetadata × Option String

structure LicenseService where
  config : Config
  signer : EIP712Signer
  blockchain : BlockchainInterface

structure LicenseRequest where
  UserAddress : Address
  ToolID : Int
  deriving DecidableEq, Repr

structure LicenseResponse where
  ToolID : Int
  User : Address
  ExpiresAt : Int
  Nonce : Int
  SignatureR : String
  SignatureS : String
  SignatureV : String
  Price : String
  Contract : String
  deriving DecidableEq, Repr

structure AccessResult where
  Valid : Bool
  Tier : String
  CallsRemaining : Int
  ExpiresAt : Option Time
  ProvenanceHash : String
  Reason : String
  deriving DecidableEq, Repr

/-- The key `fmt.Sprintf("license:%s:%s", user.Hex(), toolID.String())`. -/
def licenseKey (user : Address) (toolID : Int) : String :=
  "license:" ++ user.Hex ++ ":" ++ bigString toolID

/-- The key `fmt.Sprintf("pending:%s", licenseKey)`. -/
def pendingKey (user : Address) (toolID : Int) : String :=
  "pending:" ++ licenseKey user toolID

/-- The key `fmt.Sprintf("free:%s:%s", user.Hex(), toolID.String())`. -/
def freeTierKey (user : Address) (toolID : Int) : String :=
  "free:" ++ user.Hex ++ ":" ++ bigString toolID

/-- `LicenseService.calculateLicensePrice`. -/
def LicenseService.calculateLicensePrice (_s : LicenseService) (_toolID : Int) : String :=
  "10000000000000000"

/-- `LicenseService.generateProvenanceHash`. -/
def LicenseService.generateProvenanceHash (s : LicenseService) (lib : Lib) (now : Time)
    (tier toolID userAddress : String) : String :=
  let timestamp := Time.UnixNano now
  let data := tier ++ ":" ++ toolID ++ ":" ++ userAddress ++ ":" ++ toString timestamp ++ ":"
    ++ s.config.SignatureNonce
  hexEncodeToString (lib.sha256 (stringBytes data))

/-- The test made on a cached value by `RequestLicense` and `VerifyAccess`: the
type assertion `cached.(*models.License)` succeeds and
`time.Now().Before(license.ExpiresAt)` holds. -/
def unexpiredLicense (cached : Option Value) (now : Time) : Option License :=
  match cached with
  | some (Value.license license) =>
    if Time.Before now license.ExpiresAt then some license else none
  | _ => none

/-- `LicenseService.RequestLicense`, run at instant `now` on store `ms`. -/
def LicenseService.RequestLicense (s : LicenseService) (lib : Lib) (c : Crypto)
    (ms : MemoryStore) (now : Time) (req : LicenseRequest) :
    Result LicenseResponse × MemoryStore :=
  let licenseKey := licenseKey req.UserAddress req.ToolID
  let cached := ms.Get now licenseKey
  match unexpiredLicense cached.1 now with
  | some license =>
    (Result.err ("license already active until " ++ lib.formatRFC3339 license.ExpiresAt),
      cached.2)
  | none =>
    let pendingKey := "pending:" ++ licenseKey
    let pending := cached.2.Get now pendingKey
    match pending.1 with
    | some _ => (Result.err "license request already pending", pending.2)
    | none =>
      let expiresAt : Int := Time.Unix (Time.Add now (30 * 24 * Hour))
      let nonce : Int := Time.UnixNano now
      let price := s.calculateLicensePrice req.ToolID
      match s.signer.CreateLicenseSignature c req.UserAddress req.ToolID expiresAt nonce with
      | Result.err err => (Result.err ("failed to create signature: " ++ err), pending.2)
      | Result.panic msg => (Result.panic msg, pending.2)
      | Result.ok (r, sigS, sigV) =>
        let pendingLicense : License :=
          { UserAddress := req.UserAddress.Hex
            ToolID := bigString req.ToolID
            ExpiresAt := timeUnix (bigInt64 expiresAt)
            Nonce := bigString nonce
            Price := price
            CreatedAt := now
            MaxCalls := 0
            CallsUsed := 0
            Tier := "" }
        let stored := pending.2.Set now pendingKey (Value.license pendingLicense) (10 * Minute)
        match stored.1 with
        | some err => (Result.err ("failed to cache pending license: " ++ err), stored.2)
        | none =>
          (Result.ok
            { ToolID := req.ToolID
              User := req.UserAddress
              ExpiresAt := expiresAt
              Nonce := nonce
              SignatureR := hexEncodeToString r
              SignatureS := hexEncodeToString sigS
              SignatureV := hexEncodeToString sigV
              Price := price
              Contract := s.config.LicenseNFTAddress }, stored.2)

/-- The last part of `LicenseService.VerifyAccess` ("TIER 2: FREE ACCESS"): the
free counter is incremented and decides between the free tier and denial. -/
def LicenseService.VerifyAccess.freeTier (s : LicenseService) (lib : Lib) (ms : MemoryStore)
    (now : Time) (user : Address) (toolID : Int) : Result AccessResult × MemoryStore :=
  let freeTierKey := freeTierKey user toolID
  let inc := ms.Increment now freeTierKey 1 (24 * Hour)
  let freeUsage := inc.1.1
  match inc.1.2 with
  | some err => (Result.err ("failed to track free usage: " ++ err), inc.2)
  | none =>
    if freeUsage ≤ 100 then
      let provenanceHash := s.generateProvenanceHash lib now "FREE" (bigString toolID) user.Hex
      (Result.ok
        { Valid := true
          Tier := "free"
          CallsRemaining := wrap64 (100 - freeUsage)
          ExpiresAt := none
          ProvenanceHash := provenanceHash
          Reason := "" }, inc.2)
    else
      (Result.ok
        { Valid := false
          Tier := "none"
          CallsRemaining := 0
          ExpiresAt := none
          ProvenanceHash := ""
          Reason := "free tier exhausted and no valid license found" }, inc.2)

/-- The middle part of `LicenseService.VerifyAccess` ("Cache miss: Check
blockchain"): the chain view is consulted; unless it yields a license that is
cached successfully, control falls through to the free tier. -/
def LicenseService.VerifyAccess.chain (s : LicenseService) (lib : Lib) (ms : MemoryStore)
    (now : Time) (user : Address) (toolID : Int) : Result AccessResult × MemoryStore :=
  let licenseKey := licenseKey user toolID
  let valid := s.blockchain.IsLicenseValid user toolID
  if valid.2 = none ∧ valid.1 = true then
    let metadata := s.blockchain.GetLicenseMetadata (bigString toolID)
    if metadata.2 = none then
      match metadata.1 with
      | none =>
        (Result.panic "runtime error: invalid memory address or nil pointer dereference", ms)
      | some metadata =>
        let license : License :=
          { UserAddress := user.Hex
            ToolID := bigString toolID
            ExpiresAt := metadata.ExpiresAt
            Nonce := ""
            Price := ""
            CreatedAt := zeroTime
            MaxCalls := 1000
            CallsUsed := 1
            Tier := "licensed" }
        let stored := ms.Set now licenseKey (Value.license license) (24 * Hour)
        if stored.1 = none then
          (Result.ok
            { Valid := true
              Tier := "licensed"
              CallsRemaining := wrap64 (license.MaxCalls - license.CallsUsed)
              ExpiresAt := some license.ExpiresAt
              ProvenanceHash := ""
              Reason := "" }, stored.2)
        else
          LicenseService.VerifyAccess.freeTier s lib stored.2 now user toolID
    else
      LicenseService.VerifyAccess.freeTier s lib ms now user toolID
  else
    LicenseService.VerifyAccess.freeTier s lib ms now user toolID

/-- `LicenseService.VerifyAccess`, run at instant `now` on store `ms`. -/
def LicenseService.VerifyAccess (s : LicenseService) (lib : Lib) (ms : MemoryStore)
    (now : Time) (user : Address) (toolID : Int) : Result AccessResult × MemoryStore :=
  let licenseKey := licenseKey user toolID
  let cached := ms.Get now licenseKey
  match unexpiredLicense cached.1 now with
  | some license =>
    let license := { license with CallsUsed := wrap64 (license.CallsUsed + 1) }
    let stored := cached.2.Set now licenseKey (Value.license license) (24 * Hour)
    match stored.1 with
    | some err => (Result.err ("failed to update license usage: " ++ err), stored.2)
    | none =>
      (Result.ok
        { Valid := true
          Tier := "licensed"
          CallsRemaining := wrap64 (license.MaxCalls - license.CallsUsed)
          ExpiresAt := some license.ExpiresAt
          ProvenanceHash := ""
          Reason := "" }, stored.2)
  | none => LicenseService.VerifyAccess.chain s lib cached.2 now user toolID

/-- `LicenseService.RecordLicenseMinted`, run at instant `now` on store `ms`;
the result is the returned error (`none` for nil). -/
def LicenseService.RecordLicenseMinted (_s : LicenseService) (ms : MemoryStore) (now : Time)
    (user : Address) (toolID expiresAt nonce : Int) : Option String × MemoryStore :=
  let licenseKey := licenseKey user toolID
  let pendingKey := "pending:" ++ licenseKey
  let cached := ms.Get now pendingKey
  match cached.1 with
  | none => (some "no pending license found", cached.2)
  | some (Value.license pendingLicense) =>
    if pendingLicense.Nonce ≠ bigString nonce then
      (some "nonce mismatch", cached.2)
    else
      let activeLicense : License :=
        { UserAddress := user.Hex
          ToolID := bigString toolID
          ExpiresAt := timeUnix (bigInt64 expiresAt)
          Nonce := ""
          Price := ""
          CreatedAt := now
          MaxCalls := 1000
          CallsUsed := 0
          Tier := "licensed" }
      let stored := cached.2.Set now licenseKey (Value.license activeLicense) (30 * 24 * Hour)
      match stored.1 with
      | some err => (some ("failed to cache active license: " ++ err), stored.2)
      | none => (none, (stored.2.Delete pendingKey).2)
  | some _ => (some "invalid pending license format", cached.2)

/-! ## Call sequences and auxiliary notions used by the statements -/

/-- The result of the free-tier part of `VerifyAccess` once the counter has
been incremented to `freeUsage`. -/
def LicenseService.VerifyAccess.freeTierResult (s : LicenseService) (lib : Lib) (now : Time)
    (user : Address) (toolID : Int) (freeUsage : Int) : Result AccessResult :=
  if freeUsage ≤ 100 then
    Result.ok
      { Valid := true
        Tier := "free"
        CallsRemaining := wrap64 (100 - freeUsage)
        ExpiresAt := none
        ProvenanceHash := s.generateProvenanceHash lib now "FREE" (bigString toolID) user.Hex
        Reason := "" }
  else
    Result.ok
      { Valid := false
        Tier := "none"
        CallsRemaining := 0
        ExpiresAt := none
        ProvenanceHash := ""
        Reason := "free tier exhausted and no valid license found" }

/-- Successive `VerifyAccess` calls by one user for one tool, made at the
instants of the list: the results in order, and the final store. -/
def LicenseService.VerifyAccessSeq (s : LicenseService) (lib : Lib) (user : Address)
    (toolID : Int) : MemoryStore → List Time → List (Result AccessResult) × MemoryStore
  | ms, [] => ([], ms)
  | ms, t :: ts =>
    let r := s.VerifyAccess lib ms t user toolID
    let rest := LicenseService.VerifyAccessSeq s lib user toolID r.2 ts
    (r.1 :: rest.1, rest.2)

/-! ## A concrete service, for evaluating the statements -/

/-- Stand-ins for the library functions: a digest that keeps four bytes. -/
def exampleLib : Lib :=
  { sha256 := fun b => b.take 4
    formatRFC3339 := fun t => toString t }

/-- Stand-ins for the cryptographic functions: a 65-byte signature. -/
def exampleCrypto : Crypto :=
  { HashStruct := fun _ _ _ => ([1, 2], none)
    Keccak256 := fun b => b
    Sign := fun _ _ => (List.replicate 64 7 ++ [1], none) }

def exampleSigner : EIP712Signer :=
  { privateKey := []
    publicAddress := { Hex := "0xS" }
    domain := { Name := "SkillChainLicense", Version := "1", ChainId := 1337,
                VerifyingContract := "0x1234567890123456789012345678901234567890" }
    chainID := 1337 }

/-- A chain view that reports no valid license. -/
def noLicenseChain : BlockchainInterface :=
  { IsLicenseValid := fun _ _ => (false, none)
    GetLicenseMetadata := fun _ => (none, none) }

/-- A chain view whose calls fail. -/
def failingChain : BlockchainInterface :=
  { IsLicenseValid := fun _ _ => (false, some "assert.AnError general error for testing")
    GetLicenseMetadata := fun _ => (none, some "assert.AnError general error for testing") }

/-- A chain view that reports a valid license with the given expiry. -/
def validChain (expiresAt : Time) : BlockchainInterface :=
  { IsLicenseValid := fun _ _ => (true, none)
    GetLicenseMetadata := fun _ => (some { ExpiresAt := expiresAt }, none) }

def exampleService (bc : BlockchainInterface) : LicenseService :=
  { config := { LicenseNFTAddress := "0x1234567890123456789012345678901234567890",
                SignatureNonce := "test-nonce",
                ChainID := 1337 }
    signer := exampleSigner
    blockchain := bc }

def exampleUser : Address := { Hex := "0x7099" }

/-- A licensed entry as `RecordLicenseMinted` writes it, with some calls used. -/
def exampleLicense : License :=
  { UserAddress := "0x7099"
    ToolID := "42"
    ExpiresAt := 30 * 24 * Hour
    Nonce := ""
    Price := ""
    CreatedAt := 0
    MaxCalls := 1000
    CallsUsed := 7
    Tier := "licensed" }

/-- A store holding `exampleLicense` for `exampleUser` and tool 42, and a free
counter at 100 for the same pair. -/
def exampleLicensedStore : MemoryStore :=
  { data := [("license:0x7099:42", { value := Value.license exampleLicense, expiresAt := 24 * Hour }),
             ("free:0x7099:42", { value := Value.int64 100, expiresAt := 24 * Hour })] }

/-- A store whose cached license for `exampleUser` and tool 42 expired after 30
days, the store entry itself still being live. -/
def exampleExpiredStore : MemoryStore :=
  { data := [("license:0x7099:42",
      { value := Value.license exampleLicense, expiresAt := 31 * 24 * Hour })] }

/-- A pending entry as `RequestLicense` writes it at instant `30 days`. -/
def examplePending : License :=
  { UserAddress := "0x7099"
    ToolID := "42"
    ExpiresAt := 60 * 24 * Hour
    Nonce := "2592000000000000"
    Price := "10000000000000000"
    CreatedAt := 30 * 24 * Hour
    MaxCalls := 0
    CallsUsed := 0
    Tier := "" }

/-- A store holding, for `exampleUser` and tool 42, a license entry whose store
TTL ran out after 24 hours and a pending entry live until 30 days and 10 minutes. -/
def exampleStalePendingStore : MemoryStore :=
  { data := [("license:0x7099:42", { value := Value.license exampleLicense, expiresAt := 24 * Hour }),
             ("pending:license:0x7099:42",
               { value := Value.license examplePending, expiresAt := 30 * 24 * Hour + 10 * Minute })] }

/-! ## Sequences of service calls -/

/-- A call of one of the three operations of the license service, with the
instant at which it runs. -/
inductive Call where
  | RequestLicense (now : Time) (req : LicenseRequest)
  | VerifyAccess (now : Time) (user : Address) (toolID : Int)
  | RecordLicenseMinted (now : Time) (user : Address) (toolID expiresAt nonce : Int)
  deriving DecidableEq, Repr

/-- Whether the call is a `RequestLicense`. -/
def Call.isRequestLicense : Call → Bool
  | Call.RequestLicense _ _ => true
  | _ => false

/-- The store after one call. -/
def LicenseService.call (s : LicenseService) (lib : Lib) (c : Crypto) (ms : MemoryStore) :
    Call → MemoryStore
  | Call.RequestLicense now req => (s.RequestLicense lib c ms now req).2
  | Call.VerifyAccess now user toolID => (s.VerifyAccess lib ms now user toolID).2
  | Call.RecordLicenseMinted now user toolID expiresAt nonce =>
    (s.RecordLicenseMinted ms now user toolID expiresAt nonce).2

/-- The store after a sequence of calls, made in order. -/
def LicenseService.run (s : LicenseService) (lib : Lib) (c : Crypto) (ms : MemoryStore)
    (calls : List Call) : MemoryStore :=
  calls.foldl (LicenseService.call s lib c) ms

/-! ## kvstore.MemoryStore: construction and shutdown -/

/-- The fields of `MemoryStore` other than `data`, which `NewMemoryStore` sets
and `Close` reads: the cleanup interval, whether `cleanupTicker` is non-nil,
whether the channel `stopCleanup` has been closed, and `cleanupEnabled`. -/
structure MemoryStoreControl where
  cleanupInterval : Duration
  cleanupTickerSet : Bool
  stopCleanupClosed : Bool
  cleanupEnabled : Bool
  deriving DecidableEq, Repr

/-- `NewMemoryStore(cleanupInterval)`, control part: cleanup is enabled for a
positive interval, and then `startCleanupRoutine` sets the ticker. -/
def NewMemoryStoreControl (cleanupInterval : Duration) : MemoryStoreControl :=
  let cleanupEnabled : Bool := decide (cleanupInterval > 0)
  { cleanupInterval := cleanupInterval
    cleanupTickerSet := cleanupEnabled
    stopCleanupClosed := false
    cleanupEnabled := cleanupEnabled }

/-- `MemoryStore.Close`: closes the channel `stopCleanup` when cleanup is enabled
and the ticker is set, then returns nil. Closing a closed channel panics. -/
def MemoryStoreControl.Close (ms : MemoryStoreControl) :
    Result (Option String) × MemoryStoreControl :=
  if ms.cleanupEnabled && ms.cleanupTickerSet then
    if ms.stopCleanupClosed then
      (Result.panic "close of closed channel", ms)
    else
      (Result.ok none, { ms with stopCleanupClosed := true })
  else
    (Result.ok none, ms)

/-! ## Properties of all the license entries of a store -/

/-- Every license value held by the store, under whatever key, satisfies `P`
(a property of the key and the license). -/
def MemoryStore.AllLicenses (P : String → License → Prop) (ms : MemoryStore) : Prop :=
  ∀ (k : String) (e : entry) (L : License),
    mapGet ms.data k = some e → e.value = Value.license L → P k L

/-- The number of `VerifyAccess` calls in a sequence of calls. -/
def Call.countVerifyAccess : List Call → Nat
  | [] => 0
  | Call.VerifyAccess _ _ _ :: rest => Call.countVerifyAccess rest + 1
  | _ :: rest => Call.countVerifyAccess rest

/-- Whether a key begins with the letter `p`, as the pending keys do and the
license keys do not. -/
def startsWithP (k : String) : Bool := k.data.head? == some 'p'

/-- The usage bounds that hold after at most `n` accesses: `callsUsed` lies
between 0 and `n`; an entry under a pending key has `maxCalls = 0` and
`callsUsed = 0`, any other has `maxCalls = 1000`. -/
def usageBound (n : Nat) (k : String) (L : License) : Prop :=
  0 ≤ L.CallsUsed ∧ L.CallsUsed ≤ n ∧
    (if startsWithP k = true then L.MaxCalls = 0 ∧ L.CallsUsed = 0 else L.MaxCalls = 1000)

/-- The timing conditions under which the entries written by a call have
`createdAt < expiresAt`: a request is made at an instant whose `UnixNano` is an
`int64`, a record carries an expiry later than its own instant. -/
def Call.WellTimed : Call → Prop
  | Call.RequestLicense now _ => -2 ^ 63 ≤ now ∧ now < 2 ^ 63
  | Call.VerifyAccess _ _ _ => True
  | Call.RecordLicenseMinted now _ _ expiresAt _ => now < timeUnix (bigInt64 expiresAt)

/-! ## auth.EIP712Signer: construction and verification -/

/-- Key handling and recovery functions of go-ethereum used by `NewSigner` and
`VerifySignature`; each returns its value and its error. -/
structure CryptoKeys where
  /-- The call `crypto.HexToECDSA(privateKeyHex)`: the private key, or an error. -/
  HexToECDSA : String → Option Bytes × Option String
  /-- The public key `privateKey.Public()` cast to an ECDSA key (`none` when the
  cast fails). -/
  PublicECDSA : Bytes → Option Bytes
  /-- The address `crypto.PubkeyToAddress(publicKey)`. -/
  PubkeyToAddress : Bytes → Address
  /-- The call `crypto.SigToPub(hash, signature)`: the recovered public key, or
  an error. -/
  SigToPub : Bytes → Bytes → Option Bytes × Option String

/-- `NewSigner`. -/
def NewSigner (k : CryptoKeys) (privateKeyHex : String) (chainID : Int)
    (verifyingContract : Address) : Result EIP712Signer :=
  match k.HexToECDSA privateKeyHex with
  | (_, some err) => Result.err ("invalid private key: " ++ err)
  | (none, none) =>
    Result.panic "runtime error: invalid memory address or nil pointer dereference"
  | (some privateKey, none) =>
    match k.PublicECDSA privateKey with
    | none => Result.err "error casting public key to ECDSA"
    | some publicKeyECDSA =>
      Result.ok
        { privateKey := privateKey
          publicAddress := k.PubkeyToAddress publicKeyECDSA
          chainID := chainID
          domain :=
            { Name := "SkillChainLicense"
              Version := "1"
              ChainId := bigInt64 chainID
              VerifyingContract := verifyingContract.Hex } }

/-- `EIP712Signer.VerifySignature`: the boolean, the error (returned with
`false`), or the panic of the index expression `signature[64]`. -/
def EIP712Signer.VerifySignature (s : EIP712Signer) (c : Crypto) (k : CryptoKeys)
    (user : Address) (toolId expiresAt nonce : Int) (sigR sigS sigV : Bytes) : Result Bool :=
  let message : List (String × String) :=
    [("user", user.Hex), ("toolId", bigString toolId), ("expiresAt", bigString expiresAt),
     ("nonce", bigString nonce)]
  match c.HashStruct s.domain "EIP712Domain" s.domain.Map with
  | (_, some err) => Result.err ("failed to hash domain: " ++ err)
  | (domainSeparator, none) =>
    match c.HashStruct s.domain "MintLicense" message with
    | (_, some err) => Result.err ("failed to hash message: " ++ err)
    | (hash, none) =>
      let rawData : Bytes := [0x19, 0x01] ++ domainSeparator ++ hash
      let sighash := c.Keccak256 rawData
      let signature := sigR ++ sigS ++ sigV
      if signature.length ≤ 64 then
        Result.panic ("runtime error: index out of range [64] with length "
          ++ toString signature.length)
      else
        let signature :=
          if signature.getD 64 0 ≥ 27 then signature.set 64 (signature.getD 64 0 - 27)
          else signature
        match k.SigToPub sighash signature with
        | (_, some err) => Result.err ("failed to recover public key: " ++ err)
        | (none, none) =>
          Result.panic "runtime error: invalid memory address or nil pointer dereference"
        | (some pubkey, none) =>
          let recoveredAddr := k.PubkeyToAddress pubkey
          Result.ok (decide (recoveredAddr = s.publicAddress))

/-- Stand-ins for the key functions, matching `exampleCrypto`: every non-empty
key string parses, and the one signature `exampleCrypto` produces recovers the
public key. -/
def exampleKeys : CryptoKeys :=
  { HexToECDSA := fun hex =>
      if hex = "" then (none, some "invalid length, need 256 bits") else (some [], none)
    PublicECDSA := fun _ => some [4]
    PubkeyToAddress := fun _ => { Hex := "0xS" }
    SigToPub := fun _ signature =>
      if signature = List.replicate 64 7 ++ [1] then (some [4], none)
      else (none, some "invalid signature recovery id") }

/-! ## Standard library functions given as definitions

`crypto/sha256`, `encoding/hex`, `math/big`, `time` and `sort` are not part of
the repository. The definitions below follow their documented behaviour and
serve to evaluate the services on concrete inputs. -/

namespace sha256

/-- The round constants of SHA-256 (FIPS 180-4, section 4.2.2). -/
def K : List Nat :=
  [0x428a2f98, 0x71374491, 0xb5c0fbcf, 0xe9b5dba5, 0x3956c25b, 0x59f111f1, 0x923f82a4, 0xab1c5ed5,
   0xd807aa98, 0x12835b01, 0x243185be, 0x550c7dc3, 0x72be5d74, 0x80deb1fe, 0x9bdc06a7, 0xc19bf174,
   0xe49b69c1, 0xefbe4786, 0x0fc19dc6, 0x240ca1cc, 0x2de92c6f, 0x4a7484aa, 0x5cb0a9dc, 0x76f988da,
   0x983e5152, 0xa831c66d, 0xb00327c8, 0xbf597fc7, 0xc6e00bf3, 0xd5a79147, 0x06ca6351, 0x14292967,
   0x27b70a85, 0x2e1b2138, 0x4d2c6dfc, 0x53380d13, 0x650a7354, 0x766a0abb, 0x81c2c92e, 0x92722c85,
   0xa2bfe8a1, 0xa81a664b, 0xc24b8b70, 0xc76c51a3, 0xd192e819, 0xd6990624, 0xf40e3585, 0x106aa070,
   0x19a4c116, 0x1e376c08, 0x2748774c, 0x34b0bcb5, 0x391c0cb3, 0x4ed8aa4a, 0x5b9cca4f, 0x682e6ff3,
   0x748f82ee, 0x78a5636f, 0x84c87814, 0x8cc70208, 0x90befffa, 0xa4506ceb, 0xbef9a3f7, 0xc67178f2]

/-- Rotation of a 32-bit word to the right. -/
def rotr (x n : Nat) : Nat := (x >>> n) ||| ((x <<< (32 - n)) % 2 ^ 32)

/-- Addition of 32-bit words. -/
def add32 (a b : Nat) : Nat := (a + b) % 2 ^ 32

/-- The eight working variables. -/
structure State where
  a : Nat
  b : Nat
  c : Nat
  d : Nat
  e : Nat
  f : Nat
  g : Nat
  h : Nat

/-- The initial hash value (FIPS 180-4, section 5.3.3). -/
def H0 : State :=
  ⟨0x6a09e667, 0xbb67ae85, 0x3c6ef372, 0xa54ff53a, 0x510e527f, 0x9b05688c, 0x1f83d9ab, 0x5be0cd19⟩

/-- The big-endian 32-bit word at the head of a byte string. -/
def word (b : Bytes) : Nat :=
  b.getD 0 0 * 2 ^ 24 + b.getD 1 0 * 2 ^ 16 + b.getD 2 0 * 2 ^ 8 + b.getD 3 0

/-- The first `n` big-endian words of a byte string. -/
def words : Nat → Bytes → List Nat
  | 0, _ => []
  | n + 1, b => word b :: words n (b.drop 4)

/-- The message schedule, extended by `n` words; `w` holds the words computed
so far, the most recent first. -/
def extend : Nat → List Nat → List Nat
  | 0, w => w
  | n + 1, w =>
    let w2 := w.getD 1 0
    let w7 := w.getD 6 0
    let w15 := w.getD 14 0
    let w16 := w.getD 15 0
    let s0 := rotr w15 7 ^^^ rotr w15 18 ^^^ (w15 >>> 3)
    let s1 := rotr w2 17 ^^^ rotr w2 19 ^^^ (w2 >>> 10)
    extend n (add32 (add32 (add32 w16 s0) w7) s1 :: w)

/-- One round of the compression function. -/
def round (s : State) (k w : Nat) : State :=
  let S1 := rotr s.e 6 ^^^ rotr s.e 11 ^^^ rotr s.e 25
  let ch := (s.e &&& s.f) ^^^ ((s.e ^^^ (2 ^ 32 - 1)) &&& s.g)
  let t1 := add32 (add32 (add32 (add32 s.h S1) ch) k) w
  let S0 := rotr s.a 2 ^^^ rotr s.a 13 ^^^ rotr s.a 22
  let maj := (s.a &&& s.b) ^^^ (s.a &&& s.c) ^^^ (s.b &&& s.c)
  let t2 := add32 S0 maj
  ⟨add32 t1 t2, s.a, s.b, s.c, add32 s.d t1, s.e, s.f, s.g⟩

/-- The rounds of the compression function, one per constant and schedule word. -/
def rounds : State → List Nat → List Nat → State
  | s, k :: ks, w :: ws => rounds (round s k w) ks ws
  | s, _, _ => s

/-- The compression function applied to one 64-byte block. -/
def compress (s : State) (block : Bytes) : State :=
  let w := (extend 48 (words 16 block).reverse).reverse
  let t := rounds s K w
  ⟨add32 s.a t.a, add32 s.b t.b, add32 s.c t.c, add32 s.d t.d,
   add32 s.e t.e, add32 s.f t.f, add32 s.g t.g, add32 s.h t.h⟩

/-- The compression of the first `n` blocks of a byte string. -/
def blocks : Nat → State → Bytes → State
  | 0, s, _ => s
  | n + 1, s, b => blocks n (compress s (b.take 64)) (b.drop 64)

/-- The `k` low-order bytes of `n`, most significant first. -/
def be (n : Nat) : Nat → Bytes
  | 0 => []
  | k + 1 => (n >>> (8 * k)) % 256 :: be n k

/-- The padded message: a one bit, zeros up to 56 modulo 64 bytes, and the
length in bits as a 64-bit big-endian integer. -/
def pad (msg : Bytes) : Bytes :=
  msg ++ [0x80] ++ List.replicate ((119 - msg.length % 64) % 64) 0 ++ be (8 * msg.length) 8

/-- The digest `sha256.Sum256(msg)`, 32 bytes. -/
def Sum256 (msg : Bytes) : Bytes :=
  let p := pad msg
  let s := blocks (p.length / 64) H0 p
  be s.a 4 ++ be s.b 4 ++ be s.c 4 ++ be s.d 4 ++ be s.e 4 ++ be s.f 4 ++ be s.g 4 ++ be s.h 4

end sha256

/-- A number in decimal, padded with zeros to at least `width` digits. -/
def padDecimal (width : Nat) (n : Nat) : String :=
  String.mk (List.replicate (width - (toString n).length) '0') ++ toString n

/-- The call `t.Format(time.RFC3339)` for an instant in the UTC location with a
year between 0 and 9999: `2006-01-02T15:04:05Z`. The date is obtained from the
day number by the usual conversion to the proleptic Gregorian calendar. -/
def formatRFC3339UTC (t : Time) : String :=
  let sec := Time.Unix t
  let days := sec / 86400
  let rem := sec % 86400
  let z := days + 719468
  let era := z / 146097
  let doe := z - era * 146097
  let yoe := (doe - doe / 1460 + doe / 36524 - doe / 146096) / 365
  let doy := doe - (365 * yoe + yoe / 4 - yoe / 100)
  let mp := (5 * doy + 2) / 153
  let d := doy - (153 * mp + 2) / 5 + 1
  let m := if mp < 10 then mp + 3 else mp - 9
  let y := yoe + era * 400 + (if m ≤ 2 then 1 else 0)
  padDecimal 4 y.toNat ++ "-" ++ padDecimal 2 m.toNat ++ "-" ++ padDecimal 2 d.toNat ++ "T"
    ++ padDecimal 2 (rem / 3600).toNat ++ ":" ++ padDecimal 2 (rem % 3600 / 60).toNat ++ ":"
    ++ padDecimal 2 (rem % 60).toNat ++ "Z"

/-- The library functions of `Lib` as the standard library computes them, for a
process running in the UTC location. -/
def stdLib : Lib :=
  { sha256 := sha256.Sum256
    formatRFC3339 := formatRFC3339UTC }

/-- The value of a hexadecimal digit given by its character code. -/
def fromHexChar (c : Nat) : Option Nat :=
  if 48 ≤ c ∧ c ≤ 57 then some (c - 48)
  else if 97 ≤ c ∧ c ≤ 102 then some (c - 87)
  else if 65 ≤ c ∧ c ≤ 70 then some (c - 55)
  else none

/-- Decoding of pairs of hexadecimal digits; `none` when a character is not a
hexadecimal digit or the length is odd. -/
def hexDecode : Bytes → Option Bytes
  | [] => some []
  | [_] => none
  | p :: q :: rest =>
    match fromHexChar p, fromHexChar q, hexDecode rest with
    | some a, some b, some r => some ((a * 16 + b) :: r)
    | _, _, _ => none

/-- `hex.DecodeString`: the decoded bytes, or `none` when an error is returned. -/
def hexDecodeString (s : String) : Option Bytes := hexDecode (stringBytes s)

/-- `hexutil.Decode`: the input must begin with `0x` or `0X`; the decoded bytes,
or `none` when an error is returned. -/
def hexutilDecode (input : String) : Option Bytes :=
  match stringBytes input with
  | 48 :: x :: rest => if x = 120 ∨ x = 88 then hexDecode rest else none
  | _ => none

/-- The value of a non-empty string of decimal digits. -/
def parseDigits (cs : List Char) : Option Nat :=
  if cs = [] then none
  else if cs.all Char.isDigit then some (cs.foldl (fun n c => 10 * n + (c.toNat - 48)) 0)
  else none

/-- `new(big.Int).SetString(s, 10)`: an optional sign followed by decimal
digits; `none` when the call reports failure. -/
def bigSetString (s : String) : Option Int :=
  match s.data with
  | '-' :: cs => (parseDigits cs).map (fun n => -Int.ofNat n)
  | '+' :: cs => (parseDigits cs).map Int.ofNat
  | cs => (parseDigits cs).map Int.ofNat

/-- The call `sort.Slice(votes, less)` on a slice of votes: the slice afterwards. -/
structure SortLib where
  Slice : List Vote → (Vote → Vote → Bool) → List Vote

/-- The comparison passed to `sort.Slice` by `generateMerkleRoot`:
`votes[i].ID < votes[j].ID`, the lexicographic order of the strings (by bytes
in Go, by characters here: the two orders agree on UTF-8 text). -/
def lessByID (a b : Vote) : Bool := decide (a.ID.data < b.ID.data)

/-- The contract of `sort.Slice` for the comparison by id: the slice is
permuted, and afterwards the ids are in non-decreasing order. -/
def SortLib.SortsByID (srt : SortLib) : Prop :=
  ∀ votes : List Vote,
    List.Perm (srt.Slice votes lessByID) votes ∧
      List.Pairwise (fun a b => a.ID.data ≤ b.ID.data) (srt.Slice votes lessByID)

/-- The inner loop of `insertionSortLessFunc`: the element `x` moves left past
every element it is less than; the sorted part is held last element first. -/
def insertBack (less : Vote → Vote → Bool) (x : Vote) : List Vote → List Vote
  | [] => [x]
  | y :: ys => if less x y then y :: insertBack less x ys else x :: y :: ys

/-- The function `insertionSortLessFunc` of package `sort`, which `sort.Slice`
runs on a slice of at most 12 elements. -/
def insertionSortLessFunc (votes : List Vote) (less : Vote → Vote → Bool) : List Vote :=
  (votes.foldl (fun sorted x => insertBack less x sorted) []).reverse

/-- The sort `sort.Slice` as it runs on slices of at most 12 elements. -/
def stdSort : SortLib := { Slice := insertionSortLessFunc }

/-- Functions of the go-ethereum packages `common` and `accounts` used by the
vote service and the verification service. -/
structure EthLib where
  /-- The address `common.HexToAddress(s)`. -/
  HexToAddress : String → Address
  /-- The hash `accounts.TextHash(data)` of a personal-sign message. -/
  TextHash : Bytes → Bytes

/-! ## core.VoteService -/

structure VoteService where
  config : Config
  signer : EIP712Signer
  batchInterval : Duration

/-- `NewVoteService`: votes are batched every 5 minutes. -/
def NewVoteService (cfg : Config) (signer : EIP712Signer) : VoteService :=
  { config := cfg, signer := signer, batchInterval := 5 * Minute }

/-- `VoteService.getVoteMessageHash`. -/
def VoteService.getVoteMessageHash (s : VoteService) (c : Crypto) (voter : Address)
    (toolID : Int) (score : Int) (nonce : Nat) : Bytes :=
  let message := "Vote\nTool: " ++ bigString toolID ++ "\nVoter: " ++ voter.Hex ++ "\nScore: "
    ++ toString score ++ "\nNonce: " ++ toString nonce ++ "\nChain: " ++ toString s.config.ChainID
  c.Keccak256 (stringBytes message)

/-- `VoteService.verifyVoteSignature`: the boolean and the reason; the returned
error is always nil. -/
def VoteService.verifyVoteSignature (s : VoteService) (c : Crypto) (k : CryptoKeys)
    (eth : EthLib) (submission : VoteSubmission) : Result (Bool × String) :=
  match hexDecodeString submission.Signature with
  | none => Result.ok (false, "invalid signature format")
  | some signatureBytes =>
    if signatureBytes.length ≠ 65 then Result.ok (false, "signature must be 65 bytes")
    else
      match bigSetString submission.ToolID with
      | none => Result.ok (false, "invalid tool ID")
      | some toolIDBig =>
        let voterAddress := eth.HexToAddress submission.VoterAddress
        let messageHash :=
          s.getVoteMessageHash c voterAddress toolIDBig submission.Score submission.Nonce
        let sigR := signatureBytes.take 32
        let sigS := (signatureBytes.drop 32).take 32
        let vByte := signatureBytes.getD 64 0
        let vByte := if vByte < 27 then vByte + 27 else vByte
        let signature := sigR ++ sigS ++ [vByte]
        match k.SigToPub messageHash signature with
        | (_, some _) => Result.ok (false, "failed to recover public key")
        | (none, none) =>
          Result.panic "runtime error: invalid memory address or nil pointer dereference"
        | (some pubkey, none) =>
          let recoveredAddr := k.PubkeyToAddress pubkey
          if recoveredAddr ≠ voterAddress then
            Result.ok (false, "signature does not match voter address")
          else Result.ok (true, "")

/-- `VoteService.generateVoteID`. -/
def VoteService.generateVoteID (_s : VoteService) (lib : Lib) (submission : VoteSubmission) :
    String :=
  let data := submission.VoterAddress ++ ":" ++ submission.ToolID ++ ":"
    ++ toString submission.Score ++ ":" ++ toString submission.Nonce
  hexEncodeToString (lib.sha256 (stringBytes data))

/-- The test made on the usage counter by `isVoterEligible`: the type assertion
`cached.(int64)` succeeds and `usageCount > 0`. -/
def positiveUsage : Option Value → Bool
  | some (Value.int64 usageCount) => decide (usageCount > 0)
  | _ => false

/-- `VoteService.isVoterEligible`: the boolean, the (always nil) error and the
store afterwards. -/
def VoteService.isVoterEligible (_s : VoteService) (ms : MemoryStore) (now : Time)
    (voterAddress toolID : String) : (Bool × Option String) × MemoryStore :=
  let usageKey := "usage:" ++ voterAddress ++ ":" ++ toolID
  let cached := ms.Get now usageKey
  if positiveUsage cached.1 then ((true, none), cached.2)
  else
    let licenseKey := "license:" ++ voterAddress ++ ":" ++ toolID
    let found := cached.2.Get now licenseKey
    if found.1.isSome then ((true, none), found.2) else ((false, none), found.2)

/-- The type assertion `cached.(*models.ToolReputation)` on a looked-up value. -/
def cachedReputation : Option Value → Option ToolReputation
  | some (Value.reputation rep) => some rep
  | _ => none

/-- `VoteService.updateCachedReputation`: the store afterwards. -/
def VoteService.updateCachedReputation (_s : VoteService) (ms : MemoryStore) (now : Time)
    (toolID : String) (score : Int) : MemoryStore :=
  let cacheKey := "reputation:" ++ toolID
  let cached := ms.Get now cacheKey
  let reputation : ToolReputation :=
    match cachedReputation cached.1 with
    | some rep => rep
    | none =>
      { ToolID := toolID, TotalScore := 0, TotalVotes := 0, LastCalculatedAt := now,
        LastBatchAt := zeroTime }
  let reputation : ToolReputation :=
    { reputation with
      TotalScore := wrap64 (reputation.TotalScore + score)
      TotalVotes := wrap64 (reputation.TotalVotes + 1)
      LastCalculatedAt := now }
  (cached.2.Set now cacheKey (Value.reputation reputation) (1 * Minute)).2

/-- The type assertion `cached.([]*models.Vote)` made by `SubmitVote` on the
pending list: the votes, or the nil slice. -/
def cachedVotes : Option Value → List Vote
  | some (Value.votes votes) => votes
  | _ => []

/-- The last part of `VoteService.SubmitVote` ("4. Create and store vote" and
"5. Update real-time reputation"). -/
def VoteService.SubmitVote.store (s : VoteService) (ms : MemoryStore) (now : Time)
    (submission : VoteSubmission) (voteID : String) :
    Result VoteVerificationResult × MemoryStore :=
  let existingKey := "vote:" ++ voteID
  let vote : Vote :=
    { ID := voteID
      ToolID := submission.ToolID
      VoterAddress := submission.VoterAddress
      Score := submission.Score
      Nonce := submission.Nonce
      Signature := submission.Signature
      CreatedAt := now
      Processed := false
      BatchID := "" }
  let pendingKey := "pending:vote:" ++ submission.ToolID
  let cached := ms.Get now pendingKey
  let pendingVotes := cachedVotes cached.1 ++ [vote]
  let stored := cached.2.Set now pendingKey (Value.votes pendingVotes) (wrap64 (s.batchInterval * 2))
  match stored.1 with
  | some err => (Result.err ("failed to store pending vote: " ++ err), stored.2)
  | none =>
    let cachedVote := stored.2.Set now existingKey (Value.vote vote) (24 * Hour)
    match cachedVote.1 with
    | some err => (Result.err ("failed to cache vote: " ++ err), cachedVote.2)
    | none =>
      (Result.ok { Valid := true, Reason := "", VoteID := voteID },
        s.updateCachedReputation cachedVote.2 now submission.ToolID submission.Score)

/-- The part of `VoteService.SubmitVote` that follows the signature check
("2. Check if vote already exists" to the end). -/
def VoteService.SubmitVote.verified (s : VoteService) (lib : Lib) (ms : MemoryStore)
    (now : Time) (submission : VoteSubmission) : Result VoteVerificationResult × MemoryStore :=
  let voteID := s.generateVoteID lib submission
  let existingKey := "vote:" ++ voteID
  let existing := ms.Get now existingKey
  if existing.1.isSome then
    (Result.ok { Valid := false, Reason := "vote already submitted", VoteID := "" }, existing.2)
  else
    let eligible := s.isVoterEligible existing.2 now submission.VoterAddress submission.ToolID
    match eligible.1.2 with
    | some err => (Result.err ("eligibility check failed: " ++ err), eligible.2)
    | none =>
      if eligible.1.1 = false then
        (Result.ok { Valid := false
                     Reason := "voter not eligible - must use tool before voting"
                     VoteID := "" }, eligible.2)
      else
        VoteService.SubmitVote.store s eligible.2 now submission voteID

/-- `VoteService.SubmitVote`, run at instant `now` on store `ms`. -/
def VoteService.SubmitVote (s : VoteService) (lib : Lib) (c : Crypto) (k : CryptoKeys)
    (eth : EthLib) (ms : MemoryStore) (now : Time) (submission : VoteSubmission) :
    Result VoteVerificationResult × MemoryStore :=
  match s.verifyVoteSignature c k eth submission with
  | Result.err err => (Result.err ("signature verification failed: " ++ err), ms)
  | Result.panic msg => (Result.panic msg, ms)
  | Result.ok (isValid, reason) =>
    if isValid = false then
      (Result.ok { Valid := false, Reason := reason, VoteID := "" }, ms)
    else
      VoteService.SubmitVote.verified s lib ms now submission

/-- The data hashed for one leaf by `generateMerkleRoot`. -/
def leafData (lib : Lib) (vote : Vote) : String :=
  vote.ID ++ ":" ++ vote.VoterAddress ++ ":" ++ toString vote.Score ++ ":"
    ++ toString vote.Nonce ++ ":" ++ lib.formatRFC3339 vote.CreatedAt

/-- The part of `VoteService.generateMerkleRoot` that follows the sort, on the
sorted votes. -/
def VoteService.generateMerkleRoot.digest (lib : Lib) (votes : List Vote) : String :=
  let leafHashes := votes.map (fun vote => lib.sha256 (stringBytes (leafData lib vote)))
  if leafHashes.length = 0 then
    hexEncodeToString (lib.sha256 (stringBytes "empty"))
  else
    hexEncodeToString (lib.sha256 leafHashes.flatten)

/-- `VoteService.generateMerkleRoot`: the slice is first sorted by id, in place. -/
def VoteService.generateMerkleRoot (_s : VoteService) (lib : Lib) (srt : SortLib)
    (votes : List Vote) : String :=
  VoteService.generateMerkleRoot.digest lib (srt.Slice votes lessByID)

/-- `VoteService.updateReputationFromBatch`: the store afterwards. -/
def VoteService.updateReputationFromBatch (_s : VoteService) (ms : MemoryStore) (now : Time)
    (toolID : String) (_batch : VoteBatch) : MemoryStore :=
  let cacheKey := "reputation:" ++ toolID
  let cached := ms.Get now cacheKey
  let reputation : ToolReputation :=
    match cachedReputation cached.1 with
    | some rep => rep
    | none =>
      { ToolID := toolID, TotalScore := 0, TotalVotes := 0, LastCalculatedAt := zeroTime,
        LastBatchAt := zeroTime }
  let reputation : ToolReputation :=
    { reputation with LastBatchAt := now, LastCalculatedAt := now }
  (cached.2.Set now cacheKey (Value.reputation reputation) (1 * Minute)).2

/-- The loop `totalScore += int64(vote.Score)` of `ProcessBatch`. -/
def batchTotalScore (votes : List Vote) : Int :=
  votes.foldl (fun totalScore vote => wrap64 (totalScore + vote.Score)) 0

/-- The loop "Store batch reference in votes" of `ProcessBatch`, over the votes
in their order after the sort: each is written under `vote:{id}`. -/
def storeBatchReference (ms : MemoryStore) (now : Time) (batchID : String)
    (votes : List Vote) : MemoryStore :=
  votes.foldl
    (fun m vote =>
      (m.Set now ("vote:" ++ vote.ID) (Value.vote { vote with BatchID := batchID }) (24 * Hour)).2)
    ms

/-- The part of `VoteService.ProcessBatch` that follows the two checks, on a
non-empty list of votes and the store left by the lookup. -/
def VoteService.ProcessBatch.build (s : VoteService) (lib : Lib) (srt : SortLib)
    (ms : MemoryStore) (now : Time) (toolID : String) (votes : List Vote) :
    Result VoteBatch × MemoryStore :=
  let pendingKey := "pending:vote:" ++ toolID
  let totalScore := batchTotalScore votes
  let marked := votes.map (fun vote => { vote with Processed := true })
  let merkleRoot := s.generateMerkleRoot lib srt marked
  let sorted := srt.Slice marked lessByID
  let batch : VoteBatch :=
    { ID := "batch_" ++ toolID ++ "_" ++ toString (Time.Unix now)
      ToolID := toolID
      VotesCount := Int.ofNat votes.length
      TotalScore := totalScore
      MerkleRoot := merkleRoot
      BlockchainTx := ""
      CommittedAt := zeroTime
      CreatedAt := now }
  let batchKey := "batch:" ++ toolID ++ ":" ++ batch.ID
  let stored := ms.Set now batchKey (Value.batch batch) (24 * Hour)
  match stored.1 with
  | some err => (Result.err ("failed to store batch: " ++ err), stored.2)
  | none =>
    let referenced := storeBatchReference stored.2 now batch.ID sorted
    let cleared := (referenced.Delete pendingKey).2
    (Result.ok batch, s.updateReputationFromBatch cleared now toolID batch)

/-- `VoteService.ProcessBatch`, run at instant `now` on store `ms`. -/
def VoteService.ProcessBatch (s : VoteService) (lib : Lib) (srt : SortLib) (ms : MemoryStore)
    (now : Time) (toolID : String) : Result VoteBatch × MemoryStore :=
  let pendingKey := "pending:vote:" ++ toolID
  let cached := ms.Get now pendingKey
  match cached.1 with
  | none => (Result.err ("no pending votes for tool " ++ toolID), cached.2)
  | some (Value.votes votes) =>
    if votes.length = 0 then (Result.err "no valid votes to process", cached.2)
    else VoteService.ProcessBatch.build s lib srt cached.2 now toolID votes
  | some _ => (Result.err "no valid votes to process", cached.2)

/-! ## core.BatchProcessor -/

structure BatchProcessor where
  voteService : VoteService
  interval : Duration

/-- `MemoryStore.Keys`: the keys of the map, in the order of iteration. -/
def MemoryStore.Keys (ms : MemoryStore) : List String := ms.data.map Prod.fst

/-- The test `len(key) > 12 && key[:12] == "pending:vote:"` of
`processAllPendingBatches`, on the bytes of the key. -/
def isPendingVoteKey (key : String) : Bool :=
  decide ((stringBytes key).length > 12) &&
    decide ((stringBytes key).take 12 = stringBytes "pending:vote:")

/-- The body of the loop of `processAllPendingBatches` for one key: the tool
ids dispatched so far with the outcome of `ProcessBatch`, and the store. The
tool id is `key[12:]`; the twelve bytes dropped are single-byte characters
whenever the test succeeds. -/
def BatchProcessor.processKey (bp : BatchProcessor) (lib : Lib) (srt : SortLib) (now : Time)
    (acc : List (String × Result VoteBatch) × MemoryStore) (key : String) :
    List (String × Result VoteBatch) × MemoryStore :=
  if isPendingVoteKey key then
    let toolID := String.mk (key.data.drop 12)
    let processed := bp.voteService.ProcessBatch lib srt acc.2 now toolID
    (acc.1 ++ [(toolID, processed.1)], processed.2)
  else acc

/-- `BatchProcessor.processAllPendingBatches`: the calls of `ProcessBatch` made,
in order, each with its tool id and outcome, and the store afterwards. -/
def BatchProcessor.processAllPendingBatches (bp : BatchProcessor) (lib : Lib) (srt : SortLib)
    (ms : MemoryStore) (now : Time) : List (String × Result VoteBatch) × MemoryStore :=
  ms.Keys.foldl (bp.processKey lib srt now) ([], ms)

/-! ## core.VerificationService -/

structure VerificationService where
  config : Config
  blockchain : BlockchainInterface

/-- `VerificationService.generateProvenanceHash`, called at instant `now`. -/
def VerificationService.generateProvenanceHash (_s : VerificationService) (lib : Lib)
    (now : Time) (licenseID toolID userAddress : String) : String :=
  let timestamp := Time.UnixNano now
  let data := licenseID ++ ":" ++ toolID ++ ":" ++ userAddress ++ ":" ++ toString timestamp
  hexEncodeToString (lib.sha256 (stringBytes data))

/-- The decoding of the signature by `ValidateSignature`: `hexutil.Decode`, and
`hex.DecodeString` when that fails. -/
def decodeSignature (signature : String) : Option Bytes :=
  match hexutilDecode signature with
  | some b => some b
  | none => hexDecodeString signature

/-- `VerificationService.ValidateSignature`, called at instant `now`; `timestamp`
is an `int64`. -/
def VerificationService.ValidateSignature (_s : VerificationService) (k : CryptoKeys)
    (eth : EthLib) (now : Time) (userAddress : String) (timestamp : Int) (signature : String) :
    Result Bool :=
  let maxAge : Int := 300
  let nowSec := Time.Unix now
  if wrap64 (nowSec - timestamp) > maxAge ∨ timestamp > nowSec then Result.ok false
  else
    let msg := stringBytes (userAddress ++ ":" ++ toString timestamp)
    let hash := eth.TextHash msg
    match decodeSignature signature with
    | none => Result.ok false
    | some sigBytes =>
      if sigBytes.length ≠ 65 then Result.ok false
      else
        let sigBytes :=
          if sigBytes.getD 64 0 = 27 ∨ sigBytes.getD 64 0 = 28 then
            sigBytes.set 64 (sigBytes.getD 64 0 - 27)
          else sigBytes
        match k.SigToPub hash sigBytes with
        | (_, some _) => Result.ok false
        | (none, none) =>
          Result.panic "runtime error: invalid memory address or nil pointer dereference"
        | (some pubKey, none) =>
          Result.ok (decide (k.PubkeyToAddress pubKey = eth.HexToAddress userAddress))

/-! ## A concrete vote service, for evaluating the statements -/

/-- The contract of `crypto.SigToPub` on the recovery byte: a signature whose
byte 64 is 4 or more is refused with an error. -/
def CryptoKeys.RefusesHighRecoveryByte (k : CryptoKeys) : Prop :=
  ∀ hash signature : Bytes, 4 ≤ signature.getD 64 0 →
    ∃ e, k.SigToPub hash signature = (none, some e)

/-- Stand-ins for the address functions: an address is rendered in lowercase,
and the hash of a text is the text. -/
def exampleEth : EthLib :=
  { HexToAddress := fun s => { Hex := String.mk (s.data.map Char.toLower) }
    TextHash := fun b => b }

/-- Stand-ins for key recovery in which the first 20 bytes of a signature are
the address of its signer. Recovery succeeds when the recovery byte is below 4,
as with `crypto.SigToPub`. -/
def strictKeys : CryptoKeys :=
  { HexToECDSA := fun _ => (some [], none)
    PublicECDSA := fun _ => some [4]
    PubkeyToAddress := fun pub => { Hex := "0x" ++ hexEncodeToString pub }
    SigToPub := fun _ signature =>
      if signature.getD 64 0 < 4 then (some (signature.take 20), none)
      else (none, some "invalid signature recovery id") }

def exampleVoteService : VoteService :=
  NewVoteService (exampleService noLicenseChain).config exampleSigner

/-- The voter of the examples, in lowercase. -/
def exampleVoter : String := "0x70997970c51812dc3a010c7d01b50e0d17dc79c8"

/-- The same address with its letters in upper case. -/
def exampleVoterUpper : String := "0x70997970C51812DC3A010C7D01B50E0D17DC79C8"

/-- A 65-byte signature, in hexadecimal, that the stand-ins attribute to
`exampleVoter`: the 20 bytes of the address, 44 zero bytes, recovery byte 1. -/
def exampleSignature : String :=
  "70997970c51812dc3a010c7d01b50e0d17dc79c8" ++ String.mk (List.replicate 88 '0') ++ "01"

/-- An upvote of tool 42 by `exampleVoter`. -/
def exampleSubmission : VoteSubmission :=
  { ToolID := "42"
    VoterAddress := exampleVoter
    Score := 1
    Nonce := 7
    Signature := exampleSignature }

/-- A store in which `exampleVoter` has a usage counter for tool 42. -/
def exampleUsageStore : MemoryStore :=
  { data := [("usage:0x70997970c51812dc3a010c7d01b50e0d17dc79c8:42",
      { value := Value.int64 1, expiresAt := Hour })] }

/-- Two votes under one id, cast by different voters. -/
def exampleVoteA : Vote :=
  { ID := "vote-1", ToolID := "42", VoterAddress := "0xaa", Score := 1, Nonce := 1,
    Signature := "sig1", CreatedAt := 0, Processed := false, BatchID := "" }

def exampleVoteB : Vote :=
  { ID := "vote-1", ToolID := "42", VoterAddress := "0xbb", Score := -1, Nonce := 2,
    Signature := "sig2", CreatedAt := 0, Processed := false, BatchID := "" }

/-- A vote with an id of its own. -/
def exampleVoteC : Vote :=
  { ID := "vote-2", ToolID := "42", VoterAddress := "0xaa", Score := -1, Nonce := 2,
    Signature := "sig2", CreatedAt := 0, Processed := false, BatchID := "" }

/-- A store whose pending list for tool 42 holds two votes. -/
def examplePendingVotesStore : MemoryStore :=
  { data := [("pending:vote:42",
      { value := Value.votes [exampleVoteA, exampleVoteC], expiresAt := Hour })] }

def exampleBatchProcessor : BatchProcessor :=
  { voteService := exampleVoteService, interval := 5 * Minute }

def exampleVerificationService : VerificationService :=
  { config := (exampleService noLicenseChain).config, blockchain := noLicenseChain }

/-- A store in which the vote of `exampleSubmission` is recorded under its
vote id for one hour, as the test `VoteReplayProtection` sets it up, beside the
usage counter of the voter. -/
def exampleVotedStore : MemoryStore :=
  { data := [("vote:80989baeb5b9957c82f75211833a0f46cac4fbd9eacb0faffa442a0dcdf91edf",
      { value := Value.vote
          { ID := "80989baeb5b9957c82f75211833a0f46cac4fbd9eacb0faffa442a0dcdf91edf"
            ToolID := "42"
            VoterAddress := exampleVoter
            Score := 1
            Nonce := 7
            Signature := exampleSignature
            CreatedAt := 0
            Processed := false
            BatchID := "" }
        expiresAt := Hour }),
      ("usage:0x70997970c51812dc3a010c7d01b50e0d17dc79c8:42",
        { value := Value.int64 1, expiresAt := Hour })] }

/-- The bytes of `exampleSignature`. -/
def exampleSignatureBytes : Bytes :=
  [0x70, 0x99, 0x79, 0x70, 0xc5, 0x18, 0x12, 0xdc, 0x3a, 0x01, 0x0c, 0x7d, 0x01, 0xb5, 0x0e, 0x0d,
   0x17, 0xdc, 0x79, 0xc8] ++ List.replicate 44 0 ++ [1]

/-! ## Lemmas on the map and the store -/

theorem wrap64_of_range {n : Int} (h1 : -2 ^ 63 ≤ n) (h2 : n < 2 ^ 63) : wrap64 n = n := by
  unfold wrap64
  omega

theorem mapGet_mapDelete_self (m : List (String × entry)) (k : String) :
    mapGet (mapDelete m k) k = none := by
  induction m with
  | nil => rfl
  | cons p rest ih =>
    obtain ⟨k', e⟩ := p
    by_cases h : k' = k <;> simp [mapDelete, mapGet, h, ih]

theorem mapGet_mapDelete_ne (m : List (String × entry)) {k k' : String} (h : k ≠ k') :
    mapGet (mapDelete m k) k' = mapGet m k' := by
  induction m with
  | nil => rfl
  | cons p rest ih =>
    obtain ⟨k₀, e⟩ := p
    by_cases h₀ : k₀ = k
    · subst h₀; simp [mapDelete, mapGet, h, ih]
    · by_cases h₁ : k₀ = k'
      · subst h₁
        have h₂ : ¬ k₀ = k := h₀
        simp [mapDelete, mapGet, h₂]
      · simp [mapDelete, mapGet, h₀, h₁, ih]

theorem mapGet_mapSet_self (m : List (String × entry)) (k : String) (e : entry) :
    mapGet (mapSet m k e) k = some e := by
  simp [mapSet, mapGet]

theorem mapGet_mapSet_ne (m : List (String × entry)) {k k' : String} (e : entry) (h : k ≠ k') :
    mapGet (mapSet m k e) k' = mapGet m k' := by
  simp [mapSet, mapGet, h, mapGet_mapDelete_ne]

theorem licenseKey_ne_pendingKey (u u' : Address) (t t' : Int) :
    licenseKey u t ≠ pendingKey u' t' := by
  intro h
  have h2 := congrArg String.data h
  simp [licenseKey, pendingKey] at h2

theorem licenseKey_ne_freeTierKey (u u' : Address) (t t' : Int) :
    licenseKey u t ≠ freeTierKey u' t' := by
  intro h
  have h2 := congrArg String.data h
  simp [licenseKey, freeTierKey] at h2

theorem pendingKey_ne_freeTierKey (u u' : Address) (t t' : Int) :
    pendingKey u t ≠ freeTierKey u' t' := by
  intro h
  have h2 := congrArg String.data h
  simp [pendingKey, licenseKey, freeTierKey] at h2

/-- The value returned by `Get`, in terms of the map. -/
theorem Get_fst (ms : MemoryStore) (now : Time) (k : String) :
    (ms.Get now k).1 =
      match mapGet ms.data k with
      | none => none
      | some e => if e.expiresAt < now then none else some e.value := by
  unfold MemoryStore.Get
  cases h : mapGet ms.data k with
  | none => rfl
  | some e => by_cases h2 : e.expiresAt < now <;> simp [Time.After, h2]

/-- A successful `Get` leaves the store as it is. -/
theorem Get_snd_of_found (ms : MemoryStore) (now : Time) (k : String) (v : Value)
    (h : (ms.Get now k).1 = some v) : (ms.Get now k).2 = ms := by
  unfold MemoryStore.Get at h ⊢
  cases h1 : mapGet ms.data k with
  | none => rfl
  | some e =>
    rw [h1] at h
    by_cases h2 : e.expiresAt < now
    · simp [Time.After, h2] at h
    · simp [Time.After, h2]

/-- The map after `Get`: only an expired entry under the key read is removed. -/
theorem Get_snd_data (ms : MemoryStore) (now : Time) (k k' : String) :
    mapGet (ms.Get now k).2.data k' =
      if k = k' ∧ (ms.Get now k).1 = none then none else mapGet ms.data k' := by
  unfold MemoryStore.Get
  cases h1 : mapGet ms.data k with
  | none =>
    by_cases hk : k = k'
    · subst hk; simp [h1]
    · simp [hk]
  | some e =>
    by_cases h2 : e.expiresAt < now
    · by_cases hk : k = k'
      · subst hk; simp [Time.After, h2, mapGet_mapDelete_self]
      · simp [Time.After, h2, hk, mapGet_mapDelete_ne]
    · simp [Time.After, h2]

theorem Get_snd_data_ne (ms : MemoryStore) (now : Time) {k k' : String} (h : k ≠ k') :
    mapGet (ms.Get now k).2.data k' = mapGet ms.data k' := by
  rw [Get_snd_data]; simp [h]

/-- Reading one key does not change what a later read of any key returns. -/
theorem Get_Get_fst (ms : MemoryStore) {now t : Time} (h : now ≤ t) (k k' : String) :
    ((ms.Get now k).2.Get t k').1 = (ms.Get t k').1 := by
  rw [Get_fst, Get_fst, Get_snd_data]
  by_cases hk : k = k'
  · subst hk
    rw [Get_fst]
    cases h1 : mapGet ms.data k with
    | none => simp
    | some e =>
      by_cases h2 : e.expiresAt < now
      · have h3 : e.expiresAt < t := lt_of_lt_of_le h2 h
        simp [h2, h3]
      · simp [h2]
  · simp [hk]

theorem Get_of_absent (ms : MemoryStore) (now : Time) (k : String)
    (h : mapGet ms.data k = none) : ms.Get now k = (none, ms) := by
  simp [MemoryStore.Get, h]

theorem Set_fst (ms : MemoryStore) (now : Time) (k : String) (v : Value) (ttl : Duration) :
    (ms.Set now k v ttl).1 = none := rfl

theorem Set_snd_data_self (ms : MemoryStore) (now : Time) (k : String) (v : Value)
    (ttl : Duration) :
    mapGet (ms.Set now k v ttl).2.data k = some { value := v, expiresAt := now + ttl } := by
  simp [MemoryStore.Set, mapGet_mapSet_self, Time.Add]

theorem Set_snd_data_ne (ms : MemoryStore) (now : Time) {k k' : String} (v : Value)
    (ttl : Duration) (h : k ≠ k') :
    mapGet (ms.Set now k v ttl).2.data k' = mapGet ms.data k' := by
  simp [MemoryStore.Set, mapGet_mapSet_ne _ _ h]

theorem Increment_err (ms : MemoryStore) (now : Time) (k : String) (d : Int) (ttl : Duration) :
    (ms.Increment now k d ttl).1.2 = none := rfl

theorem Increment_snd_data_self (ms : MemoryStore) (now : Time) (k : String) (d : Int)
    (ttl : Duration) :
    mapGet (ms.Increment now k d ttl).2.data k =
      some { value := Value.int64 (ms.Increment now k d ttl).1.1, expiresAt := now + ttl } := by
  simp [MemoryStore.Increment, mapGet_mapSet_self, Time.Add]

theorem Increment_snd_data_ne (ms : MemoryStore) (now : Time) {k k' : String} (d : Int)
    (ttl : Duration) (h : k ≠ k') :
    mapGet (ms.Increment now k d ttl).2.data k' = mapGet ms.data k' := by
  simp [MemoryStore.Increment, mapGet_mapSet_ne _ _ h]

theorem Increment_of_absent (ms : MemoryStore) (now : Time) (k : String) (ttl : Duration)
    (h : mapGet ms.data k = none) : (ms.Increment now k 1 ttl).1.1 = 1 := by
  simp [MemoryStore.Increment, h, wrap64]

theorem Increment_of_counter (ms : MemoryStore) (now : Time) (k : String) (ttl : Duration)
    (c : Int) (e : Time) (h : mapGet ms.data k = some { value := Value.int64 c, expiresAt := e })
    (hlive : now ≤ e) : (ms.Increment now k 1 ttl).1.1 = wrap64 (c + 1) := by
  have : ¬ e < now := not_lt.mpr hlive
  simp [MemoryStore.Increment, h, Time.After, this]

/-- The counter value returned by `Increment` depends only on the entry under the key. -/
theorem Increment_congr (ms ms' : MemoryStore) (now : Time) (k : String) (d : Int)
    (ttl : Duration) (h : mapGet ms'.data k = mapGet ms.data k) :
    (ms'.Increment now k d ttl).1 = (ms.Increment now k d ttl).1 := by
  simp [MemoryStore.Increment, h]

theorem freeTier_eq (s : LicenseService) (lib : Lib) (ms : MemoryStore) (now : Time)
    (user : Address) (toolID : Int) :
    LicenseService.VerifyAccess.freeTier s lib ms now user toolID =
      (LicenseService.VerifyAccess.freeTierResult s lib now user toolID
          (ms.Increment now (freeTierKey user toolID) 1 (24 * Hour)).1.1,
        (ms.Increment now (freeTierKey user toolID) 1 (24 * Hour)).2) := by
  unfold LicenseService.VerifyAccess.freeTier LicenseService.VerifyAccess.freeTierResult
  simp only [Increment_err]
  split <;> rfl

/-- With no license found in the cache and a chain view that yields no license,
`VerifyAccess` is the free-tier step. -/
theorem VerifyAccess_of_no_license (s : LicenseService) (lib : Lib) (ms : MemoryStore)
    (now : Time) (user : Address) (toolID : Int)
    (hlic : unexpiredLicense (ms.Get now (licenseKey user toolID)).1 now = none)
    (hchain : ¬ ((s.blockchain.IsLicenseValid user toolID).2 = none ∧
      (s.blockchain.IsLicenseValid user toolID).1 = true)) :
    s.VerifyAccess lib ms now user toolID =
      LicenseService.VerifyAccess.freeTier s lib (ms.Get now (licenseKey user toolID)).2
        now user toolID := by
  unfold LicenseService.VerifyAccess
  simp only [hlic]
  unfold LicenseService.VerifyAccess.chain
  simp only [hchain, if_false]

theorem unexpiredLicense_none (now : Time) : unexpiredLicense none now = none := rfl

/-- One free-tier call on a store without license entry: the result, and the
entries under the license key and the counter key afterwards. -/
theorem VerifyAccess_free_step (s : LicenseService) (lib : Lib) (ms : MemoryStore)
    (now : Time) (user : Address) (toolID : Int)
    (hlic : mapGet ms.data (licenseKey user toolID) = none)
    (hchain : s.blockchain.IsLicenseValid user toolID = (false, none)) :
    (s.VerifyAccess lib ms now user toolID).1 =
        LicenseService.VerifyAccess.freeTierResult s lib now user toolID
          (ms.Increment now (freeTierKey user toolID) 1 (24 * Hour)).1.1 ∧
      mapGet (s.VerifyAccess lib ms now user toolID).2.data (licenseKey user toolID) = none ∧
      mapGet (s.VerifyAccess lib ms now user toolID).2.data (freeTierKey user toolID) =
        some { value := Value.int64 (ms.Increment now (freeTierKey user toolID) 1 (24 * Hour)).1.1,
               expiresAt := now + 24 * Hour } := by
  have hg := Get_of_absent ms now _ hlic
  have h1 : s.VerifyAccess lib ms now user toolID =
      LicenseService.VerifyAccess.freeTier s lib ms now user toolID := by
    rw [VerifyAccess_of_no_license s lib ms now user toolID (by rw [hg]; rfl)
      (by rw [hchain]; simp), hg]
  rw [h1, freeTier_eq]
  refine ⟨rfl, ?_, ?_⟩
  · simp only
    rw [Increment_snd_data_ne _ _ _ _ (licenseKey_ne_freeTierKey user user toolID toolID).symm]
    exact hlic
  · simp only
    rw [Increment_snd_data_self]

theorem VerifyAccessSeq_counting (s : LicenseService) (lib : Lib) (user : Address) (toolID : Int)
    (hchain : s.blockchain.IsLicenseValid user toolID = (false, none)) :
    ∀ (ts : List Time) (ms : MemoryStore) (c : Nat) (last : Time),
      mapGet ms.data (licenseKey user toolID) = none →
      mapGet ms.data (freeTierKey user toolID) =
        some { value := Value.int64 c, expiresAt := last + 24 * Hour } →
      List.Chain (fun prev next => next < prev + 24 * Hour) last ts →
      c + ts.length < 2 ^ 62 →
      ∀ (j : Nat) (t : Time), ts[j]? = some t →
        (LicenseService.VerifyAccessSeq s lib user toolID ms ts).1[j]? =
          some (LicenseService.VerifyAccess.freeTierResult s lib t user toolID (c + j + 1)) := by
  intro ts
  induction ts with
  | nil => intro ms c last _ _ _ _ j t h; simp at h
  | cons t₀ rest ih =>
    intro ms c last hlic hfree hgap hbound j t hj
    have hstep := VerifyAccess_free_step s lib ms t₀ user toolID hlic hchain
    have hlive : t₀ ≤ last + 24 * Hour := le_of_lt (List.chain_cons.mp hgap).1
    have hinc : (ms.Increment t₀ (freeTierKey user toolID) 1 (24 * Hour)).1.1 = (c : Int) + 1 := by
      rw [Increment_of_counter ms t₀ _ _ c _ hfree hlive]
      apply wrap64_of_range <;> omega
    rw [hinc] at hstep
    obtain ⟨hres, hlic', hfree'⟩ := hstep
    cases j with
    | zero =>
      simp only [List.getElem?_cons_zero, Option.some.injEq] at hj
      subst hj
      simp [LicenseService.VerifyAccessSeq, hres]
    | succ j' =>
      simp only [List.getElem?_cons_succ] at hj
      have hrec := ih (s.VerifyAccess lib ms t₀ user toolID).2 (c + 1) t₀ hlic'
        (by rw [hfree']; simp) (List.chain_cons.mp hgap).2
        (by simp only [List.length_cons] at hbound; omega) j' t hj
      simp only [LicenseService.VerifyAccessSeq, List.getElem?_cons_succ]
      rw [hrec]
      congr 2
      push_cast
      ring

/-! ## Characterisation of `RequestLicense` and `RecordLicenseMinted` -/

/-- The three ways `RequestLicense` can go, in terms of what the two lookups and
the signer return. -/
theorem RequestLicense_cases (s : LicenseService) (lib : Lib) (c : Crypto) (ms : MemoryStore)
    (now : Time) (req : LicenseRequest) :
    let cached := ms.Get now (licenseKey req.UserAddress req.ToolID)
    let pending := cached.2.Get now (pendingKey req.UserAddress req.ToolID)
    let expiresAt := Time.Unix (Time.Add now (30 * 24 * Hour))
    let nonce := Time.UnixNano now
    (∃ license, unexpiredLicense cached.1 now = some license ∧
      s.RequestLicense lib c ms now req =
        (Result.err ("license already active until " ++ lib.formatRFC3339 license.ExpiresAt),
          cached.2)) ∨
    (unexpiredLicense cached.1 now = none ∧ (∃ v, pending.1 = some v) ∧
      s.RequestLicense lib c ms now req =
        (Result.err "license request already pending", pending.2)) ∨
    (unexpiredLicense cached.1 now = none ∧ pending.1 = none ∧
      ((∃ err, s.signer.CreateLicenseSignature c req.UserAddress req.ToolID expiresAt nonce =
            Result.err err ∧
          s.RequestLicense lib c ms now req =
            (Result.err ("failed to create signature: " ++ err), pending.2)) ∨
       (∃ msg, s.signer.CreateLicenseSignature c req.UserAddress req.ToolID expiresAt nonce =
            Result.panic msg ∧
          s.RequestLicense lib c ms now req = (Result.panic msg, pending.2)) ∨
       (∃ r sigS sigV,
          s.signer.CreateLicenseSignature c req.UserAddress req.ToolID expiresAt nonce =
            Result.ok (r, sigS, sigV) ∧
          s.RequestLicense lib c ms now req =
            (Result.ok
              { ToolID := req.ToolID
                User := req.UserAddress
                ExpiresAt := expiresAt
                Nonce := nonce
                SignatureR := hexEncodeToString r
                SignatureS := hexEncodeToString sigS
                SignatureV := hexEncodeToString sigV
                Price := "10000000000000000"
                Contract := s.config.LicenseNFTAddress },
             (pending.2.Set now (pendingKey req.UserAddress req.ToolID)
                (Value.license
                  { UserAddress := req.UserAddress.Hex
                    ToolID := bigString req.ToolID
                    ExpiresAt := timeUnix (bigInt64 expiresAt)
                    Nonce := bigString nonce
                    Price := "10000000000000000"
                    CreatedAt := now
                    MaxCalls := 0
                    CallsUsed := 0
                    Tier := "" }) (10 * Minute)).2)))) := by
  intro cached pending expiresAt nonce
  cases hA : unexpiredLicense cached.1 now with
  | some license =>
    left
    refine ⟨license, rfl, ?_⟩
    simp only [LicenseService.RequestLicense]
    rw [show unexpiredLicense (ms.Get now (licenseKey req.UserAddress req.ToolID)).1 now
      = some license from hA]
  | none =>
    right
    have hA' : unexpiredLicense (ms.Get now (licenseKey req.UserAddress req.ToolID)).1 now
      = none := hA
    cases hP : pending.1 with
    | some v =>
      left
      have hP' : ((ms.Get now (licenseKey req.UserAddress req.ToolID)).2.Get now
        ("pending:" ++ licenseKey req.UserAddress req.ToolID)).1 = some v := hP
      refine ⟨rfl, ⟨v, rfl⟩, ?_⟩
      simp only [LicenseService.RequestLicense, hA', hP']
      rfl
    | none =>
      right
      have hP' : ((ms.Get now (licenseKey req.UserAddress req.ToolID)).2.Get now
        ("pending:" ++ licenseKey req.UserAddress req.ToolID)).1 = none := hP
      refine ⟨rfl, rfl, ?_⟩
      cases hS : s.signer.CreateLicenseSignature c req.UserAddress req.ToolID expiresAt nonce with
      | err e =>
        left
        have hS' : s.signer.CreateLicenseSignature c req.UserAddress req.ToolID
          (Time.Unix (Time.Add now (30 * 24 * Hour))) (Time.UnixNano now) = Result.err e := hS
        refine ⟨e, rfl, ?_⟩
        simp only [LicenseService.RequestLicense, hA', hP', hS']
        rfl
      | panic m =>
        right; left
        have hS' : s.signer.CreateLicenseSignature c req.UserAddress req.ToolID
          (Time.Unix (Time.Add now (30 * 24 * Hour))) (Time.UnixNano now) = Result.panic m := hS
        refine ⟨m, rfl, ?_⟩
        simp only [LicenseService.RequestLicense, hA', hP', hS']
        rfl
      | ok sig =>
        right; right
        obtain ⟨r, sigS, sigV⟩ := sig
        have hS' : s.signer.CreateLicenseSignature c req.UserAddress req.ToolID
          (Time.Unix (Time.Add now (30 * 24 * Hour))) (Time.UnixNano now)
            = Result.ok (r, sigS, sigV) := hS
        refine ⟨r, sigS, sigV, rfl, ?_⟩
        simp only [LicenseService.RequestLicense, hA', hP', hS', Set_fst]
        rfl

/-- The four ways `RecordLicenseMinted` can go, in terms of what the lookup of
the pending entry returns. -/
theorem RecordLicenseMinted_cases (s : LicenseService) (ms : MemoryStore) (now : Time)
    (user : Address) (toolID expiresAt nonce : Int) :
    let cached := ms.Get now (pendingKey user toolID)
    (cached.1 = none ∧
      s.RecordLicenseMinted ms now user toolID expiresAt nonce =
        (some "no pending license found", cached.2)) ∨
    (∃ p, cached.1 = some (Value.license p) ∧ p.Nonce ≠ bigString nonce ∧
      s.RecordLicenseMinted ms now user toolID expiresAt nonce =
        (some "nonce mismatch", cached.2)) ∨
    (∃ p, cached.1 = some (Value.license p) ∧ p.Nonce = bigString nonce ∧
      s.RecordLicenseMinted ms now user toolID expiresAt nonce =
        (none,
          ((cached.2.Set now (licenseKey user toolID)
            (Value.license
              { UserAddress := user.Hex
                ToolID := bigString toolID
                ExpiresAt := timeUnix (bigInt64 expiresAt)
                Nonce := ""
                Price := ""
                CreatedAt := now
                MaxCalls := 1000
                CallsUsed := 0
                Tier := "licensed" }) (30 * 24 * Hour)).2.Delete (pendingKey user toolID)).2)) ∨
    (∃ v, cached.1 = some v ∧ (∀ p, v ≠ Value.license p) ∧
      s.RecordLicenseMinted ms now user toolID expiresAt nonce =
        (some "invalid pending license format", cached.2)) := by
  intro cached
  have hc : ms.Get now ("pending:" ++ licenseKey user toolID) = cached := rfl
  cases hv : cached.1 with
  | none =>
    left
    refine ⟨rfl, ?_⟩
    simp only [LicenseService.RecordLicenseMinted, hc, hv]
  | some v =>
    right
    cases v with
    | license p =>
      by_cases hn : p.Nonce = bigString nonce
      · right; left
        refine ⟨p, rfl, hn, ?_⟩
        simp only [LicenseService.RecordLicenseMinted, hc, hv, hn, Set_fst]
        simp
        rfl
      · left
        refine ⟨p, rfl, hn, ?_⟩
        simp only [LicenseService.RecordLicenseMinted, hc, hv]
        simp [hn]
    | int64 n =>
      right; right
      refine ⟨_, rfl, by simp, ?_⟩
      simp only [LicenseService.RecordLicenseMinted, hc, hv]
    | other d =>
      right; right
      refine ⟨_, rfl, by simp, ?_⟩
      simp only [LicenseService.RecordLicenseMinted, hc, hv]
    | vote x =>
      right; right
      refine ⟨_, rfl, by simp, ?_⟩
      simp only [LicenseService.RecordLicenseMinted, hc, hv]
    | votes l =>
      right; right
      refine ⟨_, rfl, by simp, ?_⟩
      simp only [LicenseService.RecordLicenseMinted, hc, hv]
    | reputation r =>
      right; right
      refine ⟨_, rfl, by simp, ?_⟩
      simp only [LicenseService.RecordLicenseMinted, hc, hv]
    | batch b =>
      right; right
      refine ⟨_, rfl, by simp, ?_⟩
      simp only [LicenseService.RecordLicenseMinted, hc, hv]

/-- The cached-license step of `VerifyAccess`. -/
theorem VerifyAccess_of_cached (s : LicenseService) (lib : Lib) (ms : MemoryStore) (now : Time)
    (user : Address) (toolID : Int) (license : License)
    (h : unexpiredLicense (ms.Get now (licenseKey user toolID)).1 now = some license) :
    s.VerifyAccess lib ms now user toolID =
      (Result.ok
        { Valid := true
          Tier := "licensed"
          CallsRemaining := wrap64 (license.MaxCalls - wrap64 (license.CallsUsed + 1))
          ExpiresAt := some license.ExpiresAt
          ProvenanceHash := ""
          Reason := "" },
       ((ms.Get now (licenseKey user toolID)).2.Set now (licenseKey user toolID)
          (Value.license { license with CallsUsed := wrap64 (license.CallsUsed + 1) })
          (24 * Hour)).2) := by
  simp only [LicenseService.VerifyAccess, h, Set_fst]

theorem unexpiredLicense_eq_some {cached : Option Value} {now : Time} {license : License} :
    unexpiredLicense cached now = some license ↔
      cached = some (Value.license license) ∧ now < license.ExpiresAt := by
  unfold unexpiredLicense
  split
  · rename_i l
    by_cases h : now < l.ExpiresAt
    · simp only [Time.Before, h, decide_True, if_true, Option.some.injEq, Value.license.injEq]
      constructor
      · intro e; subst e; exact ⟨rfl, h⟩
      · intro e; exact e.1
    · simp only [Time.Before, h, decide_False, Bool.false_eq_true, if_false, Option.some.injEq,
        Value.license.injEq]
      constructor
      · intro e; cases e
      · intro e; obtain ⟨e1, e2⟩ := e; subst e1; exact absurd e2 h
  · rename_i hne
    constructor
    · intro e; cases e
    · intro e; exact absurd e.1 (hne license)

theorem Get_of_live (ms : MemoryStore) (now : Time) (k : String) (e : entry)
    (h : mapGet ms.data k = some e) (hl : now ≤ e.expiresAt) :
    ms.Get now k = (some e.value, ms) := by
  have : ¬ e.expiresAt < now := not_lt.mpr hl
  simp [MemoryStore.Get, h, Time.After, this]

theorem Get_of_expired (ms : MemoryStore) (now : Time) (k : String) (e : entry)
    (h : mapGet ms.data k = some e) (hl : e.expiresAt < now) :
    ms.Get now k = (none, { data := mapDelete ms.data k }) := by
  simp [MemoryStore.Get, h, Time.After, hl]

theorem Delete_snd_data_self (ms : MemoryStore) (k : String) :
    mapGet (ms.Delete k).2.data k = none := by
  simp [MemoryStore.Delete, mapGet_mapDelete_self]

theorem Delete_snd_data_ne (ms : MemoryStore) {k k' : String} (h : k ≠ k') :
    mapGet (ms.Delete k).2.data k' = mapGet ms.data k' := by
  simp [MemoryStore.Delete, mapGet_mapDelete_ne _ h]

/-- After a successful `RequestLicense` the pending key holds an entry with the
returned nonce and a 10-minute TTL. -/
theorem RequestLicense_ok_pending (s : LicenseService) (lib : Lib) (c : Crypto)
    (ms : MemoryStore) (now : Time) (req : LicenseRequest) (resp : LicenseResponse)
    (h : (s.RequestLicense lib c ms now req).1 = Result.ok resp) :
    ∃ p : License, p.Nonce = bigString resp.Nonce ∧
      mapGet (s.RequestLicense lib c ms now req).2.data (pendingKey req.UserAddress req.ToolID) =
        some { value := Value.license p, expiresAt := now + 10 * Minute } := by
  rcases RequestLicense_cases s lib c ms now req with
    ⟨l, _, e⟩ | ⟨_, _, e⟩ | ⟨_, _, ⟨_, _, e⟩ | ⟨_, _, e⟩ | ⟨r, sS, sV, _, e⟩⟩
  · rw [e] at h; cases h
  · rw [e] at h; cases h
  · rw [e] at h; cases h
  · rw [e] at h; cases h
  · rw [e] at h ⊢
    simp only [Result.ok.injEq] at h
    subst h
    exact ⟨_, rfl, Set_snd_data_self _ _ _ _ _⟩

/-- Recording with the nonce of a live pending entry succeeds and leaves a
licensed entry with a 30-day TTL and no pending entry. -/
theorem RecordLicenseMinted_of_pending (s : LicenseService) (ms : MemoryStore) (now : Time)
    (user : Address) (toolID expiresAt nonce : Int) (p : License) (e : Time)
    (hp : mapGet ms.data (pendingKey user toolID) = some { value := Value.license p, expiresAt := e })
    (hlive : now ≤ e) (hnonce : p.Nonce = bigString nonce) :
    (s.RecordLicenseMinted ms now user toolID expiresAt nonce).1 = none ∧
    mapGet (s.RecordLicenseMinted ms now user toolID expiresAt nonce).2.data
        (licenseKey user toolID) =
      some { value := Value.license
              { UserAddress := user.Hex
                ToolID := bigString toolID
                ExpiresAt := timeUnix (bigInt64 expiresAt)
                Nonce := ""
                Price := ""
                CreatedAt := now
                MaxCalls := 1000
                CallsUsed := 0
                Tier := "licensed" },
             expiresAt := now + 30 * 24 * Hour } ∧
    mapGet (s.RecordLicenseMinted ms now user toolID expiresAt nonce).2.data
        (pendingKey user toolID) = none := by
  have hg := Get_of_live ms now _ _ hp hlive
  rcases RecordLicenseMinted_cases s ms now user toolID expiresAt nonce with
    ⟨h1, _⟩ | ⟨q, h1, h2, _⟩ | ⟨q, h1, _, e3⟩ | ⟨v, h1, h2, _⟩
  · rw [hg] at h1; cases h1
  · rw [hg] at h1
    simp only [Option.some.injEq, Value.license.injEq] at h1
    subst h1
    exact absurd hnonce h2
  · rw [e3, hg]
    refine ⟨rfl, ?_, ?_⟩
    · simp only
      rw [Delete_snd_data_ne _ (licenseKey_ne_pendingKey user user toolID toolID).symm,
        Set_snd_data_self]
    · exact Delete_snd_data_self _ _
  · rw [hg] at h1
    simp only [Option.some.injEq] at h1
    exact absurd h1.symm (h2 p)


/-- Without an unexpired cached license, `VerifyAccess` is the chain consult. -/
theorem VerifyAccess_of_uncached (s : LicenseService) (lib : Lib) (ms : MemoryStore)
    (now : Time) (user : Address) (toolID : Int)
    (h : unexpiredLicense (ms.Get now (licenseKey user toolID)).1 now = none) :
    s.VerifyAccess lib ms now user toolID =
      LicenseService.VerifyAccess.chain s lib (ms.Get now (licenseKey user toolID)).2
        now user toolID := by
  simp only [LicenseService.VerifyAccess, h]

/-- The chain consult when the chain view yields a license. -/
theorem chain_of_valid (s : LicenseService) (lib : Lib) (ms : MemoryStore) (now : Time)
    (user : Address) (toolID : Int) (m : LicenseMetadata)
    (hv : s.blockchain.IsLicenseValid user toolID = (true, none))
    (hm : s.blockchain.GetLicenseMetadata (bigString toolID) = (some m, none)) :
    LicenseService.VerifyAccess.chain s lib ms now user toolID =
      (Result.ok
        { Valid := true
          Tier := "licensed"
          CallsRemaining := 999
          ExpiresAt := some m.ExpiresAt
          ProvenanceHash := ""
          Reason := "" },
       (ms.Set now (licenseKey user toolID)
          (Value.license
            { UserAddress := user.Hex
              ToolID := bigString toolID
              ExpiresAt := m.ExpiresAt
              Nonce := ""
              Price := ""
              CreatedAt := zeroTime
              MaxCalls := 1000
              CallsUsed := 1
              Tier := "licensed" }) (24 * Hour)).2) := by
  simp [LicenseService.VerifyAccess.chain, hv, hm, Set_fst, wrap64]

/-- The chain consult when the chain view reports a license and no metadata. -/
theorem chain_of_nil_metadata (s : LicenseService) (lib : Lib) (ms : MemoryStore) (now : Time)
    (user : Address) (toolID : Int)
    (hv : s.blockchain.IsLicenseValid user toolID = (true, none))
    (hm : s.blockchain.GetLicenseMetadata (bigString toolID) = (none, none)) :
    LicenseService.VerifyAccess.chain s lib ms now user toolID =
      (Result.panic "runtime error: invalid memory address or nil pointer dereference", ms) := by
  simp [LicenseService.VerifyAccess.chain, hv, hm]

/-- The chain consult when the chain view yields no license: the validity call
fails or says no, or the metadata call fails. -/
theorem chain_of_no_license (s : LicenseService) (lib : Lib) (ms : MemoryStore) (now : Time)
    (user : Address) (toolID : Int)
    (h : (s.blockchain.IsLicenseValid user toolID).2 ≠ none ∨
      (s.blockchain.IsLicenseValid user toolID).1 = false ∨
      (s.blockchain.GetLicenseMetadata (bigString toolID)).2 ≠ none) :
    LicenseService.VerifyAccess.chain s lib ms now user toolID =
      LicenseService.VerifyAccess.freeTier s lib ms now user toolID := by
  unfold LicenseService.VerifyAccess.chain
  rcases h with h | h | h
  · simp [h]
  · simp [h]
  · simp only [h, if_false]
    split <;> rfl

/-- The chain view yields a license, yields a license without metadata, or yields none. -/
theorem chain_view_cases (bc : BlockchainInterface) (user : Address) (toolID : Int) :
    (bc.IsLicenseValid user toolID = (true, none) ∧
      ∃ m, bc.GetLicenseMetadata (bigString toolID) = (some m, none)) ∨
    (bc.IsLicenseValid user toolID = (true, none) ∧
      bc.GetLicenseMetadata (bigString toolID) = (none, none)) ∨
    ((bc.IsLicenseValid user toolID).2 ≠ none ∨ (bc.IsLicenseValid user toolID).1 = false ∨
      (bc.GetLicenseMetadata (bigString toolID)).2 ≠ none) := by
  rcases hv : bc.IsLicenseValid user toolID with ⟨b, e⟩
  rcases hm : bc.GetLicenseMetadata (bigString toolID) with ⟨m, e'⟩
  cases e with
  | some x => right; right; left; simp
  | none =>
    cases b with
    | false => right; right; right; left; rfl
    | true =>
      cases e' with
      | some x => right; right; right; right; simp
      | none =>
        cases m with
        | none => right; left; exact ⟨rfl, rfl⟩
        | some m => left; exact ⟨rfl, m, rfl⟩

theorem freeTierResult_tier (s : LicenseService) (lib : Lib) (now : Time) (user : Address)
    (toolID : Int) (usage : Int) (r : AccessResult)
    (h : LicenseService.VerifyAccess.freeTierResult s lib now user toolID usage = Result.ok r) :
    (usage ≤ 100 ∧ r.Valid = true ∧ r.Tier = "free") ∨
    (100 < usage ∧ r.Valid = false ∧ r.Tier = "none" ∧
      r.Reason = "free tier exhausted and no valid license found") := by
  unfold LicenseService.VerifyAccess.freeTierResult at h
  by_cases hu : usage ≤ 100
  · rw [if_pos hu] at h
    simp only [Result.ok.injEq] at h
    subst h
    exact Or.inl ⟨hu, rfl, rfl⟩
  · rw [if_neg hu] at h
    simp only [Result.ok.injEq] at h
    subst h
    exact Or.inr ⟨not_le.mp hu, rfl, rfl, rfl⟩

/-- Where a licensed result comes from. When `VerifyAccess` returns `tier = "licensed"`, either the
license comes from the cached entry and its `expiresAt` is strictly after `now`,
or no unexpired cached license was found, the chain view reported the license
valid, and the returned `expiresAt` is the one of the chain metadata (which is
not compared with `now`). A cached license whose `expiresAt` has passed is not
resolved from the cache: when the chain view then yields no license, the call
is decided by the free counter (free tier or denial). -/
theorem VerifyAccess_licensed_sources (s : LicenseService) (lib : Lib) (ms : MemoryStore) (now : Time)
    (user : Address) (toolID : Int) :
    (∀ r : AccessResult, (s.VerifyAccess lib ms now user toolID).1 = Result.ok r →
      r.Tier = "licensed" →
      (∃ L : License, (ms.Get now (licenseKey user toolID)).1 = some (Value.license L) ∧
        r.ExpiresAt = some L.ExpiresAt ∧ now < L.ExpiresAt) ∨
      (unexpiredLicense (ms.Get now (licenseKey user toolID)).1 now = none ∧
        s.blockchain.IsLicenseValid user toolID = (true, none) ∧
        ∃ m : LicenseMetadata,
          s.blockchain.GetLicenseMetadata (bigString toolID) = (some m, none) ∧
          r.ExpiresAt = some m.ExpiresAt)) ∧
    (∀ L : License, (ms.Get now (licenseKey user toolID)).1 = some (Value.license L) →
      L.ExpiresAt ≤ now →
      ((s.blockchain.IsLicenseValid user toolID).2 ≠ none ∨
        (s.blockchain.IsLicenseValid user toolID).1 = false ∨
        (s.blockchain.GetLicenseMetadata (bigString toolID)).2 ≠ none) →
      ∃ r : AccessResult, (s.VerifyAccess lib ms now user toolID).1 = Result.ok r ∧
        (r.Tier = "free" ∨ r.Tier = "none") ∧ r.ExpiresAt = none) := by
  constructor
  · intro r hres htier
    cases hu : unexpiredLicense (ms.Get now (licenseKey user toolID)).1 now with
    | some L =>
      left
      obtain ⟨hheld, hexp⟩ := unexpiredLicense_eq_some.mp hu
      rw [VerifyAccess_of_cached s lib ms now user toolID L hu] at hres
      simp only [Result.ok.injEq] at hres
      subst hres
      exact ⟨L, hheld, rfl, hexp⟩
    | none =>
      right
      rw [VerifyAccess_of_uncached s lib ms now user toolID hu] at hres
      rcases chain_view_cases s.blockchain user toolID with ⟨hv, m, hm⟩ | ⟨hv, hm⟩ | hno
      · rw [chain_of_valid s lib _ now user toolID m hv hm] at hres
        simp only [Result.ok.injEq] at hres
        subst hres
        exact ⟨rfl, hv, m, hm, rfl⟩
      · rw [chain_of_nil_metadata s lib _ now user toolID hv hm] at hres
        cases hres
      · rw [chain_of_no_license s lib _ now user toolID hno, freeTier_eq] at hres
        rcases freeTierResult_tier s lib now user toolID _ r hres with ⟨_, _, ht⟩ | ⟨_, _, ht, _⟩
        · rw [ht] at htier; exact absurd htier (by decide)
        · rw [ht] at htier; exact absurd htier (by decide)
  · intro L hheld hexp hno
    have hu : unexpiredLicense (ms.Get now (licenseKey user toolID)).1 now = none := by
      cases hu : unexpiredLicense (ms.Get now (licenseKey user toolID)).1 now with
      | none => rfl
      | some L' =>
        obtain ⟨h1, h2⟩ := unexpiredLicense_eq_some.mp hu
        rw [hheld] at h1
        simp only [Option.some.injEq, Value.license.injEq] at h1
        subst h1
        exact absurd h2 (not_lt.mpr hexp)
    rw [VerifyAccess_of_uncached s lib ms now user toolID hu,
      chain_of_no_license s lib _ now user toolID hno, freeTier_eq]
    unfold LicenseService.VerifyAccess.freeTierResult
    split
    · exact ⟨_, rfl, Or.inl rfl, rfl⟩
    · exact ⟨_, rfl, Or.inr rfl, rfl⟩


/-- `RequestLicense` touches no key besides the license key and the pending key. -/
theorem RequestLicense_data_other (s : LicenseService) (lib : Lib) (c : Crypto)
    (ms : MemoryStore) (now : Time) (req : LicenseRequest) (k : String)
    (h1 : k ≠ licenseKey req.UserAddress req.ToolID)
    (h2 : k ≠ pendingKey req.UserAddress req.ToolID) :
    mapGet (s.RequestLicense lib c ms now req).2.data k = mapGet ms.data k := by
  have hc : mapGet (ms.Get now (licenseKey req.UserAddress req.ToolID)).2.data k =
      mapGet ms.data k := Get_snd_data_ne ms now (Ne.symm h1)
  have hp : mapGet ((ms.Get now (licenseKey req.UserAddress req.ToolID)).2.Get now
      (pendingKey req.UserAddress req.ToolID)).2.data k = mapGet ms.data k := by
    rw [Get_snd_data_ne _ now (Ne.symm h2), hc]
  rcases RequestLicense_cases s lib c ms now req with
    ⟨l, _, e⟩ | ⟨_, _, e⟩ | ⟨_, _, ⟨_, _, e⟩ | ⟨_, _, e⟩ | ⟨r, sS, sV, _, e⟩⟩
  · rw [e]; exact hc
  · rw [e]; exact hp
  · rw [e]; exact hp
  · rw [e]; exact hp
  · rw [e]
    simp only
    rw [Set_snd_data_ne _ now _ _ (Ne.symm h2), hp]

/-- Under the license key `RequestLicense` does what its first lookup does. -/
theorem RequestLicense_data_license (s : LicenseService) (lib : Lib) (c : Crypto)
    (ms : MemoryStore) (now : Time) (req : LicenseRequest) :
    mapGet (s.RequestLicense lib c ms now req).2.data (licenseKey req.UserAddress req.ToolID) =
      mapGet (ms.Get now (licenseKey req.UserAddress req.ToolID)).2.data
        (licenseKey req.UserAddress req.ToolID) := by
  have hne := (licenseKey_ne_pendingKey req.UserAddress req.UserAddress req.ToolID req.ToolID).symm
  have hp : mapGet ((ms.Get now (licenseKey req.UserAddress req.ToolID)).2.Get now
      (pendingKey req.UserAddress req.ToolID)).2.data (licenseKey req.UserAddress req.ToolID) =
      mapGet (ms.Get now (licenseKey req.UserAddress req.ToolID)).2.data
        (licenseKey req.UserAddress req.ToolID) := Get_snd_data_ne _ now hne
  rcases RequestLicense_cases s lib c ms now req with
    ⟨l, _, e⟩ | ⟨_, _, e⟩ | ⟨_, _, ⟨_, _, e⟩ | ⟨_, _, e⟩ | ⟨r, sS, sV, _, e⟩⟩
  · rw [e]
  · rw [e]; exact hp
  · rw [e]; exact hp
  · rw [e]; exact hp
  · rw [e]
    simp only
    rw [Set_snd_data_ne _ now _ _ hne, hp]

/-- What a lookup finds depends only on the entry under the key. -/
theorem Get_fst_congr (ms ms' : MemoryStore) (now : Time) (k : String)
    (h : mapGet ms'.data k = mapGet ms.data k) : (ms'.Get now k).1 = (ms.Get now k).1 := by
  rw [Get_fst, Get_fst, h]

/-- A key without an unexpired license at one instant has none at any later instant,
as long as the entry is not rewritten. -/
theorem unexpiredLicense_none_mono (ms : MemoryStore) (k : String) {t1 t2 : Time} (h12 : t1 ≤ t2)
    (h : unexpiredLicense (ms.Get t1 k).1 t1 = none) :
    unexpiredLicense (ms.Get t2 k).1 t2 = none := by
  rw [Get_fst] at h ⊢
  cases hm : mapGet ms.data k with
  | none => rfl
  | some e =>
    rw [hm] at h
    simp only at h ⊢
    by_cases h2 : e.expiresAt < t2
    · simp [h2, unexpiredLicense]
    · have h1 : ¬ e.expiresAt < t1 := fun hlt => h2 (lt_of_lt_of_le hlt h12)
      simp only [h1, if_false] at h
      simp only [h2, if_false]
      cases hv : e.value with
      | license L =>
        rw [hv] at h
        cases hu : unexpiredLicense (some (Value.license L)) t2 with
        | none => rfl
        | some L' =>
          obtain ⟨e1, e2⟩ := unexpiredLicense_eq_some.mp hu
          simp only [Option.some.injEq, Value.license.injEq] at e1
          subst e1
          have : unexpiredLicense (some (Value.license L)) t1 = some L := by
            apply unexpiredLicense_eq_some.mpr
            refine ⟨rfl, ?_⟩
            by_contra hge
            have hle : L.ExpiresAt ≤ t1 := not_lt.mp hge
            have : unexpiredLicense (some (Value.license L)) t1 = none := h
            exact absurd (lt_of_lt_of_le e2 (le_refl _)) (not_lt.mpr (le_trans hle h12))
          rw [this] at h
          cases h
      | int64 n => rfl
      | other d => rfl
      | vote x => rfl
      | votes l => rfl
      | reputation r => rfl
      | batch b => rfl

/-- After `RequestLicense`, whatever its outcome, a later lookup of the license
key finds what it would have found without the call. -/
theorem RequestLicense_Get_license (s : LicenseService) (lib : Lib) (c : Crypto)
    (ms : MemoryStore) (req : LicenseRequest) {t1 t2 : Time} (h12 : t1 ≤ t2) :
    ((s.RequestLicense lib c ms t1 req).2.Get t2 (licenseKey req.UserAddress req.ToolID)).1 =
      (ms.Get t2 (licenseKey req.UserAddress req.ToolID)).1 := by
  rw [Get_fst_congr _ _ t2 _ (RequestLicense_data_license s lib c ms t1 req)]
  exact Get_Get_fst ms h12 _ _

theorem mapGet_mapDelete_of_none (m : List (String × entry)) (k k' : String)
    (h : mapGet m k' = none) : mapGet (mapDelete m k) k' = none := by
  by_cases hk : k = k'
  · subst hk; exact mapGet_mapDelete_self m k
  · rw [mapGet_mapDelete_ne m hk]; exact h

theorem Get_snd_data_of_none (ms : MemoryStore) (now : Time) (k k' : String)
    (h : mapGet ms.data k' = none) : mapGet (ms.Get now k).2.data k' = none := by
  rw [Get_snd_data]
  split
  · rfl
  · exact h

/-- `VerifyAccess` touches no key besides the license key and the free counter key. -/
theorem VerifyAccess_data_other (s : LicenseService) (lib : Lib) (ms : MemoryStore) (now : Time)
    (user : Address) (toolID : Int) (k : String)
    (h1 : k ≠ licenseKey user toolID) (h2 : k ≠ freeTierKey user toolID) :
    mapGet (s.VerifyAccess lib ms now user toolID).2.data k = mapGet ms.data k := by
  have hg : mapGet (ms.Get now (licenseKey user toolID)).2.data k = mapGet ms.data k :=
    Get_snd_data_ne ms now (Ne.symm h1)
  have hfree : ∀ ms' : MemoryStore,
      mapGet (LicenseService.VerifyAccess.freeTier s lib ms' now user toolID).2.data k =
        mapGet ms'.data k := by
    intro ms'
    rw [freeTier_eq]
    exact Increment_snd_data_ne ms' now 1 _ (Ne.symm h2)
  cases hu : unexpiredLicense (ms.Get now (licenseKey user toolID)).1 now with
  | some L =>
    rw [VerifyAccess_of_cached s lib ms now user toolID L hu]
    simp only
    rw [Set_snd_data_ne _ now _ _ (Ne.symm h1), hg]
  | none =>
    rw [VerifyAccess_of_uncached s lib ms now user toolID hu]
    rcases chain_view_cases s.blockchain user toolID with ⟨hv, m, hm⟩ | ⟨hv, hm⟩ | hno
    · rw [chain_of_valid s lib _ now user toolID m hv hm]
      simp only
      rw [Set_snd_data_ne _ now _ _ (Ne.symm h1), hg]
    · rw [chain_of_nil_metadata s lib _ now user toolID hv hm]
      exact hg
    · rw [chain_of_no_license s lib _ now user toolID hno, hfree, hg]

/-- `RecordLicenseMinted`, for any user and tool, leaves an absent pending key absent. -/
theorem RecordLicenseMinted_pending_absent (s : LicenseService) (ms : MemoryStore) (now : Time)
    (user user' : Address) (toolID toolID' expiresAt nonce : Int)
    (h : mapGet ms.data (pendingKey user toolID) = none) :
    mapGet (s.RecordLicenseMinted ms now user' toolID' expiresAt nonce).2.data
      (pendingKey user toolID) = none := by
  have hg := Get_snd_data_of_none ms now (pendingKey user' toolID') _ h
  rcases RecordLicenseMinted_cases s ms now user' toolID' expiresAt nonce with
    ⟨_, e⟩ | ⟨p, _, _, e⟩ | ⟨p, _, _, e⟩ | ⟨v, _, _, e⟩
  · rw [e]; exact hg
  · rw [e]; exact hg
  · rw [e]
    simp only [MemoryStore.Delete]
    apply mapGet_mapDelete_of_none
    rw [Set_snd_data_ne _ now _ _ (licenseKey_ne_pendingKey user' user toolID' toolID)]
    exact hg
  · rw [e]; exact hg

/-- Calls other than `RequestLicense` leave an absent pending key absent. -/
theorem run_pending_absent (s : LicenseService) (lib : Lib) (c : Crypto) (user : Address)
    (toolID : Int) :
    ∀ (calls : List Call) (ms : MemoryStore),
      (∀ x ∈ calls, x.isRequestLicense = false) →
      mapGet ms.data (pendingKey user toolID) = none →
      mapGet (s.run lib c ms calls).data (pendingKey user toolID) = none := by
  intro calls
  induction calls with
  | nil => intro ms _ h; exact h
  | cons x rest ih =>
    intro ms hx h
    have hrest : ∀ y ∈ rest, y.isRequestLicense = false :=
      fun y hy => hx y (List.mem_cons_of_mem x hy)
    have hhead := hx x (List.mem_cons_self x rest)
    simp only [LicenseService.run, List.foldl_cons]
    apply ih _ hrest
    cases x with
    | RequestLicense now req => simp [Call.isRequestLicense] at hhead
    | VerifyAccess now u t =>
      simp only [LicenseService.call]
      rw [VerifyAccess_data_other s lib ms now u t _
        (licenseKey_ne_pendingKey u user t toolID).symm
        (pendingKey_ne_freeTierKey user u toolID t)]
      exact h
    | RecordLicenseMinted now u t e n =>
      simp only [LicenseService.call]
      exact RecordLicenseMinted_pending_absent s ms now user u toolID t e n h

theorem bigInt64_of_range {x : Int} (h1 : -2 ^ 63 ≤ x) (h2 : x < 2 ^ 63) : bigInt64 x = x := by
  have hcast : Int.ofNat (x.natAbs % 2 ^ 64) = (x.natAbs : Int) % 2 ^ 64 := by
    simp
  unfold bigInt64 wrap64
  simp only [hcast]
  split <;> omega

/-! ## Invariants over call sequences -/

theorem AllLicenses_empty (P : String → License → Prop) : NewMemoryStore.AllLicenses P := by
  intro k e L h _
  simp [NewMemoryStore, mapGet] at h

theorem AllLicenses_mono {P Q : String → License → Prop} {ms : MemoryStore}
    (h : ms.AllLicenses P) (hPQ : ∀ k L, P k L → Q k L) : ms.AllLicenses Q :=
  fun k e L he hv => hPQ k L (h k e L he hv)

theorem AllLicenses_Get {P : String → License → Prop} {ms : MemoryStore}
    (h : ms.AllLicenses P) (now : Time) (key : String) : (ms.Get now key).2.AllLicenses P := by
  intro k e L he hv
  rw [Get_snd_data] at he
  split at he
  · cases he
  · exact h k e L he hv

theorem AllLicenses_found {P : String → License → Prop} {ms : MemoryStore}
    (h : ms.AllLicenses P) (now : Time) (key : String) (L : License)
    (hf : (ms.Get now key).1 = some (Value.license L)) : P key L := by
  rw [Get_fst] at hf
  cases hm : mapGet ms.data key with
  | none => rw [hm] at hf; cases hf
  | some e =>
    rw [hm] at hf
    simp only at hf
    split at hf
    · cases hf
    · simp only [Option.some.injEq] at hf
      exact h key e L hm hf

theorem AllLicenses_Set {P : String → License → Prop} {ms : MemoryStore}
    (h : ms.AllLicenses P) (now : Time) (key : String) (v : Value) (ttl : Duration)
    (hv : ∀ L, v = Value.license L → P key L) : (ms.Set now key v ttl).2.AllLicenses P := by
  intro k e L he hval
  by_cases hk : key = k
  · subst hk
    rw [Set_snd_data_self] at he
    simp only [Option.some.injEq] at he
    subst he
    exact hv L hval
  · rw [Set_snd_data_ne ms now v ttl hk] at he
    exact h k e L he hval

theorem AllLicenses_Delete {P : String → License → Prop} {ms : MemoryStore}
    (h : ms.AllLicenses P) (key : String) : (ms.Delete key).2.AllLicenses P := by
  intro k e L he hv
  by_cases hk : key = k
  · subst hk
    rw [Delete_snd_data_self] at he
    cases he
  · rw [Delete_snd_data_ne ms hk] at he
    exact h k e L he hv

theorem AllLicenses_Increment {P : String → License → Prop} {ms : MemoryStore}
    (h : ms.AllLicenses P) (now : Time) (key : String) (d : Int) (ttl : Duration) :
    (ms.Increment now key d ttl).2.AllLicenses P := by
  intro k e L he hv
  by_cases hk : key = k
  · subst hk
    rw [Increment_snd_data_self] at he
    simp only [Option.some.injEq] at he
    subst he
    cases hv
  · rw [Increment_snd_data_ne ms now d ttl hk] at he
    exact h k e L he hv

/-- `RequestLicense` keeps a property of all license entries that holds of the
pending entry it writes. -/
theorem RequestLicense_AllLicenses {P : String → License → Prop} (s : LicenseService)
    (lib : Lib) (c : Crypto) (ms : MemoryStore) (now : Time) (req : LicenseRequest)
    (h : ms.AllLicenses P)
    (hP : P (pendingKey req.UserAddress req.ToolID)
      { UserAddress := req.UserAddress.Hex
        ToolID := bigString req.ToolID
        ExpiresAt := timeUnix (bigInt64 (Time.Unix (Time.Add now (30 * 24 * Hour))))
        Nonce := bigString (Time.UnixNano now)
        Price := "10000000000000000"
        CreatedAt := now
        MaxCalls := 0
        CallsUsed := 0
        Tier := "" }) :
    (s.RequestLicense lib c ms now req).2.AllLicenses P := by
  have h1 := AllLicenses_Get h now (licenseKey req.UserAddress req.ToolID)
  have h2 := AllLicenses_Get h1 now (pendingKey req.UserAddress req.ToolID)
  rcases RequestLicense_cases s lib c ms now req with
    ⟨l, _, e⟩ | ⟨_, _, e⟩ | ⟨_, _, ⟨_, _, e⟩ | ⟨_, _, e⟩ | ⟨r, sS, sV, _, e⟩⟩
  · rw [e]; exact h1
  · rw [e]; exact h2
  · rw [e]; exact h2
  · rw [e]; exact h2
  · rw [e]
    apply AllLicenses_Set h2
    intro L hL
    simp only [Value.license.injEq] at hL
    subst hL
    exact hP

/-- `RecordLicenseMinted` keeps a property of all license entries that holds of
the licensed entry it writes. -/
theorem RecordLicenseMinted_AllLicenses {P : String → License → Prop} (s : LicenseService)
    (ms : MemoryStore) (now : Time) (user : Address) (toolID expiresAt nonce : Int)
    (h : ms.AllLicenses P)
    (hP : P (licenseKey user toolID)
      { UserAddress := user.Hex
        ToolID := bigString toolID
        ExpiresAt := timeUnix (bigInt64 expiresAt)
        Nonce := ""
        Price := ""
        CreatedAt := now
        MaxCalls := 1000
        CallsUsed := 0
        Tier := "licensed" }) :
    (s.RecordLicenseMinted ms now user toolID expiresAt nonce).2.AllLicenses P := by
  have h1 := AllLicenses_Get h now (pendingKey user toolID)
  rcases RecordLicenseMinted_cases s ms now user toolID expiresAt nonce with
    ⟨_, e⟩ | ⟨p, _, _, e⟩ | ⟨p, _, _, e⟩ | ⟨v, _, _, e⟩
  · rw [e]; exact h1
  · rw [e]; exact h1
  · rw [e]
    apply AllLicenses_Delete
    apply AllLicenses_Set h1
    intro L hL
    simp only [Value.license.injEq] at hL
    subst hL
    exact hP
  · rw [e]; exact h1

/-- `VerifyAccess` keeps a property of all license entries that is kept by
counting one more call on an unexpired license under the license key and that
holds of the entry synthesised from chain metadata. -/
theorem VerifyAccess_AllLicenses {P : String → License → Prop} (s : LicenseService)
    (lib : Lib) (ms : MemoryStore) (now : Time) (user : Address) (toolID : Int)
    (h : ms.AllLicenses P)
    (hhit : ∀ L : License, P (licenseKey user toolID) L → now < L.ExpiresAt →
      P (licenseKey user toolID) { L with CallsUsed := wrap64 (L.CallsUsed + 1) })
    (hchain : ∀ m : LicenseMetadata,
      s.blockchain.GetLicenseMetadata (bigString toolID) = (some m, none) →
      P (licenseKey user toolID)
        { UserAddress := user.Hex
          ToolID := bigString toolID
          ExpiresAt := m.ExpiresAt
          Nonce := ""
          Price := ""
          CreatedAt := zeroTime
          MaxCalls := 1000
          CallsUsed := 1
          Tier := "licensed" }) :
    (s.VerifyAccess lib ms now user toolID).2.AllLicenses P := by
  have h1 := AllLicenses_Get h now (licenseKey user toolID)
  cases hu : unexpiredLicense (ms.Get now (licenseKey user toolID)).1 now with
  | some L =>
    obtain ⟨hheld, hexp⟩ := unexpiredLicense_eq_some.mp hu
    rw [VerifyAccess_of_cached s lib ms now user toolID L hu]
    apply AllLicenses_Set h1
    intro L' hL'
    simp only [Value.license.injEq] at hL'
    subst hL'
    exact hhit L (AllLicenses_found h now _ L hheld) hexp
  | none =>
    rw [VerifyAccess_of_uncached s lib ms now user toolID hu]
    rcases chain_view_cases s.blockchain user toolID with ⟨hv, m, hm⟩ | ⟨hv, hm⟩ | hno
    · rw [chain_of_valid s lib _ now user toolID m hv hm]
      apply AllLicenses_Set h1
      intro L' hL'
      simp only [Value.license.injEq] at hL'
      subst hL'
      exact hchain m hm
    · rw [chain_of_nil_metadata s lib _ now user toolID hv hm]
      exact h1
    · rw [chain_of_no_license s lib _ now user toolID hno, freeTier_eq]
      exact AllLicenses_Increment h1 now _ 1 _

/-- One access that hits an unexpired license under the license key: the
result, and the entry afterwards. -/
theorem VerifyAccess_hit_step (s : LicenseService) (lib : Lib) (ms : MemoryStore) (now : Time)
    (user : Address) (toolID : Int) (L : License) (exp : Time)
    (hheld : mapGet ms.data (licenseKey user toolID) =
      some { value := Value.license L, expiresAt := exp })
    (hlive : now ≤ exp) (hexp : now < L.ExpiresAt) :
    (s.VerifyAccess lib ms now user toolID).1 =
      Result.ok
        { Valid := true
          Tier := "licensed"
          CallsRemaining := wrap64 (L.MaxCalls - wrap64 (L.CallsUsed + 1))
          ExpiresAt := some L.ExpiresAt
          ProvenanceHash := ""
          Reason := "" } ∧
    mapGet (s.VerifyAccess lib ms now user toolID).2.data (licenseKey user toolID) =
      some { value := Value.license { L with CallsUsed := wrap64 (L.CallsUsed + 1) },
             expiresAt := now + 24 * Hour } := by
  have hg := Get_of_live ms now _ _ hheld hlive
  have hu : unexpiredLicense (ms.Get now (licenseKey user toolID)).1 now = some L := by
    rw [hg]; exact unexpiredLicense_eq_some.mpr ⟨rfl, hexp⟩
  rw [VerifyAccess_of_cached s lib ms now user toolID L hu]
  exact ⟨rfl, Set_snd_data_self _ _ _ _ _⟩

/-- Successive accesses that all hit the cached license: each is made no more
than 24 hours after the previous one (the first no later than the expiry of the
store entry) and before the license expires. The `j`-th result (from 0) counts
`j + 1` more calls used, and the entry ends with all the calls counted. -/
theorem VerifyAccessSeq_hits (s : LicenseService) (lib : Lib) (user : Address) (toolID : Int) :
    ∀ (ts : List Time) (ms : MemoryStore) (L : License) (exp : Time) (c : Nat),
      mapGet ms.data (licenseKey user toolID) =
        some { value := Value.license L, expiresAt := exp } →
      L.CallsUsed = c →
      List.Chain (fun prev next => next ≤ prev + 24 * Hour) (exp - 24 * Hour) ts →
      (∀ t ∈ ts, t < L.ExpiresAt) →
      c + ts.length < 2 ^ 62 → -2 ^ 62 ≤ L.MaxCalls → L.MaxCalls ≤ 2 ^ 62 →
      (∀ (j : Nat) (t : Time), ts[j]? = some t →
        (LicenseService.VerifyAccessSeq s lib user toolID ms ts).1[j]? =
          some (Result.ok
            { Valid := true
              Tier := "licensed"
              CallsRemaining := L.MaxCalls - (c + j + 1)
              ExpiresAt := some L.ExpiresAt
              ProvenanceHash := ""
              Reason := "" })) ∧
      ∃ exp' : Time,
        mapGet (LicenseService.VerifyAccessSeq s lib user toolID ms ts).2.data
            (licenseKey user toolID) =
          some { value := Value.license { L with CallsUsed := c + ts.length },
                 expiresAt := exp' } := by
  intro ts
  induction ts with
  | nil =>
    intro ms L exp c hheld hc _ _ _ _ _
    refine ⟨fun j t h => by simp at h, exp, ?_⟩
    simp only [LicenseService.VerifyAccessSeq, List.length_nil, Nat.cast_zero, add_zero]
    rw [hheld, ← hc]
  | cons t₀ rest ih =>
    intro ms L exp c hheld hc hgap hexp hbound hm1 hm2
    have hlive : t₀ ≤ exp := by
      have := (List.chain_cons.mp hgap).1
      linarith
    have ht₀ : t₀ < L.ExpiresAt := hexp t₀ (List.mem_cons_self _ _)
    obtain ⟨hres, hent⟩ := VerifyAccess_hit_step s lib ms t₀ user toolID L exp hheld hlive ht₀
    simp only [List.length_cons] at hbound
    have hw : wrap64 (L.CallsUsed + 1) = (c : Int) + 1 := by
      rw [hc]; apply wrap64_of_range <;> omega
    have hw2 : wrap64 (L.MaxCalls - ((c : Int) + 1)) = L.MaxCalls - ((c : Int) + 1) := by
      apply wrap64_of_range <;> omega
    rw [hw] at hres hent
    rw [hw2] at hres
    have hrec := ih (s.VerifyAccess lib ms t₀ user toolID).2
      { L with CallsUsed := (c : Int) + 1 } (t₀ + 24 * Hour) (c + 1) hent
      (by push_cast; rfl)
      (by
        have := (List.chain_cons.mp hgap).2
        simpa using this)
      (fun t ht => hexp t (List.mem_cons_of_mem _ ht))
      (by omega) hm1 hm2
    obtain ⟨hrec1, exp', hrec2⟩ := hrec
    refine ⟨?_, exp', ?_⟩
    · intro j t hj
      cases j with
      | zero =>
        simp only [LicenseService.VerifyAccessSeq, List.getElem?_cons_zero, hres]
        simp
      | succ j' =>
        simp only [List.getElem?_cons_succ] at hj
        simp only [LicenseService.VerifyAccessSeq, List.getElem?_cons_succ]
        rw [hrec1 j' t hj]
        simp only [Option.some.injEq, Result.ok.injEq, AccessResult.mk.injEq, true_and, and_true]
        push_cast
        ring
    · simp only [LicenseService.VerifyAccessSeq]
      rw [hrec2]
      simp only [List.length_cons, Option.some.injEq, entry.mk.injEq, Value.license.injEq,
        License.mk.injEq, true_and, and_true]
      push_cast
      ring
/-! ## The standard library definitions on known values -/

set_option maxRecDepth 100000 in
/-- The definition of SHA-256 on the test vectors of FIPS 180: the empty
message and the message `abc`. -/
theorem Sum256_test_vectors :
    hexEncodeToString (sha256.Sum256 []) =
        "e3b0c44298fc1c149afbf4c8996fb92427ae41e4649b934ca495991b7852b855" ∧
      hexEncodeToString (sha256.Sum256 (stringBytes "abc")) =
        "ba7816bf8f01cfea414140de5dae2223b00361a396177a9cb410ff61f20015ad" := by
  decide

/-- The RFC 3339 rendering of the epoch, of Unix second 1700000000 and of the
last second of a leap day. -/
theorem formatRFC3339UTC_examples :
    formatRFC3339UTC 0 = "1970-01-01T00:00:00Z" ∧
      formatRFC3339UTC (1700000000 * Second) = "2023-11-14T22:13:20Z" ∧
      formatRFC3339UTC (951868799 * Second + 999999999) = "2000-02-29T23:59:59Z" := by
  decide

/-! ## Lemmas on the keys of the vote service -/

theorem ne_of_head {a b : String} {c d : Char} (ha : a.data.head? = some c)
    (hb : b.data.head? = some d) (hcd : c ≠ d) : a ≠ b := by
  intro h
  rw [h, hb] at ha
  exact hcd (Option.some.inj ha).symm

theorem head_voteKey (x : String) : ("vote:" ++ x).data.head? = some 'v' := by simp

theorem head_pendingVoteKey (x : String) : ("pending:vote:" ++ x).data.head? = some 'p' := by
  simp

theorem head_reputationKey (x : String) : ("reputation:" ++ x).data.head? = some 'r' := by simp

theorem head_usageKey (a t : String) : ("usage:" ++ a ++ ":" ++ t).data.head? = some 'u' := by
  simp

theorem head_licenseKey (a t : String) : ("license:" ++ a ++ ":" ++ t).data.head? = some 'l' := by
  simp

theorem head_batchKey (t i : String) : ("batch:" ++ t ++ ":" ++ i).data.head? = some 'b' := by
  simp

/-! ## Lemmas on `isVoterEligible` -/

/-- The error returned by `isVoterEligible` is always nil. -/
theorem isVoterEligible_err (s : VoteService) (ms : MemoryStore) (now : Time) (a t : String) :
    (s.isVoterEligible ms now a t).1.2 = none := by
  unfold VoteService.isVoterEligible
  simp only
  split
  · rfl
  · split <;> rfl

/-- The answer of `isVoterEligible` in terms of two lookups in the store it is
given: a positive `int64` under the usage key, or any value under the license
key. -/
theorem isVoterEligible_eq (s : VoteService) (ms : MemoryStore) (now : Time) (a t : String) :
    (s.isVoterEligible ms now a t).1.1 =
      (positiveUsage (ms.Get now ("usage:" ++ a ++ ":" ++ t)).1 ||
        (ms.Get now ("license:" ++ a ++ ":" ++ t)).1.isSome) := by
  unfold VoteService.isVoterEligible
  simp only
  by_cases h : positiveUsage (ms.Get now ("usage:" ++ a ++ ":" ++ t)).1 = true
  · simp [h]
  · have hne : "usage:" ++ a ++ ":" ++ t ≠ "license:" ++ a ++ ":" ++ t :=
      ne_of_head (head_usageKey a t) (head_licenseKey a t) (by decide)
    have h2 : ((ms.Get now ("usage:" ++ a ++ ":" ++ t)).2.Get now
        ("license:" ++ a ++ ":" ++ t)).1 = (ms.Get now ("license:" ++ a ++ ":" ++ t)).1 :=
      Get_Get_fst ms (le_refl now) _ _
    simp only [h, h2]
    cases hl : (ms.Get now ("license:" ++ a ++ ":" ++ t)).1 <;> simp

/-- `isVoterEligible` touches no key besides the usage key and the license key. -/
theorem isVoterEligible_data_other (s : VoteService) (ms : MemoryStore) (now : Time)
    (a t : String) {k : String} (h1 : "usage:" ++ a ++ ":" ++ t ≠ k)
    (h2 : "license:" ++ a ++ ":" ++ t ≠ k) :
    mapGet (s.isVoterEligible ms now a t).2.data k = mapGet ms.data k := by
  unfold VoteService.isVoterEligible
  simp only
  split
  · exact Get_snd_data_ne ms now h1
  · split
    · rw [Get_snd_data_ne _ now h2, Get_snd_data_ne ms now h1]
    · rw [Get_snd_data_ne _ now h2, Get_snd_data_ne ms now h1]

/-- What is found under a key depends only on the entry under that key. -/
theorem isVoterEligible_congr (s : VoteService) (ms ms' : MemoryStore) (now : Time)
    (a t : String)
    (h1 : mapGet ms'.data ("usage:" ++ a ++ ":" ++ t) = mapGet ms.data ("usage:" ++ a ++ ":" ++ t))
    (h2 : mapGet ms'.data ("license:" ++ a ++ ":" ++ t) =
      mapGet ms.data ("license:" ++ a ++ ":" ++ t)) :
    (s.isVoterEligible ms' now a t).1.1 = (s.isVoterEligible ms now a t).1.1 := by
  rw [isVoterEligible_eq, isVoterEligible_eq, Get_fst_congr ms ms' now _ h1,
    Get_fst_congr ms ms' now _ h2]

/-! ## Lemmas on `verifyVoteSignature` and `SubmitVote` -/

/-- The reasons given by `verifyVoteSignature` for a refusal. -/
theorem verifyVoteSignature_reason (s : VoteService) (c : Crypto) (k : CryptoKeys) (eth : EthLib)
    (sub : VoteSubmission) (reason : String)
    (h : s.verifyVoteSignature c k eth sub = Result.ok (false, reason)) :
    reason = "invalid signature format" ∨ reason = "signature must be 65 bytes" ∨
      reason = "invalid tool ID" ∨ reason = "failed to recover public key" ∨
      reason = "signature does not match voter address" := by
  unfold VoteService.verifyVoteSignature at h
  split at h
  · simp only [Result.ok.injEq, Prod.mk.injEq, true_and] at h
    exact Or.inl h.symm
  · split at h
    · simp only [Result.ok.injEq, Prod.mk.injEq, true_and] at h
      exact Or.inr (Or.inl h.symm)
    · split at h
      · simp only [Result.ok.injEq, Prod.mk.injEq, true_and] at h
        exact Or.inr (Or.inr (Or.inl h.symm))
      · simp only at h
        split at h
        · simp only [Result.ok.injEq, Prod.mk.injEq, true_and] at h
          exact Or.inr (Or.inr (Or.inr (Or.inl h.symm)))
        · cases h
        · split at h
          · simp only [Result.ok.injEq, Prod.mk.injEq, true_and] at h
            exact Or.inr (Or.inr (Or.inr (Or.inr h.symm)))
          · simp at h

/-- `SubmitVote` after a successful signature check. -/
theorem SubmitVote_of_valid (s : VoteService) (lib : Lib) (c : Crypto) (k : CryptoKeys)
    (eth : EthLib) (ms : MemoryStore) (now : Time) (sub : VoteSubmission) (reason : String)
    (h : s.verifyVoteSignature c k eth sub = Result.ok (true, reason)) :
    s.SubmitVote lib c k eth ms now sub = VoteService.SubmitVote.verified s lib ms now sub := by
  simp [VoteService.SubmitVote, h]

/-- `SubmitVote` after a failed signature check. -/
theorem SubmitVote_of_invalid (s : VoteService) (lib : Lib) (c : Crypto) (k : CryptoKeys)
    (eth : EthLib) (ms : MemoryStore) (now : Time) (sub : VoteSubmission) (reason : String)
    (h : s.verifyVoteSignature c k eth sub = Result.ok (false, reason)) :
    s.SubmitVote lib c k eth ms now sub =
      (Result.ok { Valid := false, Reason := reason, VoteID := "" }, ms) := by
  simp [VoteService.SubmitVote, h]

/-- The replay guard: a live entry under the vote key stops the submission. -/
theorem verified_of_live (s : VoteService) (lib : Lib) (ms : MemoryStore) (now : Time)
    (sub : VoteSubmission)
    (h : (ms.Get now ("vote:" ++ s.generateVoteID lib sub)).1.isSome = true) :
    VoteService.SubmitVote.verified s lib ms now sub =
      (Result.ok { Valid := false, Reason := "vote already submitted", VoteID := "" }, ms) := by
  obtain ⟨v, hv⟩ := Option.isSome_iff_exists.mp h
  simp [VoteService.SubmitVote.verified, h, Get_snd_of_found ms now _ v hv]

/-- The outcomes of `SubmitVote` when the signature check does not pass: the
store is left as it is. -/
theorem SubmitVote_snd_of_not_verified (s : VoteService) (lib : Lib) (c : Crypto)
    (k : CryptoKeys) (eth : EthLib) (ms : MemoryStore) (now : Time) (sub : VoteSubmission)
    (h : ∀ reason, s.verifyVoteSignature c k eth sub ≠ Result.ok (true, reason)) :
    (s.SubmitVote lib c k eth ms now sub).2 = ms := by
  unfold VoteService.SubmitVote
  split
  · rfl
  · rfl
  · rename_i isValid reason heq
    cases isValid
    · simp
    · exact absurd heq (h reason)

/-- The usage key determines the voter address. -/
theorem usageKey_inj {a1 a2 t : String}
    (h : "usage:" ++ a1 ++ ":" ++ t = "usage:" ++ a2 ++ ":" ++ t) : a1 = a2 := by
  have h2 := congrArg String.data h
  simp only [String.data_append, List.append_assoc, List.append_cancel_left_eq] at h2
  have h3 : a1.data = a2.data := List.append_cancel_right h2
  exact String.ext h3

/-- `SubmitVote.verified` for a fresh vote of an eligible voter. -/
theorem verified_of_fresh (s : VoteService) (lib : Lib) (ms : MemoryStore) (now : Time)
    (sub : VoteSubmission)
    (hfresh : (ms.Get now ("vote:" ++ s.generateVoteID lib sub)).1 = none)
    (helig : (s.isVoterEligible ms now sub.VoterAddress sub.ToolID).1.1 = true) :
    VoteService.SubmitVote.verified s lib ms now sub =
      VoteService.SubmitVote.store s
        (s.isVoterEligible (ms.Get now ("vote:" ++ s.generateVoteID lib sub)).2 now
          sub.VoterAddress sub.ToolID).2 now sub (s.generateVoteID lib sub) := by
  have h1 : (s.isVoterEligible (ms.Get now ("vote:" ++ s.generateVoteID lib sub)).2 now
      sub.VoterAddress sub.ToolID).1.1 = true := by
    rw [isVoterEligible_congr s ms _ now _ _
      (Get_snd_data_ne ms now (ne_of_head (head_voteKey _) (head_usageKey _ _) (by decide)))
      (Get_snd_data_ne ms now (ne_of_head (head_voteKey _) (head_licenseKey _ _) (by decide)))]
    exact helig
  simp [VoteService.SubmitVote.verified, hfresh, isVoterEligible_err, h1]

/-- `SubmitVote.verified` for a fresh vote of a voter who is not eligible. -/
theorem verified_of_not_eligible (s : VoteService) (lib : Lib) (ms : MemoryStore) (now : Time)
    (sub : VoteSubmission)
    (hfresh : (ms.Get now ("vote:" ++ s.generateVoteID lib sub)).1 = none)
    (helig : (s.isVoterEligible ms now sub.VoterAddress sub.ToolID).1.1 = false) :
    (VoteService.SubmitVote.verified s lib ms now sub).1 =
      Result.ok { Valid := false, Reason := "voter not eligible - must use tool before voting",
                  VoteID := "" } := by
  have h1 : (s.isVoterEligible (ms.Get now ("vote:" ++ s.generateVoteID lib sub)).2 now
      sub.VoterAddress sub.ToolID).1.1 = false := by
    rw [isVoterEligible_congr s ms _ now _ _
      (Get_snd_data_ne ms now (ne_of_head (head_voteKey _) (head_usageKey _ _) (by decide)))
      (Get_snd_data_ne ms now (ne_of_head (head_voteKey _) (head_licenseKey _ _) (by decide)))]
    exact helig
  simp [VoteService.SubmitVote.verified, hfresh, isVoterEligible_err, h1]

/-- The entry written by `updateCachedReputation`. -/
theorem updateCachedReputation_data_self (s : VoteService) (ms : MemoryStore) (now : Time)
    (toolID : String) (score : Int) :
    mapGet (s.updateCachedReputation ms now toolID score).data ("reputation:" ++ toolID) =
      some
        { value := Value.reputation
            { ToolID :=
                (match cachedReputation (ms.Get now ("reputation:" ++ toolID)).1 with
                  | some rep => rep.ToolID
                  | none => toolID)
              TotalScore :=
                wrap64 ((match cachedReputation (ms.Get now ("reputation:" ++ toolID)).1 with
                  | some rep => rep.TotalScore
                  | none => 0) + score)
              TotalVotes :=
                wrap64 ((match cachedReputation (ms.Get now ("reputation:" ++ toolID)).1 with
                  | some rep => rep.TotalVotes
                  | none => 0) + 1)
              LastCalculatedAt := now
              LastBatchAt :=
                (match cachedReputation (ms.Get now ("reputation:" ++ toolID)).1 with
                  | some rep => rep.LastBatchAt
                  | none => zeroTime) }
          expiresAt := now + 1 * Minute } := by
  unfold VoteService.updateCachedReputation
  simp only [Set_snd_data_self]
  cases cachedReputation (ms.Get now ("reputation:" ++ toolID)).1 <;> rfl

/-- `updateCachedReputation` touches no key besides the reputation key. -/
theorem updateCachedReputation_data_other (s : VoteService) (ms : MemoryStore) (now : Time)
    (toolID : String) (score : Int) {k : String} (h : "reputation:" ++ toolID ≠ k) :
    mapGet (s.updateCachedReputation ms now toolID score).data k = mapGet ms.data k := by
  unfold VoteService.updateCachedReputation
  simp only
  rw [Set_snd_data_ne _ now _ _ h, Get_snd_data_ne ms now h]

/-- The result of `SubmitVote.store`. -/
theorem store_fst (s : VoteService) (ms : MemoryStore) (now : Time) (sub : VoteSubmission)
    (voteID : String) :
    (VoteService.SubmitVote.store s ms now sub voteID).1 =
      Result.ok { Valid := true, Reason := "", VoteID := voteID } := by
  simp [VoteService.SubmitVote.store, Set_fst]

/-- The store after `SubmitVote.store`. -/
theorem store_snd (s : VoteService) (ms : MemoryStore) (now : Time) (sub : VoteSubmission)
    (voteID : String) :
    (VoteService.SubmitVote.store s ms now sub voteID).2 =
      s.updateCachedReputation
        (((ms.Get now ("pending:vote:" ++ sub.ToolID)).2.Set now ("pending:vote:" ++ sub.ToolID)
            (Value.votes (cachedVotes (ms.Get now ("pending:vote:" ++ sub.ToolID)).1 ++
              [{ ID := voteID, ToolID := sub.ToolID, VoterAddress := sub.VoterAddress,
                 Score := sub.Score, Nonce := sub.Nonce, Signature := sub.Signature,
                 CreatedAt := now, Processed := false, BatchID := "" }]))
            (wrap64 (s.batchInterval * 2))).2.Set now ("vote:" ++ voteID)
          (Value.vote
            { ID := voteID, ToolID := sub.ToolID, VoterAddress := sub.VoterAddress,
              Score := sub.Score, Nonce := sub.Nonce, Signature := sub.Signature,
              CreatedAt := now, Processed := false, BatchID := "" }) (24 * Hour)).2
        now sub.ToolID sub.Score := by
  simp [VoteService.SubmitVote.store, Set_fst]

/-- The recovery function of `strictKeys` meets the contract of
`crypto.SigToPub` on the recovery byte. -/
theorem strictKeys_refuses : strictKeys.RefusesHighRecoveryByte := by
  intro hash signature h
  refine ⟨"invalid signature recovery id", ?_⟩
  have h2 : ¬ signature.getD 64 0 < 4 := by omega
  show (if signature.getD 64 0 < 4 then (some (signature.take 20), none)
    else (none, some "invalid signature recovery id")) = _
  rw [if_neg h2]

/-- The recovery byte that `verifyVoteSignature` passes to `crypto.SigToPub` is
27 or more. -/
theorem vote_recovery_byte (signatureBytes : Bytes) (hlen : signatureBytes.length = 65) :
    4 ≤ (List.take 32 signatureBytes ++ List.take 32 (List.drop 32 signatureBytes) ++
      [if signatureBytes.getD 64 0 < 27 then signatureBytes.getD 64 0 + 27
        else signatureBytes.getD 64 0]).getD 64 0 := by
  have h1 : (List.take 32 signatureBytes ++
      List.take 32 (List.drop 32 signatureBytes)).length = 64 := by
    simp [List.length_take, List.length_drop, hlen]
  rw [List.getD_eq_getElem?_getD, List.getElem?_append_right (by omega), h1]
  simp only [Nat.sub_self, List.getElem?_cons_zero, Option.getD_some]
  split <;> omega

/-- The signature check of the vote service against a recovery function that,
as `crypto.SigToPub` does, refuses a recovery byte of 4 or more: the byte is
raised to 27 or more before the call, so no submission passes the check. -/
theorem verifyVoteSignature_of_strict_recovery (s : VoteService) (c : Crypto) (k : CryptoKeys)
    (eth : EthLib) (sub : VoteSubmission) (hk : k.RefusesHighRecoveryByte) (reason : String) :
    s.verifyVoteSignature c k eth sub ≠ Result.ok (true, reason) := by
  unfold VoteService.verifyVoteSignature
  split
  · simp
  · rename_i signatureBytes _
    split
    · simp
    · rename_i hlen
      have hlen65 : signatureBytes.length = 65 := by
        by_contra h
        exact hlen h
      split
      · simp
      · simp only
        obtain ⟨e, he⟩ := hk _ _ (vote_recovery_byte signatureBytes hlen65)
        rw [he]
        simp

/-- Against such a recovery function, a submission with a signature of 65
bytes and a tool id in decimal is answered "failed to recover public key",
whoever made the signature. -/
theorem verifyVoteSignature_failed_recovery (s : VoteService) (c : Crypto) (k : CryptoKeys)
    (eth : EthLib) (sub : VoteSubmission) (hk : k.RefusesHighRecoveryByte)
    (signatureBytes : Bytes) (toolID : Int)
    (hdec : hexDecodeString sub.Signature = some signatureBytes)
    (hlen : signatureBytes.length = 65) (htool : bigSetString sub.ToolID = some toolID) :
    s.verifyVoteSignature c k eth sub = Result.ok (false, "failed to recover public key") := by
  obtain ⟨e, he⟩ := hk
    (s.getVoteMessageHash c (eth.HexToAddress sub.VoterAddress) toolID sub.Score sub.Nonce)
    _ (vote_recovery_byte signatureBytes hlen)
  unfold VoteService.verifyVoteSignature
  simp only [hdec, hlen, htool, ne_eq, not_true_eq_false, if_false]
  rw [he]

/-- The signature of `exampleSubmission`, whose first 20 bytes are the address
of the voter and whose recovery byte is 1, is accepted by the recovery function
of `strictKeys` as it stands and refused once the vote service has raised the
byte to 28. -/
theorem verifyVoteSignature_strictKeys :
    (strictKeys.SigToPub [] exampleSignatureBytes).1 = some (exampleSignatureBytes.take 20) ∧
      exampleVoteService.verifyVoteSignature exampleCrypto strictKeys exampleEth
        exampleSubmission = Result.ok (false, "failed to recover public key") := by
  decide


/-! ## C1 -/

/-- C1. Free-tier boundary of `VerifyAccess`: on a store with no license entry
and no free counter for the user and tool, with a chain view reporting no valid
license, 101 calls each made less than 24 hours after the previous one give, for
`k` from 1 to 100, `valid = true`, `tier = "free"`, `callsRemaining = 100 - k`,
and the 101st call is denied with the "free tier exhausted" reason. -/
theorem C1_free_tier_boundary (s : LicenseService) (lib : Lib) (ms : MemoryStore)
    (user : Address) (toolID : Int) (ts : List Time)
    (hlen : ts.length = 101)
    (hgap : List.Chain' (fun prev next => next < prev + 24 * Hour) ts)
    (hlic : mapGet ms.data (licenseKey user toolID) = none)
    (hfree : mapGet ms.data (freeTierKey user toolID) = none)
    (hchain : s.blockchain.IsLicenseValid user toolID = (false, none)) :
    (∀ k : Nat, 1 ≤ k → k ≤ 100 →
      ∃ r : AccessResult,
        (LicenseService.VerifyAccessSeq s lib user toolID ms ts).1[k - 1]? = some (Result.ok r) ∧
        r.Valid = true ∧ r.Tier = "free" ∧ r.CallsRemaining = 100 - (k : Int)) ∧
    ∃ r : AccessResult,
      (LicenseService.VerifyAccessSeq s lib user toolID ms ts).1[100]? = some (Result.ok r) ∧
      r.Valid = false ∧ r.Tier = "none" ∧
      r.Reason = "free tier exhausted and no valid license found" := by
  obtain ⟨t₀, rest, rfl⟩ : ∃ t₀ rest, ts = t₀ :: rest := by
    cases ts with
    | nil => simp at hlen
    | cons a l => exact ⟨a, l, rfl⟩
  have hrest : rest.length = 100 := by simpa using hlen
  have hstep := VerifyAccess_free_step s lib ms t₀ user toolID hlic hchain
  rw [Increment_of_absent ms t₀ _ _ hfree] at hstep
  obtain ⟨hres, hlic', hfree'⟩ := hstep
  have htail := VerifyAccessSeq_counting s lib user toolID hchain rest
    (s.VerifyAccess lib ms t₀ user toolID).2 1 t₀ hlic' (by rw [hfree']; simp)
    hgap
    (by rw [hrest]; norm_num)
  have hcall : ∀ k : Nat, 1 ≤ k → k ≤ 101 → ∃ t,
      (LicenseService.VerifyAccessSeq s lib user toolID ms (t₀ :: rest)).1[k - 1]? =
        some (LicenseService.VerifyAccess.freeTierResult s lib t user toolID k) := by
    intro k hk1 hk2
    obtain ⟨j, rfl⟩ : ∃ j, k = j + 1 := ⟨k - 1, by omega⟩
    cases j with
    | zero => exact ⟨t₀, by simp [LicenseService.VerifyAccessSeq, hres]⟩
    | succ j' =>
      have hj : j' < rest.length := by omega
      refine ⟨rest[j'], ?_⟩
      have := htail j' rest[j'] (List.getElem?_eq_getElem hj)
      simp only [LicenseService.VerifyAccessSeq, Nat.add_sub_cancel, List.getElem?_cons_succ]
      rw [this]
      congr 2
      push_cast
      ring
  constructor
  · intro k hk1 hk2
    obtain ⟨t, ht⟩ := hcall k hk1 (by omega)
    have hk : (k : Int) ≤ 100 := by exact_mod_cast hk2
    refine ⟨_, by rw [ht, LicenseService.VerifyAccess.freeTierResult, if_pos hk], rfl, rfl, ?_⟩
    apply wrap64_of_range <;> omega
  · obtain ⟨t, ht⟩ := hcall 101 (by norm_num) (by norm_num)
    refine ⟨_, by rw [ht, LicenseService.VerifyAccess.freeTierResult, if_neg (by norm_num)],
      rfl, rfl, rfl⟩

/-- C1 evaluated on the empty store: 101 calls, one per second. -/
theorem C1_free_tier_boundary_witness :
    List.Chain' (fun prev next => next < prev + 24 * Hour)
        ((List.range 101).map (fun i => Int.ofNat i * Second)) ∧
    ((∀ k : Nat, 1 ≤ k → k ≤ 100 →
      ∃ r : AccessResult,
        (LicenseService.VerifyAccessSeq (exampleService noLicenseChain) exampleLib exampleUser 42
          NewMemoryStore ((List.range 101).map (fun i => Int.ofNat i * Second))).1[k - 1]? =
            some (Result.ok r) ∧
        r.Valid = true ∧ r.Tier = "free" ∧ r.CallsRemaining = 100 - (k : Int)) ∧
    ∃ r : AccessResult,
      (LicenseService.VerifyAccessSeq (exampleService noLicenseChain) exampleLib exampleUser 42
        NewMemoryStore ((List.range 101).map (fun i => Int.ofNat i * Second))).1[100]? =
          some (Result.ok r) ∧
      r.Valid = false ∧ r.Tier = "none" ∧
      r.Reason = "free tier exhausted and no valid license found") :=
  have hgap : List.Chain' (fun prev next => next < prev + 24 * Hour)
      ((List.range 101).map (fun i => Int.ofNat i * Second)) := by
    rw [List.chain'_map, List.chain'_range_succ]
    intro m _
    simp only [Second, Hour, Minute, Int.ofNat_eq_coe]
    push_cast
    linarith
  ⟨hgap, C1_free_tier_boundary (exampleService noLicenseChain) exampleLib NewMemoryStore
    exampleUser 42 _ (by simp) hgap rfl rfl rfl⟩

/-! ## C2 -/

/-- C2 (amended). License flow end to end: whatever the store held before, if
`RequestLicense` succeeds returning `(expiresAt, nonce)` and
`RecordLicenseMinted(user, tool, expiresAt, nonce)` is called within 10 minutes,
the record succeeds and a following `VerifyAccess` made before the recorded
expiry and within the 30-day TTL of the recorded entry returns `valid = true`,
`tier = "licensed"`, `callsRemaining = 999` and the recorded expiry. -/
theorem C2_license_flow (s : LicenseService) (lib : Lib) (c : Crypto) (ms : MemoryStore)
    (user : Address) (toolID : Int) (t1 t2 t3 : Time) (resp : LicenseResponse)
    (hreq : (s.RequestLicense lib c ms t1 { UserAddress := user, ToolID := toolID }).1 =
      Result.ok resp)
    (h12 : t2 ≤ t1 + 10 * Minute)
    (h3 : t3 < timeUnix (bigInt64 resp.ExpiresAt))
    (h23 : t3 ≤ t2 + 30 * 24 * Hour) :
    (s.RecordLicenseMinted
        (s.RequestLicense lib c ms t1 { UserAddress := user, ToolID := toolID }).2
        t2 user toolID resp.ExpiresAt resp.Nonce).1 = none ∧
    (s.VerifyAccess lib
        (s.RecordLicenseMinted
          (s.RequestLicense lib c ms t1 { UserAddress := user, ToolID := toolID }).2
          t2 user toolID resp.ExpiresAt resp.Nonce).2 t3 user toolID).1 =
      Result.ok
        { Valid := true
          Tier := "licensed"
          CallsRemaining := 999
          ExpiresAt := some (timeUnix (bigInt64 resp.ExpiresAt))
          ProvenanceHash := ""
          Reason := "" } := by
  obtain ⟨p, hn, hp⟩ := RequestLicense_ok_pending s lib c ms t1 _ resp hreq
  obtain ⟨hr1, hr2, _⟩ := RecordLicenseMinted_of_pending s _ t2 user toolID resp.ExpiresAt
    resp.Nonce p _ hp h12 hn
  refine ⟨hr1, ?_⟩
  have hg := Get_of_live _ t3 _ _ hr2 h23
  rw [VerifyAccess_of_cached s lib _ t3 user toolID _
    (by rw [hg]; exact unexpiredLicense_eq_some.mpr ⟨rfl, h3⟩)]
  simp [wrap64]

/-- C2 evaluated: request at instant 0, record one second later, access after a day. -/
theorem C2_license_flow_witness :
    (LicenseService.RecordLicenseMinted (exampleService noLicenseChain)
        (LicenseService.RequestLicense (exampleService noLicenseChain) exampleLib exampleCrypto
          NewMemoryStore 0 { UserAddress := exampleUser, ToolID := 42 }).2
        Second exampleUser 42 2592000 0).1 = none ∧
    (LicenseService.VerifyAccess (exampleService noLicenseChain) exampleLib
        (LicenseService.RecordLicenseMinted (exampleService noLicenseChain)
          (LicenseService.RequestLicense (exampleService noLicenseChain) exampleLib exampleCrypto
            NewMemoryStore 0 { UserAddress := exampleUser, ToolID := 42 }).2
          Second exampleUser 42 2592000 0).2 (24 * Hour) exampleUser 42).1 =
      Result.ok
        { Valid := true
          Tier := "licensed"
          CallsRemaining := 999
          ExpiresAt := some (timeUnix (bigInt64 2592000))
          ProvenanceHash := ""
          Reason := "" } :=
  C2_license_flow (exampleService noLicenseChain) exampleLib exampleCrypto NewMemoryStore
    exampleUser 42 0 Second (24 * Hour)
    { ToolID := 42
      User := exampleUser
      ExpiresAt := 2592000
      Nonce := 0
      SignatureR := "0707070707070707070707070707070707070707070707070707070707070707"
      SignatureS := "0707070707070707070707070707070707070707070707070707070707070707"
      SignatureV := "1c"
      Price := "10000000000000000"
      Contract := "0x1234567890123456789012345678901234567890" }
    (by decide) (by decide) (by decide) (by decide)

/-- C2 as stated fails when the access is made after the license has expired:
request at instant 0, record one second later, access 31 days later gives the
free tier. -/
theorem C2_counterexample :
    (LicenseService.RequestLicense (exampleService noLicenseChain) exampleLib exampleCrypto
        NewMemoryStore 0 { UserAddress := exampleUser, ToolID := 42 }).1 =
      Result.ok
        { ToolID := 42
          User := exampleUser
          ExpiresAt := 2592000
          Nonce := 0
          SignatureR := "0707070707070707070707070707070707070707070707070707070707070707"
          SignatureS := "0707070707070707070707070707070707070707070707070707070707070707"
          SignatureV := "1c"
          Price := "10000000000000000"
          Contract := "0x1234567890123456789012345678901234567890" } ∧
    (LicenseService.RecordLicenseMinted (exampleService noLicenseChain)
        (LicenseService.RequestLicense (exampleService noLicenseChain) exampleLib exampleCrypto
          NewMemoryStore 0 { UserAddress := exampleUser, ToolID := 42 }).2
        Second exampleUser 42 2592000 0).1 = none ∧
    (LicenseService.VerifyAccess (exampleService noLicenseChain) exampleLib
        (LicenseService.RecordLicenseMinted (exampleService noLicenseChain)
          (LicenseService.RequestLicense (exampleService noLicenseChain) exampleLib exampleCrypto
            NewMemoryStore 0 { UserAddress := exampleUser, ToolID := 42 }).2
          Second exampleUser 42 2592000 0).2 (31 * 24 * Hour) exampleUser 42).1 =
      Result.ok
        { Valid := true
          Tier := "free"
          CallsRemaining := 99
          ExpiresAt := none
          ProvenanceHash :=
            LicenseService.generateProvenanceHash (exampleService noLicenseChain) exampleLib
              (31 * 24 * Hour) "FREE" "42" "0x7099"
          Reason := "" } := by
  refine ⟨by decide, by decide, by decide⟩

/-! ## C3 -/

/-- C3. Cached-licensed step of `VerifyAccess`: when the lookup of
`license:{user}:{tool}` finds a license entry `L` with `now < L.expiresAt`, the
call returns `valid = true`, `tier = "licensed"`, `expiresAt = L.expiresAt` and
`callsRemaining = L.maxCalls - (L.callsUsed + 1)` (in Go `int` arithmetic, which
is the exact value whenever `0 ≤ L.maxCalls` and `0 ≤ L.callsUsed` below the
largest `int`); the entry is rewritten with `callsUsed = L.callsUsed + 1` under a
24-hour TTL; the outcome does not depend on the chain view; every other key,
the free counter among them, keeps its entry. -/
theorem C3_cached_licensed_step (s : LicenseService) (lib : Lib) (ms : MemoryStore) (now : Time)
    (user : Address) (toolID : Int) (L : License)
    (hheld : (ms.Get now (licenseKey user toolID)).1 = some (Value.license L))
    (hexp : now < L.ExpiresAt) :
    (s.VerifyAccess lib ms now user toolID).1 =
      Result.ok
        { Valid := true
          Tier := "licensed"
          CallsRemaining := wrap64 (L.MaxCalls - wrap64 (L.CallsUsed + 1))
          ExpiresAt := some L.ExpiresAt
          ProvenanceHash := ""
          Reason := "" } ∧
    (0 ≤ L.MaxCalls → L.MaxCalls < 2 ^ 63 → 0 ≤ L.CallsUsed → L.CallsUsed < 2 ^ 63 - 1 →
      wrap64 (L.CallsUsed + 1) = L.CallsUsed + 1 ∧
      wrap64 (L.MaxCalls - wrap64 (L.CallsUsed + 1)) = L.MaxCalls - (L.CallsUsed + 1)) ∧
    mapGet (s.VerifyAccess lib ms now user toolID).2.data (licenseKey user toolID) =
      some { value := Value.license { L with CallsUsed := wrap64 (L.CallsUsed + 1) },
             expiresAt := now + 24 * Hour } ∧
    (∀ bc : BlockchainInterface,
      LicenseService.VerifyAccess { s with blockchain := bc } lib ms now user toolID =
        s.VerifyAccess lib ms now user toolID) ∧
    (∀ k : String, k ≠ licenseKey user toolID →
      mapGet (s.VerifyAccess lib ms now user toolID).2.data k = mapGet ms.data k) ∧
    mapGet (s.VerifyAccess lib ms now user toolID).2.data (freeTierKey user toolID) =
      mapGet ms.data (freeTierKey user toolID) := by
  have hu : unexpiredLicense (ms.Get now (licenseKey user toolID)).1 now = some L :=
    unexpiredLicense_eq_some.mpr ⟨hheld, hexp⟩
  have hms : (ms.Get now (licenseKey user toolID)).2 = ms := Get_snd_of_found ms now _ _ hheld
  have hother : ∀ k : String, k ≠ licenseKey user toolID →
      mapGet (s.VerifyAccess lib ms now user toolID).2.data k = mapGet ms.data k := by
    intro k hk
    rw [VerifyAccess_of_cached s lib ms now user toolID L hu, hms]
    exact Set_snd_data_ne ms now _ _ (Ne.symm hk)
  refine ⟨?_, ?_, ?_, ?_, hother, ?_⟩
  · rw [VerifyAccess_of_cached s lib ms now user toolID L hu]
  · intro h1 h2 h3 h4
    have e1 : wrap64 (L.CallsUsed + 1) = L.CallsUsed + 1 := by
      apply wrap64_of_range <;> omega
    refine ⟨e1, ?_⟩
    rw [e1]
    apply wrap64_of_range <;> omega
  · rw [VerifyAccess_of_cached s lib ms now user toolID L hu]
    exact Set_snd_data_self _ _ _ _ _
  · intro bc
    rw [VerifyAccess_of_cached s lib ms now user toolID L hu,
      VerifyAccess_of_cached { s with blockchain := bc } lib ms now user toolID L hu]
  · exact hother _ (licenseKey_ne_freeTierKey user user toolID toolID).symm

/-- C3 evaluated on a store holding a license with 7 calls used out of 1000. -/
theorem C3_cached_licensed_step_witness :
    (LicenseService.VerifyAccess (exampleService noLicenseChain) exampleLib exampleLicensedStore
        Hour exampleUser 42).1 =
      Result.ok
        { Valid := true
          Tier := "licensed"
          CallsRemaining := 992
          ExpiresAt := some (30 * 24 * Hour)
          ProvenanceHash := ""
          Reason := "" } ∧
    mapGet (LicenseService.VerifyAccess (exampleService noLicenseChain) exampleLib
        exampleLicensedStore Hour exampleUser 42).2.data (freeTierKey exampleUser 42) =
      some { value := Value.int64 100, expiresAt := 24 * Hour } :=
  have h := C3_cached_licensed_step (exampleService noLicenseChain) exampleLib
    exampleLicensedStore Hour exampleUser 42 exampleLicense (by decide) (by decide)
  ⟨h.1.trans (by decide), h.2.2.2.2.2.trans (by decide)⟩

/-! ## C4 -/

/-- C4. The code at a failing input: with an empty store and a chain view that
reports the license valid with metadata whose `expiresAt` lies 50 days before
`now`, `VerifyAccess` returns `tier = "licensed"` with that passed `expiresAt`,
where the claim requires the call to fall to the free tier. -/
theorem C4_expired_chain_license_resolved :
    (LicenseService.VerifyAccess (exampleService (validChain (50 * 24 * Hour))) exampleLib
        NewMemoryStore (100 * 24 * Hour) exampleUser 42).1 =
      Result.ok
        { Valid := true
          Tier := "licensed"
          CallsRemaining := 999
          ExpiresAt := some (50 * 24 * Hour)
          ProvenanceHash := ""
          Reason := "" } ∧
    ¬ ((100 * 24 * Hour : Time) < 50 * 24 * Hour) := by
  decide


/-! ## C5 -/

/-- C5. Chain failure is absorbed as "no license": when `isLicenseValid` or
`getLicenseMetadata` of the chain view returns an error, `VerifyAccess` returns a
result and no error, and the result and the resulting store are those obtained
with any chain view that reports no valid license; in particular, with no
cached license and an exhausted free counter (at least 100, below the largest
`int64`) the call is denied with reason "free tier exhausted and no valid
license found". -/
theorem C5_chain_failure_absorbed (s : LicenseService) (lib : Lib) (ms : MemoryStore) (now : Time)
    (user : Address) (toolID : Int) (bcNo : BlockchainInterface)
    (herr : (s.blockchain.IsLicenseValid user toolID).2 ≠ none ∨
      (s.blockchain.GetLicenseMetadata (bigString toolID)).2 ≠ none)
    (hno : bcNo.IsLicenseValid user toolID = (false, none)) :
    (∃ r : AccessResult, (s.VerifyAccess lib ms now user toolID).1 = Result.ok r) ∧
    s.VerifyAccess lib ms now user toolID =
      LicenseService.VerifyAccess { s with blockchain := bcNo } lib ms now user toolID ∧
    (∀ (c : Int) (e : Time), (ms.Get now (licenseKey user toolID)).1 = none →
      mapGet ms.data (freeTierKey user toolID) = some { value := Value.int64 c, expiresAt := e } →
      now ≤ e → 100 ≤ c → c < 2 ^ 63 - 1 →
      (s.VerifyAccess lib ms now user toolID).1 =
        Result.ok
          { Valid := false
            Tier := "none"
            CallsRemaining := 0
            ExpiresAt := none
            ProvenanceHash := ""
            Reason := "free tier exhausted and no valid license found" }) := by
  have hno' : (s.blockchain.IsLicenseValid user toolID).2 ≠ none ∨
      (s.blockchain.IsLicenseValid user toolID).1 = false ∨
      (s.blockchain.GetLicenseMetadata (bigString toolID)).2 ≠ none := by
    rcases herr with h | h
    · exact Or.inl h
    · exact Or.inr (Or.inr h)
  have hsame : s.VerifyAccess lib ms now user toolID =
      LicenseService.VerifyAccess { s with blockchain := bcNo } lib ms now user toolID := by
    cases hu : unexpiredLicense (ms.Get now (licenseKey user toolID)).1 now with
    | some L =>
      rw [VerifyAccess_of_cached s lib ms now user toolID L hu,
        VerifyAccess_of_cached { s with blockchain := bcNo } lib ms now user toolID L hu]
    | none =>
      rw [VerifyAccess_of_uncached s lib ms now user toolID hu,
        VerifyAccess_of_uncached { s with blockchain := bcNo } lib ms now user toolID hu,
        chain_of_no_license s lib _ now user toolID hno',
        chain_of_no_license { s with blockchain := bcNo } lib _ now user toolID
          (Or.inr (Or.inl (by simp [hno]))),
        freeTier_eq, freeTier_eq]
      rfl
  refine ⟨?_, hsame, ?_⟩
  · cases hu : unexpiredLicense (ms.Get now (licenseKey user toolID)).1 now with
    | some L =>
      rw [VerifyAccess_of_cached s lib ms now user toolID L hu]
      exact ⟨_, rfl⟩
    | none =>
      rw [VerifyAccess_of_uncached s lib ms now user toolID hu,
        chain_of_no_license s lib _ now user toolID hno', freeTier_eq]
      unfold LicenseService.VerifyAccess.freeTierResult
      split
      · exact ⟨_, rfl⟩
      · exact ⟨_, rfl⟩
  · intro c e hnone hfree hlive h100 hmax
    have hu : unexpiredLicense (ms.Get now (licenseKey user toolID)).1 now = none := by
      rw [hnone]; rfl
    have hfree' : mapGet (ms.Get now (licenseKey user toolID)).2.data (freeTierKey user toolID) =
        some { value := Value.int64 c, expiresAt := e } := by
      rw [Get_snd_data_ne ms now (licenseKey_ne_freeTierKey user user toolID toolID)]
      exact hfree
    rw [VerifyAccess_of_uncached s lib ms now user toolID hu,
      chain_of_no_license s lib _ now user toolID hno', freeTier_eq,
      Increment_of_counter _ now _ _ c e hfree' hlive,
      wrap64_of_range (by omega) (by omega)]
    unfold LicenseService.VerifyAccess.freeTierResult
    rw [if_neg (by omega)]

/-- C5 evaluated: a failing chain view, no cached license and a free counter at
100 give a denial. -/
theorem C5_chain_failure_absorbed_witness :
    (LicenseService.VerifyAccess (exampleService failingChain) exampleLib
        { data := [("free:0x7099:42", { value := Value.int64 100, expiresAt := 24 * Hour })] }
        Hour exampleUser 42).1 =
      Result.ok
        { Valid := false
          Tier := "none"
          CallsRemaining := 0
          ExpiresAt := none
          ProvenanceHash := ""
          Reason := "free tier exhausted and no valid license found" } :=
  (C5_chain_failure_absorbed (exampleService failingChain) exampleLib
    { data := [("free:0x7099:42", { value := Value.int64 100, expiresAt := 24 * Hour })] }
    Hour exampleUser 42 noLicenseChain (Or.inl (by decide)) rfl).2.2 100 (24 * Hour)
    (by decide) (by decide) (by decide) (by decide) (by decide)

/-! ## C6 -/

/-- C6. A pending license grants no licensed access: after a successful
`RequestLicense(user, tool)` (so no unexpired licensed entry was found) and
before any `RecordLicenseMinted`, with a chain view reporting no valid license,
a `VerifyAccess(user, tool)` returns exactly the result it would return on the
store as it was before the request; that result is decided by the free counter
(free tier while the incremented counter is at most 100, denied otherwise) and
its tier is not "licensed". -/
theorem C6_pending_grants_no_access (s : LicenseService) (lib : Lib) (c : Crypto)
    (ms : MemoryStore) (user : Address) (toolID : Int) (t1 t2 : Time) (resp : LicenseResponse)
    (hreq : (s.RequestLicense lib c ms t1 { UserAddress := user, ToolID := toolID }).1 =
      Result.ok resp)
    (h12 : t1 ≤ t2)
    (hchain : s.blockchain.IsLicenseValid user toolID = (false, none)) :
    (s.VerifyAccess lib (s.RequestLicense lib c ms t1 { UserAddress := user, ToolID := toolID }).2
        t2 user toolID).1 = (s.VerifyAccess lib ms t2 user toolID).1 ∧
    (s.VerifyAccess lib (s.RequestLicense lib c ms t1 { UserAddress := user, ToolID := toolID }).2
        t2 user toolID).1 =
      LicenseService.VerifyAccess.freeTierResult s lib t2 user toolID
        (ms.Increment t2 (freeTierKey user toolID) 1 (24 * Hour)).1.1 ∧
    ∀ r : AccessResult,
      (s.VerifyAccess lib (s.RequestLicense lib c ms t1 { UserAddress := user, ToolID := toolID }).2
        t2 user toolID).1 = Result.ok r →
      r.Tier ≠ "licensed" ∧
      ((r.Valid = true ∧ r.Tier = "free") ∨
       (r.Valid = false ∧ r.Tier = "none" ∧
        r.Reason = "free tier exhausted and no valid license found")) := by
  have hnone1 : unexpiredLicense (ms.Get t1 (licenseKey user toolID)).1 t1 = none := by
    rcases RequestLicense_cases s lib c ms t1 { UserAddress := user, ToolID := toolID } with
      ⟨l, _, e⟩ | ⟨h, _, _⟩ | ⟨h, _, _⟩
    · rw [e] at hreq; cases hreq
    · exact h
    · exact h
  have hnone2 : unexpiredLicense (ms.Get t2 (licenseKey user toolID)).1 t2 = none :=
    unexpiredLicense_none_mono ms _ h12 hnone1
  have hnone2' : unexpiredLicense
      ((s.RequestLicense lib c ms t1 { UserAddress := user, ToolID := toolID }).2.Get t2
        (licenseKey user toolID)).1 t2 = none := by
    rw [RequestLicense_Get_license s lib c ms { UserAddress := user, ToolID := toolID } h12]
    exact hnone2
  have hno : (s.blockchain.IsLicenseValid user toolID).2 ≠ none ∨
      (s.blockchain.IsLicenseValid user toolID).1 = false ∨
      (s.blockchain.GetLicenseMetadata (bigString toolID)).2 ≠ none :=
    Or.inr (Or.inl (by rw [hchain]))
  have hfk1 := licenseKey_ne_freeTierKey user user toolID toolID
  have hfk2 := pendingKey_ne_freeTierKey user user toolID toolID
  have hold : (s.VerifyAccess lib ms t2 user toolID).1 =
      LicenseService.VerifyAccess.freeTierResult s lib t2 user toolID
        (ms.Increment t2 (freeTierKey user toolID) 1 (24 * Hour)).1.1 := by
    rw [VerifyAccess_of_uncached s lib ms t2 user toolID hnone2,
      chain_of_no_license s lib _ t2 user toolID hno, freeTier_eq]
    simp only
    rw [Increment_congr ms _ t2 _ 1 _ (Get_snd_data_ne ms t2 hfk1)]
  have hnew : (s.VerifyAccess lib
      (s.RequestLicense lib c ms t1 { UserAddress := user, ToolID := toolID }).2 t2 user toolID).1 =
      LicenseService.VerifyAccess.freeTierResult s lib t2 user toolID
        (ms.Increment t2 (freeTierKey user toolID) 1 (24 * Hour)).1.1 := by
    rw [VerifyAccess_of_uncached s lib _ t2 user toolID hnone2',
      chain_of_no_license s lib _ t2 user toolID hno, freeTier_eq]
    simp only
    rw [Increment_congr ms _ t2 _ 1 _ (by
      rw [Get_snd_data_ne _ t2 hfk1]
      exact RequestLicense_data_other s lib c ms t1 { UserAddress := user, ToolID := toolID } _
        hfk1.symm hfk2.symm)]
  refine ⟨hnew.trans hold.symm, hnew, ?_⟩
  intro r hr
  rw [hnew] at hr
  rcases freeTierResult_tier s lib t2 user toolID _ r hr with ⟨_, hv, ht⟩ | ⟨_, hv, ht, hre⟩
  · exact ⟨by rw [ht]; decide, Or.inl ⟨hv, ht⟩⟩
  · exact ⟨by rw [ht]; decide, Or.inr ⟨hv, ht, hre⟩⟩

/-- C6 evaluated: a request on the empty store, then an access one second later. -/
theorem C6_pending_grants_no_access_witness :
    (LicenseService.VerifyAccess (exampleService noLicenseChain) exampleLib
        (LicenseService.RequestLicense (exampleService noLicenseChain) exampleLib exampleCrypto
          NewMemoryStore 0 { UserAddress := exampleUser, ToolID := 42 }).2
        Second exampleUser 42).1 =
      (LicenseService.VerifyAccess (exampleService noLicenseChain) exampleLib NewMemoryStore
        Second exampleUser 42).1 :=
  (C6_pending_grants_no_access (exampleService noLicenseChain) exampleLib exampleCrypto
    NewMemoryStore exampleUser 42 0 Second
    { ToolID := 42
      User := exampleUser
      ExpiresAt := 2592000
      Nonce := 0
      SignatureR := "0707070707070707070707070707070707070707070707070707070707070707"
      SignatureS := "0707070707070707070707070707070707070707070707070707070707070707"
      SignatureV := "1c"
      Price := "10000000000000000"
      Contract := "0x1234567890123456789012345678901234567890" }
    (by decide) (by decide) rfl).1

/-! ## C7 -/

/-- C7 as stated fails on "the store is left unchanged": with an expired entry
under the license key and a live pending entry, `RequestLicense` fails with
"license request already pending" and the first lookup has evicted the expired
entry from the store. -/
theorem C7_counterexample :
    (LicenseService.RequestLicense (exampleService noLicenseChain) exampleLib exampleCrypto
        exampleStalePendingStore (30 * 24 * Hour + Minute)
        { UserAddress := exampleUser, ToolID := 42 }).1 =
      Result.err "license request already pending" ∧
    (LicenseService.RequestLicense (exampleService noLicenseChain) exampleLib exampleCrypto
        exampleStalePendingStore (30 * 24 * Hour + Minute)
        { UserAddress := exampleUser, ToolID := 42 }).2 ≠ exampleStalePendingStore ∧
    mapGet exampleStalePendingStore.data (licenseKey exampleUser 42) =
      some { value := Value.license exampleLicense, expiresAt := 24 * Hour } ∧
    mapGet (LicenseService.RequestLicense (exampleService noLicenseChain) exampleLib exampleCrypto
        exampleStalePendingStore (30 * 24 * Hour + Minute)
        { UserAddress := exampleUser, ToolID := 42 }).2.data (licenseKey exampleUser 42) = none := by
  decide

/-- C7 (amended). Failure conditions of `RequestLicense`: it fails with "license
already active until ..." if and only if the lookup of `license:{user}:{tool}`
finds a license entry with `now < expiresAt` (also when a pending entry is live
as well); when there is none, it fails with "license request already pending"
if and only if the lookup of the pending key finds an entry. In both failure
cases no response is returned and no entry is written or modified: in the
already-active case the store is unchanged, in the already-pending case every
key keeps its entry except that an already expired entry under the license key
may have been evicted by the lookup. -/
theorem C7_request_failures (s : LicenseService) (lib : Lib) (c : Crypto) (ms : MemoryStore)
    (now : Time) (user : Address) (toolID : Int) :
    ((∃ suffix : String,
        (s.RequestLicense lib c ms now { UserAddress := user, ToolID := toolID }).1 =
          Result.err ("license already active until " ++ suffix)) ↔
      ∃ L : License, (ms.Get now (licenseKey user toolID)).1 = some (Value.license L) ∧
        now < L.ExpiresAt) ∧
    (∀ L : License, (ms.Get now (licenseKey user toolID)).1 = some (Value.license L) →
      now < L.ExpiresAt →
      s.RequestLicense lib c ms now { UserAddress := user, ToolID := toolID } =
        (Result.err ("license already active until " ++ lib.formatRFC3339 L.ExpiresAt), ms)) ∧
    ((¬ ∃ L : License, (ms.Get now (licenseKey user toolID)).1 = some (Value.license L) ∧
        now < L.ExpiresAt) →
      ((s.RequestLicense lib c ms now { UserAddress := user, ToolID := toolID }).1 =
          Result.err "license request already pending" ↔
        ∃ v : Value, (ms.Get now (pendingKey user toolID)).1 = some v) ∧
      ((s.RequestLicense lib c ms now { UserAddress := user, ToolID := toolID }).1 =
          Result.err "license request already pending" →
        (∀ k : String, k ≠ licenseKey user toolID →
          mapGet (s.RequestLicense lib c ms now { UserAddress := user, ToolID := toolID }).2.data k
            = mapGet ms.data k) ∧
        (mapGet (s.RequestLicense lib c ms now { UserAddress := user, ToolID := toolID }).2.data
            (licenseKey user toolID) = mapGet ms.data (licenseKey user toolID) ∨
          (mapGet (s.RequestLicense lib c ms now { UserAddress := user, ToolID := toolID }).2.data
              (licenseKey user toolID) = none ∧
            ∃ e : entry, mapGet ms.data (licenseKey user toolID) = some e ∧
              e.expiresAt < now)))) := by
  have hactive : ∀ L : License,
      (ms.Get now (licenseKey user toolID)).1 = some (Value.license L) → now < L.ExpiresAt →
      s.RequestLicense lib c ms now { UserAddress := user, ToolID := toolID } =
        (Result.err ("license already active until " ++ lib.formatRFC3339 L.ExpiresAt), ms) := by
    intro L hL hexp
    have hu := unexpiredLicense_eq_some.mpr ⟨hL, hexp⟩
    rcases RequestLicense_cases s lib c ms now { UserAddress := user, ToolID := toolID } with
      ⟨l, hl, e⟩ | ⟨h, _, _⟩ | ⟨h, _, _⟩
    · simp only at hl
      rw [hu] at hl
      simp only [Option.some.injEq] at hl
      subst hl
      rw [e]
      simp only
      rw [Get_snd_of_found ms now _ _ hL]
    · simp only at h; rw [hu] at h; cases h
    · simp only at h; rw [hu] at h; cases h
  have hpend : ((ms.Get now (licenseKey user toolID)).2.Get now (pendingKey user toolID)).1 =
      (ms.Get now (pendingKey user toolID)).1 := Get_Get_fst ms (le_refl now) _ _
  refine ⟨⟨?_, ?_⟩, hactive, ?_⟩
  · rintro ⟨suffix, hres⟩
    rcases RequestLicense_cases s lib c ms now { UserAddress := user, ToolID := toolID } with
      ⟨l, hl, _⟩ | ⟨_, _, e⟩ | ⟨_, _, ⟨_, _, e⟩ | ⟨_, _, e⟩ | ⟨r, sS, sV, _, e⟩⟩
    · obtain ⟨h1, h2⟩ := unexpiredLicense_eq_some.mp hl
      exact ⟨l, h1, h2⟩
    · rw [e] at hres
      simp only [Result.err.injEq] at hres
      have := congrArg String.data hres
      simp at this
    · rw [e] at hres
      simp only [Result.err.injEq] at hres
      have := congrArg String.data hres
      simp at this
    · rw [e] at hres; cases hres
    · rw [e] at hres; cases hres
  · rintro ⟨L, hL, hexp⟩
    exact ⟨_, by rw [hactive L hL hexp]⟩
  · intro hna
    have hu : unexpiredLicense (ms.Get now (licenseKey user toolID)).1 now = none := by
      cases hu : unexpiredLicense (ms.Get now (licenseKey user toolID)).1 now with
      | none => rfl
      | some L =>
        obtain ⟨h1, h2⟩ := unexpiredLicense_eq_some.mp hu
        exact absurd ⟨L, h1, h2⟩ hna
    constructor
    · constructor
      · intro hres
        rcases RequestLicense_cases s lib c ms now { UserAddress := user, ToolID := toolID } with
          ⟨l, hl, _⟩ | ⟨_, ⟨v, hv⟩, _⟩ | ⟨_, _, ⟨_, _, e⟩ | ⟨_, _, e⟩ | ⟨r, sS, sV, _, e⟩⟩
        · simp only at hl; rw [hu] at hl; cases hl
        · exact ⟨v, by rw [← hpend]; exact hv⟩
        · rw [e] at hres
          simp only [Result.err.injEq] at hres
          have := congrArg String.data hres
          simp at this
        · rw [e] at hres; cases hres
        · rw [e] at hres; cases hres
      · rintro ⟨v, hv⟩
        rcases RequestLicense_cases s lib c ms now { UserAddress := user, ToolID := toolID } with
          ⟨l, hl, _⟩ | ⟨_, _, e⟩ | ⟨_, hp, _⟩
        · simp only at hl; rw [hu] at hl; cases hl
        · rw [e]
        · simp only at hp
          rw [hpend, hv] at hp
          cases hp
    · intro hres
      constructor
      · intro k hk
        by_cases hk2 : k = pendingKey user toolID
        · subst hk2
          rcases RequestLicense_cases s lib c ms now { UserAddress := user, ToolID := toolID } with
            ⟨l, hl, _⟩ | ⟨_, ⟨v, hv⟩, e⟩ | ⟨_, _, ⟨_, _, e⟩ | ⟨_, _, e⟩ | ⟨r, sS, sV, _, e⟩⟩
          · simp only at hl; rw [hu] at hl; cases hl
          · rw [e]
            simp only
            rw [Get_snd_of_found _ now _ _ hv]
            exact Get_snd_data_ne ms now (Ne.symm hk)
          · rw [e] at hres
            simp only [Result.err.injEq] at hres
            have := congrArg String.data hres
            simp at this
          · rw [e] at hres; cases hres
          · rw [e] at hres; cases hres
        · exact RequestLicense_data_other s lib c ms now { UserAddress := user, ToolID := toolID }
            k hk hk2
      · rw [RequestLicense_data_license s lib c ms now { UserAddress := user, ToolID := toolID }]
        simp only
        rw [Get_snd_data]
        by_cases hg : (ms.Get now (licenseKey user toolID)).1 = none
        · cases hm : mapGet ms.data (licenseKey user toolID) with
          | none => left; simp
          | some e =>
            right
            refine ⟨by simp [hg], e, rfl, ?_⟩
            rw [Get_fst, hm] at hg
            by_contra hlt
            simp [hlt] at hg
        · left; simp [hg]

/-! ## C8 -/

theorem Unix_add_30_days (now : Time) :
    Time.Unix (Time.Add now (30 * 24 * Hour)) = Time.Unix now + 2592000 := by
  simp only [Time.Unix, Time.Add, Hour, Minute, Second]
  omega

/-- C8. Success postcondition of `RequestLicense`: when the lookups find neither
a license entry with `now < expiresAt` nor a pending entry, and the signer
produces `(r, s, v)` for `(user, toolId, expiresAt, nonce)`, the call returns the
given tool id and user, `expiresAt = UnixSeconds(now) + 2592000`, the nonce, the
hex renderings of `r`, `s`, `v`, the price "10000000000000000" (the decimal
rendering of `10^16`, the same for every service and tool) and the configured
contract address; the pending key then holds an entry with a 10-minute TTL
whose nonce is the returned one; no entry is written under the license key. -/
theorem C8_request_success (s : LicenseService) (lib : Lib) (c : Crypto) (ms : MemoryStore)
    (now : Time) (user : Address) (toolID : Int) (r sigS sigV : Bytes)
    (hactive : ¬ ∃ L : License,
      (ms.Get now (licenseKey user toolID)).1 = some (Value.license L) ∧ now < L.ExpiresAt)
    (hpending : (ms.Get now (pendingKey user toolID)).1 = none)
    (hsig : s.signer.CreateLicenseSignature c user toolID (Time.Unix now + 2592000)
      (Time.UnixNano now) = Result.ok (r, sigS, sigV)) :
    (s.RequestLicense lib c ms now { UserAddress := user, ToolID := toolID }).1 =
      Result.ok
        { ToolID := toolID
          User := user
          ExpiresAt := Time.Unix now + 2592000
          Nonce := Time.UnixNano now
          SignatureR := hexEncodeToString r
          SignatureS := hexEncodeToString sigS
          SignatureV := hexEncodeToString sigV
          Price := "10000000000000000"
          Contract := s.config.LicenseNFTAddress } ∧
    (∀ (s' : LicenseService) (t : Int),
      s'.calculateLicensePrice t = toString ((10 : Nat) ^ 16)) ∧
    (∃ p : License,
      mapGet (s.RequestLicense lib c ms now { UserAddress := user, ToolID := toolID }).2.data
          (pendingKey user toolID) =
        some { value := Value.license p, expiresAt := now + 10 * Minute } ∧
      p.Nonce = bigString (Time.UnixNano now) ∧
      p.UserAddress = user.Hex ∧ p.ToolID = bigString toolID ∧
      p.ExpiresAt = timeUnix (bigInt64 (Time.Unix now + 2592000)) ∧
      p.Price = "10000000000000000" ∧ p.CreatedAt = now) ∧
    (mapGet (s.RequestLicense lib c ms now { UserAddress := user, ToolID := toolID }).2.data
        (licenseKey user toolID) = mapGet ms.data (licenseKey user toolID) ∨
      (mapGet (s.RequestLicense lib c ms now { UserAddress := user, ToolID := toolID }).2.data
          (licenseKey user toolID) = none ∧
        ∃ e : entry, mapGet ms.data (licenseKey user toolID) = some e ∧ e.expiresAt < now)) := by
  have hu : unexpiredLicense (ms.Get now (licenseKey user toolID)).1 now = none := by
    cases hu : unexpiredLicense (ms.Get now (licenseKey user toolID)).1 now with
    | none => rfl
    | some L =>
      obtain ⟨h1, h2⟩ := unexpiredLicense_eq_some.mp hu
      exact absurd ⟨L, h1, h2⟩ hactive
  have hpend : ((ms.Get now (licenseKey user toolID)).2.Get now (pendingKey user toolID)).1 =
      none := by
    rw [Get_Get_fst ms (le_refl now)]; exact hpending
  have hlic : mapGet (s.RequestLicense lib c ms now { UserAddress := user, ToolID := toolID }).2.data
        (licenseKey user toolID) = mapGet ms.data (licenseKey user toolID) ∨
      (mapGet (s.RequestLicense lib c ms now { UserAddress := user, ToolID := toolID }).2.data
          (licenseKey user toolID) = none ∧
        ∃ e : entry, mapGet ms.data (licenseKey user toolID) = some e ∧ e.expiresAt < now) := by
    rw [RequestLicense_data_license s lib c ms now { UserAddress := user, ToolID := toolID }]
    simp only
    rw [Get_snd_data]
    by_cases hg : (ms.Get now (licenseKey user toolID)).1 = none
    · cases hm : mapGet ms.data (licenseKey user toolID) with
      | none => left; simp
      | some e =>
        right
        refine ⟨by simp [hg], e, rfl, ?_⟩
        rw [Get_fst, hm] at hg
        by_contra hlt
        simp [hlt] at hg
    · left; simp [hg]
  rcases RequestLicense_cases s lib c ms now { UserAddress := user, ToolID := toolID } with
    ⟨l, hl, _⟩ | ⟨_, ⟨v, hv⟩, _⟩ | ⟨_, _, ⟨x, hx, _⟩ | ⟨x, hx, _⟩ | ⟨r', sS', sV', hs, e⟩⟩
  · simp only at hl; rw [hu] at hl; cases hl
  · simp only at hv; rw [hpend] at hv; cases hv
  · simp only [Unix_add_30_days] at hx; rw [hsig] at hx; cases hx
  · simp only [Unix_add_30_days] at hx; rw [hsig] at hx; cases hx
  · simp only [Unix_add_30_days] at hs e
    rw [hsig] at hs
    simp only [Result.ok.injEq, Prod.mk.injEq] at hs
    obtain ⟨rfl, rfl, rfl⟩ := hs
    refine ⟨by rw [e], fun s' t => by unfold LicenseService.calculateLicensePrice; decide, ?_, hlic⟩
    rw [e]
    exact ⟨_, Set_snd_data_self _ _ _ _ _, rfl, rfl, rfl, rfl, rfl, rfl⟩

/-- C8 evaluated on the empty store at instant 5 seconds. -/
theorem C8_request_success_witness :
    (LicenseService.RequestLicense (exampleService noLicenseChain) exampleLib exampleCrypto
        NewMemoryStore (5 * Second) { UserAddress := exampleUser, ToolID := 42 }).1 =
      Result.ok
        { ToolID := 42
          User := exampleUser
          ExpiresAt := 2592005
          Nonce := 5000000000
          SignatureR := "0707070707070707070707070707070707070707070707070707070707070707"
          SignatureS := "0707070707070707070707070707070707070707070707070707070707070707"
          SignatureV := "1c"
          Price := "10000000000000000"
          Contract := "0x1234567890123456789012345678901234567890" } :=
  (C8_request_success (exampleService noLicenseChain) exampleLib exampleCrypto NewMemoryStore
    (5 * Second) exampleUser 42 (List.replicate 32 7) (List.replicate 32 7) [28]
    (by rintro ⟨L, h, _⟩; cases h) (by decide) (by decide)).1.trans (by decide)

/-! ## C9 -/

/-- C9. Failure conditions of `RecordLicenseMinted`: it fails with "no pending
license found" if and only if the lookup of the pending key finds no entry, and
with "nonce mismatch" if and only if it finds a license entry whose nonce
differs from the decimal form of the given nonce. In both failure cases the
entry under the license key is untouched, as is every key other than the
pending key; a pending entry that the lookup finds stays in place (the store is
unchanged, so its nonce is unchanged); when the lookup finds none, nothing is
left under the pending key. -/
theorem C9_record_failures (s : LicenseService) (ms : MemoryStore) (now : Time)
    (user : Address) (toolID expiresAt nonce : Int) :
    ((s.RecordLicenseMinted ms now user toolID expiresAt nonce).1 =
        some "no pending license found" ↔
      (ms.Get now (pendingKey user toolID)).1 = none) ∧
    ((s.RecordLicenseMinted ms now user toolID expiresAt nonce).1 = some "nonce mismatch" ↔
      ∃ p : License, (ms.Get now (pendingKey user toolID)).1 = some (Value.license p) ∧
        p.Nonce ≠ bigString nonce) ∧
    (((s.RecordLicenseMinted ms now user toolID expiresAt nonce).1 =
          some "no pending license found" ∨
        (s.RecordLicenseMinted ms now user toolID expiresAt nonce).1 = some "nonce mismatch") →
      mapGet (s.RecordLicenseMinted ms now user toolID expiresAt nonce).2.data
          (licenseKey user toolID) = mapGet ms.data (licenseKey user toolID) ∧
      (∀ k : String, k ≠ pendingKey user toolID →
        mapGet (s.RecordLicenseMinted ms now user toolID expiresAt nonce).2.data k =
          mapGet ms.data k) ∧
      (∀ v : Value, (ms.Get now (pendingKey user toolID)).1 = some v →
        (s.RecordLicenseMinted ms now user toolID expiresAt nonce).2 = ms) ∧
      ((ms.Get now (pendingKey user toolID)).1 = none →
        mapGet (s.RecordLicenseMinted ms now user toolID expiresAt nonce).2.data
          (pendingKey user toolID) = none)) := by
  have hstore : ((s.RecordLicenseMinted ms now user toolID expiresAt nonce).1 =
        some "no pending license found" ∨
      (s.RecordLicenseMinted ms now user toolID expiresAt nonce).1 = some "nonce mismatch") →
      (s.RecordLicenseMinted ms now user toolID expiresAt nonce).2 =
        (ms.Get now (pendingKey user toolID)).2 := by
    intro hf
    rcases RecordLicenseMinted_cases s ms now user toolID expiresAt nonce with
      ⟨_, e⟩ | ⟨p, _, _, e⟩ | ⟨p, _, _, e⟩ | ⟨v, _, _, e⟩
    · rw [e]
    · rw [e]
    · rw [e] at hf; rcases hf with hf | hf <;> cases hf
    · rw [e]
  refine ⟨⟨?_, ?_⟩, ⟨?_, ?_⟩, ?_⟩
  · intro h
    rcases RecordLicenseMinted_cases s ms now user toolID expiresAt nonce with
      ⟨h1, _⟩ | ⟨p, _, _, e⟩ | ⟨p, _, _, e⟩ | ⟨v, _, _, e⟩
    · exact h1
    · rw [e] at h; simp only [Option.some.injEq] at h; exact absurd h (by decide)
    · rw [e] at h; cases h
    · rw [e] at h; simp only [Option.some.injEq] at h; exact absurd h (by decide)
  · intro h
    rcases RecordLicenseMinted_cases s ms now user toolID expiresAt nonce with
      ⟨_, e⟩ | ⟨p, h1, _, _⟩ | ⟨p, h1, _, _⟩ | ⟨v, h1, _, _⟩
    · rw [e]
    · rw [h] at h1; cases h1
    · rw [h] at h1; cases h1
    · rw [h] at h1; cases h1
  · intro h
    rcases RecordLicenseMinted_cases s ms now user toolID expiresAt nonce with
      ⟨_, e⟩ | ⟨p, h1, h2, _⟩ | ⟨p, _, _, e⟩ | ⟨v, _, _, e⟩
    · rw [e] at h; simp only [Option.some.injEq] at h; exact absurd h (by decide)
    · exact ⟨p, h1, h2⟩
    · rw [e] at h; cases h
    · rw [e] at h; simp only [Option.some.injEq] at h; exact absurd h (by decide)
  · rintro ⟨p, hp, hn⟩
    rcases RecordLicenseMinted_cases s ms now user toolID expiresAt nonce with
      ⟨h1, _⟩ | ⟨q, _, _, e⟩ | ⟨q, h1, h2, _⟩ | ⟨v, h1, h2, _⟩
    · rw [hp] at h1; cases h1
    · rw [e]
    · rw [hp] at h1
      simp only [Option.some.injEq, Value.license.injEq] at h1
      subst h1
      exact absurd h2 hn
    · rw [hp] at h1
      simp only [Option.some.injEq] at h1
      exact absurd h1.symm (h2 p)
  · intro hf
    rw [hstore hf]
    refine ⟨Get_snd_data_ne ms now (licenseKey_ne_pendingKey user user toolID toolID).symm,
      fun k hk => Get_snd_data_ne ms now (Ne.symm hk),
      fun v hv => Get_snd_of_found ms now _ v hv, ?_⟩
    intro hnone
    rw [Get_snd_data]
    simp [hnone]

/-- C9 evaluated on a live pending entry and the wrong nonce 99999: the call
fails with "nonce mismatch" and the store is unchanged. -/
theorem C9_record_failures_witness :
    (LicenseService.RecordLicenseMinted (exampleService noLicenseChain) exampleStalePendingStore
        (30 * 24 * Hour + Minute) exampleUser 42 5184000 99999).1 = some "nonce mismatch" ∧
    (LicenseService.RecordLicenseMinted (exampleService noLicenseChain) exampleStalePendingStore
        (30 * 24 * Hour + Minute) exampleUser 42 5184000 99999).2 = exampleStalePendingStore :=
  have h := C9_record_failures (exampleService noLicenseChain) exampleStalePendingStore
    (30 * 24 * Hour + Minute) exampleUser 42 5184000 99999
  have hm : (LicenseService.RecordLicenseMinted (exampleService noLicenseChain)
      exampleStalePendingStore (30 * 24 * Hour + Minute) exampleUser 42 5184000 99999).1 =
      some "nonce mismatch" := h.2.1.mpr ⟨examplePending, by decide, by decide⟩
  ⟨hm, (h.2.2 (Or.inr hm)).2.2.1 (Value.license examplePending) (by decide)⟩

/-! ## C10 -/

/-- C10 as stated fails on "expiresAt = e for every e": recording with
`e = 2^64`, which `Int64()` reduces to 0, succeeds and writes a licensed entry
whose `expiresAt` is the epoch, not `2^64` seconds after it. -/
theorem C10_counterexample :
    (LicenseService.RecordLicenseMinted (exampleService noLicenseChain)
        (LicenseService.RequestLicense (exampleService noLicenseChain) exampleLib exampleCrypto
          NewMemoryStore 0 { UserAddress := exampleUser, ToolID := 42 }).2
        Second exampleUser 42 (2 ^ 64) 0).1 = none ∧
    mapGet (LicenseService.RecordLicenseMinted (exampleService noLicenseChain)
        (LicenseService.RequestLicense (exampleService noLicenseChain) exampleLib exampleCrypto
          NewMemoryStore 0 { UserAddress := exampleUser, ToolID := 42 }).2
        Second exampleUser 42 (2 ^ 64) 0).2.data (licenseKey exampleUser 42) =
      some { value := Value.license
              { UserAddress := "0x7099"
                ToolID := "42"
                ExpiresAt := 0
                Nonce := ""
                Price := ""
                CreatedAt := Second
                MaxCalls := 1000
                CallsUsed := 0
                Tier := "licensed" },
             expiresAt := Second + 30 * 24 * Hour } ∧
    (0 : Time) ≠ timeUnix (2 ^ 64) := by
  decide

/-- C10 (amended). Record-once: after a successful `RequestLicense` returning
nonce `N`, a `RecordLicenseMinted(user, tool, e, N)` made within 10 minutes
succeeds for every `e`; it writes a licensed entry with `maxCalls = 1000`,
`callsUsed = 0`, `tier = "licensed"`, a 30-day TTL and
`expiresAt = time.Unix(e.Int64(), 0)`, which is `e` seconds after the epoch when
`e` fits in a signed 64-bit integer, and it deletes the pending entry. After
that, whatever `VerifyAccess` and `RecordLicenseMinted` calls are made in
between, as long as none is a `RequestLicense`, a further `RecordLicenseMinted`
for the same user and tool fails with "no pending license found" for every
nonce, expiry and instant. -/
theorem C10_record_once (s : LicenseService) (lib : Lib) (c : Crypto) (ms : MemoryStore)
    (user : Address) (toolID : Int) (t1 t2 : Time) (resp : LicenseResponse) (e : Int)
    (hreq : (s.RequestLicense lib c ms t1 { UserAddress := user, ToolID := toolID }).1 =
      Result.ok resp)
    (h12 : t2 ≤ t1 + 10 * Minute) :
    (s.RecordLicenseMinted
        (s.RequestLicense lib c ms t1 { UserAddress := user, ToolID := toolID }).2
        t2 user toolID e resp.Nonce).1 = none ∧
    mapGet (s.RecordLicenseMinted
        (s.RequestLicense lib c ms t1 { UserAddress := user, ToolID := toolID }).2
        t2 user toolID e resp.Nonce).2.data (licenseKey user toolID) =
      some { value := Value.license
              { UserAddress := user.Hex
                ToolID := bigString toolID
                ExpiresAt := timeUnix (bigInt64 e)
                Nonce := ""
                Price := ""
                CreatedAt := t2
                MaxCalls := 1000
                CallsUsed := 0
                Tier := "licensed" },
             expiresAt := t2 + 30 * 24 * Hour } ∧
    (-2 ^ 63 ≤ e → e < 2 ^ 63 → timeUnix (bigInt64 e) = timeUnix e) ∧
    mapGet (s.RecordLicenseMinted
        (s.RequestLicense lib c ms t1 { UserAddress := user, ToolID := toolID }).2
        t2 user toolID e resp.Nonce).2.data (pendingKey user toolID) = none ∧
    ∀ (between : List Call) (t3 : Time) (e' nonce' : Int),
      (∀ x ∈ between, x.isRequestLicense = false) →
      (s.RecordLicenseMinted
        (s.run lib c
          (s.RecordLicenseMinted
            (s.RequestLicense lib c ms t1 { UserAddress := user, ToolID := toolID }).2
            t2 user toolID e resp.Nonce).2 between)
        t3 user toolID e' nonce').1 = some "no pending license found" := by
  obtain ⟨p, hn, hp⟩ := RequestLicense_ok_pending s lib c ms t1 _ resp hreq
  obtain ⟨hr1, hr2, hr3⟩ := RecordLicenseMinted_of_pending s _ t2 user toolID e
    resp.Nonce p _ hp h12 hn
  refine ⟨hr1, hr2, ?_, hr3, ?_⟩
  · intro h1 h2
    rw [bigInt64_of_range h1 h2]
  · intro between t3 e' nonce' hnoreq
    have habs := run_pending_absent s lib c user toolID between _ hnoreq hr3
    rcases RecordLicenseMinted_cases s
        (s.run lib c
          (s.RecordLicenseMinted
            (s.RequestLicense lib c ms t1 { UserAddress := user, ToolID := toolID }).2
            t2 user toolID e resp.Nonce).2 between) t3 user toolID e' nonce' with
      ⟨_, e1⟩ | ⟨q, h1, _, _⟩ | ⟨q, h1, _, _⟩ | ⟨v, h1, _, _⟩
    · rw [e1]
    · rw [Get_of_absent _ t3 _ habs] at h1; cases h1
    · rw [Get_of_absent _ t3 _ habs] at h1; cases h1
    · rw [Get_of_absent _ t3 _ habs] at h1; cases h1

/-- C10 evaluated: request at instant 0, record one second later with expiry
5000, one access in between, then a second record with the same nonce fails. -/
theorem C10_record_once_witness :
    (LicenseService.RecordLicenseMinted (exampleService noLicenseChain)
        (LicenseService.RequestLicense (exampleService noLicenseChain) exampleLib exampleCrypto
          NewMemoryStore 0 { UserAddress := exampleUser, ToolID := 42 }).2
        Second exampleUser 42 5000 0).1 = none ∧
    (LicenseService.RecordLicenseMinted (exampleService noLicenseChain)
        (LicenseService.run (exampleService noLicenseChain) exampleLib exampleCrypto
          (LicenseService.RecordLicenseMinted (exampleService noLicenseChain)
            (LicenseService.RequestLicense (exampleService noLicenseChain) exampleLib
              exampleCrypto NewMemoryStore 0 { UserAddress := exampleUser, ToolID := 42 }).2
            Second exampleUser 42 5000 0).2
          [Call.VerifyAccess (2 * Second) exampleUser 42])
        (3 * Second) exampleUser 42 5000 0).1 = some "no pending license found" :=
  have h := C10_record_once (exampleService noLicenseChain) exampleLib exampleCrypto
    NewMemoryStore exampleUser 42 0 Second
    { ToolID := 42
      User := exampleUser
      ExpiresAt := 2592000
      Nonce := 0
      SignatureR := "0707070707070707070707070707070707070707070707070707070707070707"
      SignatureS := "0707070707070707070707070707070707070707070707070707070707070707"
      SignatureV := "1c"
      Price := "10000000000000000"
      Contract := "0x1234567890123456789012345678901234567890" }
    5000 (by decide) (by decide)
  ⟨h.1, h.2.2.2.2 [Call.VerifyAccess (2 * Second) exampleUser 42] (3 * Second) 5000 0
    (by decide)⟩

/-! ## C18 -/

/-- C18 as stated fails at `now = expiresAt`: an entry expiring at instant 10 is
still returned by `Get` at instant 10, and the store is unchanged. -/
theorem C18_counterexample :
    MemoryStore.Get { data := [("k", { value := Value.int64 1, expiresAt := 10 })] } 10 "k" =
      (some (Value.int64 1), { data := [("k", { value := Value.int64 1, expiresAt := 10 })] }) := by
  decide

/-- C18 (amended). Expiry rule of `MemoryStore.Get`: at instant `now`, `Get(key)`
returns `(value, true)` if and only if an entry for the key exists and
`now ≤ expiresAt`; it returns not-found if and only if the entry is missing or
`now > expiresAt`. In the expired case the entry has been removed when `Get`
returns and every other entry is unchanged; otherwise the store is unchanged. -/
theorem C18_get_expiry_rule (ms : MemoryStore) (now : Time) (key : String) :
    (∀ v : Value, (ms.Get now key).1 = some v ↔
      ∃ e : entry, mapGet ms.data key = some e ∧ e.value = v ∧ now ≤ e.expiresAt) ∧
    ((ms.Get now key).1 = none ↔
      mapGet ms.data key = none ∨
        ∃ e : entry, mapGet ms.data key = some e ∧ e.expiresAt < now) ∧
    (∀ e : entry, mapGet ms.data key = some e → e.expiresAt < now →
      mapGet (ms.Get now key).2.data key = none ∧
      ∀ k : String, k ≠ key → mapGet (ms.Get now key).2.data k = mapGet ms.data k) ∧
    ((mapGet ms.data key = none ∨
        ∃ e : entry, mapGet ms.data key = some e ∧ now ≤ e.expiresAt) →
      (ms.Get now key).2 = ms) := by
  refine ⟨?_, ?_, ?_, ?_⟩
  · intro v
    rw [Get_fst]
    cases h : mapGet ms.data key with
    | none => simp
    | some e =>
      by_cases hlt : e.expiresAt < now
      · simp only [hlt, if_true, Option.some.injEq, exists_eq_left']
        constructor
        · intro hv; cases hv
        · intro hv; exact absurd hlt (not_lt.mpr hv.2)
      · simp only [hlt, if_false, Option.some.injEq, exists_eq_left']
        exact ⟨fun hv => ⟨hv, not_lt.mp hlt⟩, fun hv => hv.1⟩
  · rw [Get_fst]
    cases h : mapGet ms.data key with
    | none => simp
    | some e =>
      by_cases hlt : e.expiresAt < now
      · simp [hlt]
      · simp [hlt]
  · intro e he hlt
    rw [Get_of_expired ms now key e he hlt]
    exact ⟨mapGet_mapDelete_self _ _, fun k hk => mapGet_mapDelete_ne _ (Ne.symm hk)⟩
  · rintro (h | ⟨e, he, hle⟩)
    · rw [Get_of_absent ms now key h]
    · rw [Get_of_live ms now key e he hle]

/-! ## C19 -/

/-- C19. `MemoryStore.Increment(key, delta, ttl)` at instant `now` returns
`prior + delta` (in `int64` arithmetic, the exact sum whenever it fits) and no
error, where `prior` is the stored `int64` value when `Get` would return one at
that instant and 0 otherwise; afterwards the key holds that value with
`expiresAt = now + ttl`, whatever the previous expiry was, and no other key is
changed. -/
theorem C19_increment (ms : MemoryStore) (now : Time) (key : String) (delta : Int)
    (ttl : Duration) :
    (ms.Increment now key delta ttl).1 =
      (wrap64 ((match (ms.Get now key).1 with
                | some (Value.int64 counter) => counter
                | _ => 0) + delta), none) ∧
    (∀ prior : Int, (ms.Get now key).1 = some (Value.int64 prior) →
      -2 ^ 63 ≤ prior + delta → prior + delta < 2 ^ 63 →
      (ms.Increment now key delta ttl).1.1 = prior + delta) ∧
    ((ms.Get now key).1 = none → -2 ^ 63 ≤ delta → delta < 2 ^ 63 →
      (ms.Increment now key delta ttl).1.1 = delta) ∧
    mapGet (ms.Increment now key delta ttl).2.data key =
      some { value := Value.int64 (ms.Increment now key delta ttl).1.1,
             expiresAt := now + ttl } ∧
    (∀ k : String, k ≠ key →
      mapGet (ms.Increment now key delta ttl).2.data k = mapGet ms.data k) := by
  have hmain : (ms.Increment now key delta ttl).1 =
      (wrap64 ((match (ms.Get now key).1 with
                | some (Value.int64 counter) => counter
                | _ => 0) + delta), none) := by
    rw [Get_fst]
    cases h : mapGet ms.data key with
    | none => simp [MemoryStore.Increment, h]
    | some e =>
      obtain ⟨v, x⟩ := e
      by_cases hlt : x < now
      · simp [MemoryStore.Increment, h, Time.After, hlt]
      · cases v <;> simp [MemoryStore.Increment, h, Time.After, hlt]
  refine ⟨hmain, ?_, ?_, Increment_snd_data_self ms now key delta ttl,
    fun k hk => Increment_snd_data_ne ms now delta ttl (Ne.symm hk)⟩
  · intro prior hp h1 h2
    rw [hmain, hp]
    exact wrap64_of_range h1 h2
  · intro hn h1 h2
    rw [hmain, hn]
    simp only [zero_add]
    exact wrap64_of_range h1 h2

/-! ## C20 -/

/-- C20. The code at a failing input: a store created with a positive cleanup
interval (one minute) returns nil from the first `Close` and panics with "close
of closed channel" in the second, where the claim requires nil both times; with
a zero interval both calls return nil. -/
theorem C20_second_close_panics :
    (MemoryStoreControl.Close (NewMemoryStoreControl Minute)).1 = Result.ok none ∧
    (MemoryStoreControl.Close (MemoryStoreControl.Close (NewMemoryStoreControl Minute)).2).1 =
      Result.panic "close of closed channel" ∧
    (MemoryStoreControl.Close (NewMemoryStoreControl 0)).1 = Result.ok none ∧
    (MemoryStoreControl.Close (MemoryStoreControl.Close (NewMemoryStoreControl 0)).2).1 =
      Result.ok none := by
  decide

/-- Closing twice a store created by `NewMemoryStore`: the first call returns
nil; the second returns nil when the cleanup interval is not positive and
panics when it is. -/
theorem Close_twice (cleanupInterval : Duration) :
    (MemoryStoreControl.Close (NewMemoryStoreControl cleanupInterval)).1 = Result.ok none ∧
    (MemoryStoreControl.Close
        (MemoryStoreControl.Close (NewMemoryStoreControl cleanupInterval)).2).1 =
      if cleanupInterval > 0 then Result.panic "close of closed channel" else Result.ok none := by
  by_cases h : cleanupInterval > 0 <;>
    simp [MemoryStoreControl.Close, NewMemoryStoreControl, h]

/-! ## C11 -/

/-- C11 as stated fails: after a request at instant 5 s and a record with the
returned nonce, the pending entry that was promoted carried the nonce
"5000000000", and the licensed entry written carries the empty nonce. -/
theorem C11_counterexample :
    mapGet (LicenseService.RequestLicense (exampleService noLicenseChain) exampleLib
        exampleCrypto NewMemoryStore (5 * Second)
        { UserAddress := exampleUser, ToolID := 42 }).2.data (pendingKey exampleUser 42) =
      some { value := Value.license
              { UserAddress := "0x7099"
                ToolID := "42"
                ExpiresAt := 2592005 * Second
                Nonce := "5000000000"
                Price := "10000000000000000"
                CreatedAt := 5 * Second
                MaxCalls := 0
                CallsUsed := 0
                Tier := "" },
             expiresAt := 5 * Second + 10 * Minute } ∧
    LicenseService.RecordLicenseMinted (exampleService noLicenseChain)
        (LicenseService.RequestLicense (exampleService noLicenseChain) exampleLib exampleCrypto
          NewMemoryStore (5 * Second) { UserAddress := exampleUser, ToolID := 42 }).2
        (6 * Second) exampleUser 42 2592005 5000000000 =
      (none,
        { data := [("license:0x7099:42",
            { value := Value.license
                { UserAddress := "0x7099"
                  ToolID := "42"
                  ExpiresAt := 2592005 * Second
                  Nonce := ""
                  Price := ""
                  CreatedAt := 6 * Second
                  MaxCalls := 1000
                  CallsUsed := 0
                  Tier := "licensed" },
              expiresAt := 6 * Second + 30 * 24 * Hour })] }) := by
  decide

/-- C11 (amended). Every licensed entry that `RecordLicenseMinted` writes has an
empty nonce field (and an empty price). The nonce of the pending entry it is
promoted from is only compared with the decimal form of the nonce argument,
which it equals, before the pending entry is deleted. -/
theorem C11_recorded_nonce (s : LicenseService) (ms : MemoryStore) (now : Time)
    (user : Address) (toolID expiresAt nonce : Int)
    (hok : (s.RecordLicenseMinted ms now user toolID expiresAt nonce).1 = none) :
    (∃ p : License, (ms.Get now (pendingKey user toolID)).1 = some (Value.license p) ∧
      p.Nonce = bigString nonce) ∧
    (∃ L : License,
      mapGet (s.RecordLicenseMinted ms now user toolID expiresAt nonce).2.data
          (licenseKey user toolID) =
        some { value := Value.license L, expiresAt := now + 30 * 24 * Hour } ∧
      L.Nonce = "" ∧ L.Price = "" ∧ L.Tier = "licensed") ∧
    mapGet (s.RecordLicenseMinted ms now user toolID expiresAt nonce).2.data
      (pendingKey user toolID) = none := by
  rcases RecordLicenseMinted_cases s ms now user toolID expiresAt nonce with
    ⟨_, e⟩ | ⟨p, _, _, e⟩ | ⟨p, h1, h2, e⟩ | ⟨v, _, _, e⟩
  · rw [e] at hok; cases hok
  · rw [e] at hok; cases hok
  · refine ⟨⟨p, h1, h2⟩, ?_, ?_⟩
    · rw [e]
      refine ⟨{ UserAddress := user.Hex
                ToolID := bigString toolID
                ExpiresAt := timeUnix (bigInt64 expiresAt)
                Nonce := ""
                Price := ""
                CreatedAt := now
                MaxCalls := 1000
                CallsUsed := 0
                Tier := "licensed" }, ?_, rfl, rfl, rfl⟩
      simp only
      rw [Delete_snd_data_ne _ (licenseKey_ne_pendingKey user user toolID toolID).symm,
        Set_snd_data_self]
    · rw [e]
      exact Delete_snd_data_self _ _
  · rw [e] at hok; cases hok

/-- C11 evaluated: a record with the nonce of the live pending entry. -/
theorem C11_recorded_nonce_witness :
    ∃ L : License,
      mapGet (LicenseService.RecordLicenseMinted (exampleService noLicenseChain)
          exampleStalePendingStore (30 * 24 * Hour + Minute) exampleUser 42 5184000
          2592000000000000).2.data (licenseKey exampleUser 42) =
        some { value := Value.license L,
               expiresAt := (30 * 24 * Hour + Minute) + 30 * 24 * Hour } ∧
      L.Nonce = "" ∧ L.Price = "" ∧ L.Tier = "licensed" :=
  (C11_recorded_nonce (exampleService noLicenseChain) exampleStalePendingStore
    (30 * 24 * Hour + Minute) exampleUser 42 5184000 2592000000000000 (by decide)).2.1

/-! ## C13 -/

/-- C13 as stated fails: a request at day 100 followed by a record carrying
`expiresAt = 0` leaves a licensed entry created at day 100 that expired at the
epoch. -/
theorem C13_counterexample :
    mapGet (LicenseService.run (exampleService noLicenseChain) exampleLib exampleCrypto
        NewMemoryStore
        [Call.RequestLicense (100 * 24 * Hour) { UserAddress := exampleUser, ToolID := 42 },
         Call.RecordLicenseMinted (100 * 24 * Hour) exampleUser 42 0
           (100 * 24 * Hour)]).data (licenseKey exampleUser 42) =
      some { value := Value.license
              { UserAddress := "0x7099"
                ToolID := "42"
                ExpiresAt := 0
                Nonce := ""
                Price := ""
                CreatedAt := 100 * 24 * Hour
                MaxCalls := 1000
                CallsUsed := 0
                Tier := "licensed" },
             expiresAt := 100 * 24 * Hour + 30 * 24 * Hour } ∧
    ¬ ((100 * 24 * Hour : Time) < 0) := by
  decide

theorem pending_expiry_after_now (now : Int) (h1 : -2 ^ 63 ≤ now) (h2 : now < 2 ^ 63) :
    now < timeUnix (bigInt64 (Time.Unix (Time.Add now (30 * 24 * Hour)))) := by
  rw [Unix_add_30_days]
  have hr : bigInt64 (Time.Unix now + 2592000) = Time.Unix now + 2592000 := by
    apply bigInt64_of_range
    · simp only [Time.Unix]; omega
    · simp only [Time.Unix]; omega
  rw [hr]
  simp only [timeUnix, Time.Unix]
  omega

/-- C13 (amended). Lifetime invariant: in every store state reachable from the
empty store by a sequence of `RequestLicense`, `RecordLicenseMinted` and
`VerifyAccess` calls in which every record carries an expiry later than its own
instant and every request is made at an instant whose `UnixNano` is an `int64`,
with a chain view whose metadata expire after the zero time, every license
entry, pending or licensed, satisfies `createdAt < expiresAt`. -/
theorem C13_lifetime (s : LicenseService) (lib : Lib) (c : Crypto) (calls : List Call)
    (htimed : ∀ x ∈ calls, x.WellTimed)
    (hchain : ∀ (t : String) (m : LicenseMetadata),
      s.blockchain.GetLicenseMetadata t = (some m, none) → zeroTime < m.ExpiresAt) :
    (s.run lib c NewMemoryStore calls).AllLicenses (fun _ L => L.CreatedAt < L.ExpiresAt) := by
  have key : ∀ (calls : List Call) (ms : MemoryStore), (∀ x ∈ calls, x.WellTimed) →
      ms.AllLicenses (fun _ L => L.CreatedAt < L.ExpiresAt) →
      (s.run lib c ms calls).AllLicenses (fun _ L => L.CreatedAt < L.ExpiresAt) := by
    intro calls
    induction calls with
    | nil => intro ms _ h; exact h
    | cons x rest ih =>
      intro ms hx h
      have hrest : ∀ y ∈ rest, y.WellTimed := fun y hy => hx y (List.mem_cons_of_mem x hy)
      have hhead := hx x (List.mem_cons_self x rest)
      simp only [LicenseService.run, List.foldl_cons]
      apply ih _ hrest
      cases x with
      | RequestLicense now req =>
        simp only [LicenseService.call]
        apply RequestLicense_AllLicenses s lib c ms now req h
        exact pending_expiry_after_now now hhead.1 hhead.2
      | VerifyAccess now u t =>
        simp only [LicenseService.call]
        apply VerifyAccess_AllLicenses s lib ms now u t h
        · intro L hL _; exact hL
        · intro m hm; exact hchain _ m hm
      | RecordLicenseMinted now u t e n =>
        simp only [LicenseService.call]
        apply RecordLicenseMinted_AllLicenses s ms now u t e n h
        exact hhead
  exact key calls NewMemoryStore htimed (AllLicenses_empty _)

/-- C13 evaluated: a request at day 100 and a record carrying the returned
expiry leave a licensed entry with `createdAt < expiresAt`. -/
theorem C13_lifetime_witness :
    (LicenseService.run (exampleService noLicenseChain) exampleLib exampleCrypto NewMemoryStore
        [Call.RequestLicense (100 * 24 * Hour) { UserAddress := exampleUser, ToolID := 42 },
         Call.RecordLicenseMinted (100 * 24 * Hour) exampleUser 42 11232000
           (100 * 24 * Hour)]).AllLicenses (fun _ L => L.CreatedAt < L.ExpiresAt) :=
  C13_lifetime (exampleService noLicenseChain) exampleLib exampleCrypto _
    (by
      intro x hx
      simp only [List.mem_cons, List.mem_singleton, List.not_mem_nil, or_false] at hx
      rcases hx with rfl | rfl
      · exact ⟨by decide, by decide⟩
      · show (100 * 24 * Hour : Time) < timeUnix (bigInt64 11232000)
        decide)
    (by intro t m h; cases h)

/-! ## C12 -/

theorem chain_replicate {R : Time → Time → Prop} (a b : Time) (hab : R a b) (hbb : R b b) :
    ∀ n : Nat, List.Chain R a (List.replicate n b)
  | 0 => List.Chain.nil
  | n + 1 => List.Chain.cons hab (chain_replicate b b hbb hbb n)

/-- C12 as stated fails: from the empty store, a request, a record and 1001
accesses leave a licensed entry with `callsUsed = 1001` above `maxCalls = 1000`,
and the 1001st access returns `tier = "licensed"` with `callsRemaining = -1`. -/
theorem C12_counterexample :
    (LicenseService.VerifyAccessSeq (exampleService noLicenseChain) exampleLib exampleUser 42
        (LicenseService.run (exampleService noLicenseChain) exampleLib exampleCrypto
          NewMemoryStore
          [Call.RequestLicense 0 { UserAddress := exampleUser, ToolID := 42 },
           Call.RecordLicenseMinted Second exampleUser 42 2592000 0])
        (List.replicate 1001 (2 * Second))).1[1000]? =
      some (Result.ok
        { Valid := true
          Tier := "licensed"
          CallsRemaining := -1
          ExpiresAt := some (2592000 * Second)
          ProvenanceHash := ""
          Reason := "" }) ∧
    ∃ exp' : Time,
      mapGet (LicenseService.VerifyAccessSeq (exampleService noLicenseChain) exampleLib
          exampleUser 42
          (LicenseService.run (exampleService noLicenseChain) exampleLib exampleCrypto
            NewMemoryStore
            [Call.RequestLicense 0 { UserAddress := exampleUser, ToolID := 42 },
             Call.RecordLicenseMinted Second exampleUser 42 2592000 0])
          (List.replicate 1001 (2 * Second))).2.data (licenseKey exampleUser 42) =
        some { value := Value.license
                { UserAddress := "0x7099"
                  ToolID := "42"
                  ExpiresAt := 2592000 * Second
                  Nonce := ""
                  Price := ""
                  CreatedAt := Second
                  MaxCalls := 1000
                  CallsUsed := 1001
                  Tier := "licensed" },
               expiresAt := exp' } := by
  have hstore : mapGet (LicenseService.run (exampleService noLicenseChain) exampleLib
      exampleCrypto NewMemoryStore
      [Call.RequestLicense 0 { UserAddress := exampleUser, ToolID := 42 },
       Call.RecordLicenseMinted Second exampleUser 42 2592000 0]).data
      (licenseKey exampleUser 42) =
      some { value := Value.license
              { UserAddress := "0x7099"
                ToolID := "42"
                ExpiresAt := 2592000 * Second
                Nonce := ""
                Price := ""
                CreatedAt := Second
                MaxCalls := 1000
                CallsUsed := 0
                Tier := "licensed" },
             expiresAt := Second + 30 * 24 * Hour } := by
    decide
  obtain ⟨h1, exp', h2⟩ := VerifyAccessSeq_hits (exampleService noLicenseChain) exampleLib
    exampleUser 42 (List.replicate 1001 (2 * Second)) _ _ _ 0 hstore rfl
    (chain_replicate _ _ (by decide) (by decide) 1001)
    (by
      intro t ht
      rw [List.eq_of_mem_replicate ht]
      decide)
    (by rw [List.length_replicate]; norm_num) (by decide) (by decide)
  refine ⟨?_, exp', ?_⟩
  · rw [h1 1000 (2 * Second) (by rw [List.getElem?_replicate]; rfl)]
    rfl
  · rw [h2, List.length_replicate]
    rfl

theorem startsWithP_pendingKey (u : Address) (t : Int) : startsWithP (pendingKey u t) = true := by
  simp [startsWithP, pendingKey]

theorem startsWithP_licenseKey (u : Address) (t : Int) : startsWithP (licenseKey u t) = false := by
  simp [startsWithP, licenseKey]

theorem usageBound_mono {n m : Nat} (h : n ≤ m) (k : String) (L : License)
    (hb : usageBound n k L) : usageBound m k L := by
  obtain ⟨h1, h2, h3⟩ := hb
  have : (n : Int) ≤ m := by exact_mod_cast h
  exact ⟨h1, le_trans h2 this, h3⟩

/-- `VerifyAccess` takes a property `P` of all license entries to a property
`Q` that follows from `P`, holds after counting one more call on an unexpired
license satisfying `P`, and holds of the entry synthesised from chain metadata. -/
theorem VerifyAccess_AllLicenses_step {P Q : String → License → Prop} (s : LicenseService)
    (lib : Lib) (ms : MemoryStore) (now : Time) (user : Address) (toolID : Int)
    (h : ms.AllLicenses P) (hPQ : ∀ k L, P k L → Q k L)
    (hhit : ∀ L : License, P (licenseKey user toolID) L → now < L.ExpiresAt →
      Q (licenseKey user toolID) { L with CallsUsed := wrap64 (L.CallsUsed + 1) })
    (hchain : ∀ m : LicenseMetadata,
      Q (licenseKey user toolID)
        { UserAddress := user.Hex
          ToolID := bigString toolID
          ExpiresAt := m.ExpiresAt
          Nonce := ""
          Price := ""
          CreatedAt := zeroTime
          MaxCalls := 1000
          CallsUsed := 1
          Tier := "licensed" }) :
    (s.VerifyAccess lib ms now user toolID).2.AllLicenses Q := by
  have h1 := AllLicenses_mono (AllLicenses_Get h now (licenseKey user toolID)) hPQ
  cases hu : unexpiredLicense (ms.Get now (licenseKey user toolID)).1 now with
  | some L =>
    obtain ⟨hheld, hexp⟩ := unexpiredLicense_eq_some.mp hu
    rw [VerifyAccess_of_cached s lib ms now user toolID L hu]
    apply AllLicenses_Set h1
    intro L' hL'
    simp only [Value.license.injEq] at hL'
    subst hL'
    exact hhit L (AllLicenses_found h now _ L hheld) hexp
  | none =>
    rw [VerifyAccess_of_uncached s lib ms now user toolID hu]
    rcases chain_view_cases s.blockchain user toolID with ⟨hv, m, hm⟩ | ⟨hv, hm⟩ | hno
    · rw [chain_of_valid s lib _ now user toolID m hv hm]
      apply AllLicenses_Set h1
      intro L' hL'
      simp only [Value.license.injEq] at hL'
      subst hL'
      exact hchain m
    · rw [chain_of_nil_metadata s lib _ now user toolID hv hm]
      exact h1
    · rw [chain_of_no_license s lib _ now user toolID hno, freeTier_eq]
      exact AllLicenses_Increment h1 now _ 1 _

/-- The usage bounds along a sequence of calls: each access raises the bound on
`callsUsed` by one. -/
theorem run_usageBound (s : LicenseService) (lib : Lib) (c : Crypto) :
    ∀ (calls : List Call) (ms : MemoryStore) (n : Nat),
      ms.AllLicenses (usageBound n) → n + Call.countVerifyAccess calls < 2 ^ 62 →
      (s.run lib c ms calls).AllLicenses (usageBound (n + Call.countVerifyAccess calls)) := by
  intro calls
  induction calls with
  | nil => intro ms n h _; exact h
  | cons x rest ih =>
    intro ms n h hb
    simp only [LicenseService.run, List.foldl_cons]
    cases x with
    | RequestLicense now req =>
      simp only [Call.countVerifyAccess] at hb ⊢
      apply ih _ n _ hb
      simp only [LicenseService.call]
      apply RequestLicense_AllLicenses s lib c ms now req h
      refine ⟨le_refl _, by simp, ?_⟩
      rw [startsWithP_pendingKey]
      simp
    | VerifyAccess now u t =>
      simp only [Call.countVerifyAccess] at hb ⊢
      have hstep : (s.VerifyAccess lib ms now u t).2.AllLicenses (usageBound (n + 1)) := by
        refine VerifyAccess_AllLicenses_step (Q := usageBound (n + 1)) s lib ms now u t h
          ?_ ?_ ?_
        · intro k L hL; exact usageBound_mono (Nat.le_succ n) k L hL
        · intro L hL _
          obtain ⟨h1, h2, h3⟩ := hL
          rw [startsWithP_licenseKey] at h3
          simp only [Bool.false_eq_true, if_false] at h3
          have hw : wrap64 (L.CallsUsed + 1) = L.CallsUsed + 1 := by
            apply wrap64_of_range <;> omega
          refine ⟨?_, ?_, ?_⟩
          · simp only [hw]; omega
          · simp only [hw]; push_cast; omega
          · rw [startsWithP_licenseKey]
            simpa using h3
        · intro m
          refine ⟨show (0 : Int) ≤ 1 by decide, ?_, ?_⟩
          · simp only; push_cast; omega
          · rw [startsWithP_licenseKey]
            simp
      have := ih (s.VerifyAccess lib ms now u t).2 (n + 1) hstep (by omega)
      simp only [LicenseService.call]
      have e : n + (Call.countVerifyAccess rest + 1) = n + 1 + Call.countVerifyAccess rest := by
        omega
      rw [e]
      exact this
    | RecordLicenseMinted now u t e nonce =>
      simp only [Call.countVerifyAccess] at hb ⊢
      apply ih _ n _ hb
      simp only [LicenseService.call]
      apply RecordLicenseMinted_AllLicenses s ms now u t e nonce h
      refine ⟨le_refl _, by simp, ?_⟩
      rw [startsWithP_licenseKey]
      simp

/-- C12 (amended). Usage bounds: in every store state reachable from the empty
store by a sequence of `RequestLicense`, `RecordLicenseMinted` and
`VerifyAccess` calls (fewer than `2^62` of them accesses), every license entry
has `callsUsed` between 0 and the number of accesses made, and `maxCalls` 0
(with `callsUsed = 0`) or 1000. Hence, as long as at most 1000 accesses have been
made, every license entry satisfies `0 ≤ callsUsed ≤ maxCalls`, and a further
access, when fewer than 1000 were made before, returns no licensed result with
a negative `callsRemaining`. -/
theorem C12_usage_bounds (s : LicenseService) (lib : Lib) (c : Crypto) (calls : List Call) :
    (Call.countVerifyAccess calls < 2 ^ 62 →
      (s.run lib c NewMemoryStore calls).AllLicenses (fun _ L =>
        0 ≤ L.CallsUsed ∧ L.CallsUsed ≤ Call.countVerifyAccess calls ∧
        ((L.MaxCalls = 0 ∧ L.CallsUsed = 0) ∨ L.MaxCalls = 1000))) ∧
    (Call.countVerifyAccess calls ≤ 1000 →
      (s.run lib c NewMemoryStore calls).AllLicenses (fun _ L =>
        0 ≤ L.CallsUsed ∧ L.CallsUsed ≤ L.MaxCalls)) ∧
    (Call.countVerifyAccess calls < 1000 →
      ∀ (now : Time) (user : Address) (toolID : Int) (r : AccessResult),
        (s.VerifyAccess lib (s.run lib c NewMemoryStore calls) now user toolID).1 = Result.ok r →
        r.Tier = "licensed" → 0 ≤ r.CallsRemaining) := by
  have hinv : Call.countVerifyAccess calls < 2 ^ 62 →
      (s.run lib c NewMemoryStore calls).AllLicenses
        (usageBound (Call.countVerifyAccess calls)) := by
    intro hb
    have := run_usageBound s lib c calls NewMemoryStore 0 (AllLicenses_empty _) (by omega)
    simpa using this
  refine ⟨?_, ?_, ?_⟩
  · intro hb
    refine AllLicenses_mono (hinv hb) ?_
    intro k L ⟨h1, h2, h3⟩
    refine ⟨h1, h2, ?_⟩
    split at h3
    · exact Or.inl h3
    · exact Or.inr h3
  · intro hb
    refine AllLicenses_mono (hinv (by omega)) ?_
    intro k L ⟨h1, h2, h3⟩
    refine ⟨h1, ?_⟩
    split at h3
    · rw [h3.1, h3.2]
    · rw [h3]
      have : (Call.countVerifyAccess calls : Int) ≤ 1000 := by exact_mod_cast hb
      omega
  · intro hb now user toolID r hres htier
    have hI := hinv (by omega)
    cases hu : unexpiredLicense
        ((s.run lib c NewMemoryStore calls).Get now (licenseKey user toolID)).1 now with
    | some L =>
      obtain ⟨hheld, _⟩ := unexpiredLicense_eq_some.mp hu
      obtain ⟨h1, h2, h3⟩ := AllLicenses_found hI now _ L hheld
      rw [startsWithP_licenseKey] at h3
      simp only [Bool.false_eq_true, if_false] at h3
      rw [VerifyAccess_of_cached s lib _ now user toolID L hu] at hres
      simp only [Result.ok.injEq] at hres
      subst hres
      have hc : (Call.countVerifyAccess calls : Int) < 1000 := by exact_mod_cast hb
      have hw : wrap64 (L.CallsUsed + 1) = L.CallsUsed + 1 := by
        apply wrap64_of_range <;> omega
      have hw2 : wrap64 (L.MaxCalls - (L.CallsUsed + 1)) = L.MaxCalls - (L.CallsUsed + 1) := by
        apply wrap64_of_range <;> omega
      simp only [hw, hw2]
      omega
    | none =>
      rw [VerifyAccess_of_uncached s lib _ now user toolID hu] at hres
      rcases chain_view_cases s.blockchain user toolID with ⟨hv, m, hm⟩ | ⟨hv, hm⟩ | hno
      · rw [chain_of_valid s lib _ now user toolID m hv hm] at hres
        simp only [Result.ok.injEq] at hres
        subst hres
        show (0 : Int) ≤ 999
        decide
      · rw [chain_of_nil_metadata s lib _ now user toolID hv hm] at hres
        cases hres
      · rw [chain_of_no_license s lib _ now user toolID hno, freeTier_eq] at hres
        rcases freeTierResult_tier s lib now user toolID _ r hres with ⟨_, _, ht⟩ | ⟨_, _, ht, _⟩
        · rw [ht] at htier; exact absurd htier (by decide)
        · rw [ht] at htier; exact absurd htier (by decide)

/-! ## C14 -/

/-- C14 as stated fails: a license recorded at instant 0 with an expiry 30 days
later is hit by an access after 1 hour, which rewrites the entry with a 24-hour
TTL; the next access, after 26 hours, well before the expiry, no longer finds
the entry and gets the free tier. -/
theorem C14_counterexample :
    (LicenseService.VerifyAccessSeq (exampleService noLicenseChain) exampleLib exampleUser 42
        (LicenseService.run (exampleService noLicenseChain) exampleLib exampleCrypto
          NewMemoryStore
          [Call.RequestLicense 0 { UserAddress := exampleUser, ToolID := 42 },
           Call.RecordLicenseMinted 0 exampleUser 42 2592000 0])
        [Hour, 26 * Hour]).1 =
      [Result.ok
        { Valid := true
          Tier := "licensed"
          CallsRemaining := 999
          ExpiresAt := some (30 * 24 * Hour)
          ProvenanceHash := ""
          Reason := "" },
       Result.ok
        { Valid := true
          Tier := "free"
          CallsRemaining := 99
          ExpiresAt := none
          ProvenanceHash :=
            LicenseService.generateProvenanceHash (exampleService noLicenseChain) exampleLib
              (26 * Hour) "FREE" "42" "0x7099"
          Reason := "" }] ∧
    (26 * Hour : Time) < 30 * 24 * Hour := by
  decide

/-- C14 (amended). For a license recorded by `RecordLicenseMinted` at instant
`t0` with expiry `E = time.Unix(e.Int64(), 0)`, the accesses made before `E`
return `tier = "licensed"` from the cached entry, whatever the chain view
reports, provided the first is made no later than 30 days after `t0` and each
further one no later than 24 hours after the previous one: the `j`-th of them
leaves `1000 - j` calls. -/
theorem C14_licensed_while_refreshed (s : LicenseService) (lib : Lib) (ms : MemoryStore)
    (t0 : Time) (user : Address) (toolID e nonce : Int) (ts : List Time)
    (hrec : (s.RecordLicenseMinted ms t0 user toolID e nonce).1 = none)
    (hfirst : ∀ t : Time, ts.head? = some t → t ≤ t0 + 30 * 24 * Hour)
    (hgap : List.Chain' (fun prev next => next ≤ prev + 24 * Hour) ts)
    (hbefore : ∀ t ∈ ts, t < timeUnix (bigInt64 e))
    (hlen : ts.length < 2 ^ 62) :
    ∀ (j : Nat) (t : Time), ts[j]? = some t →
      (LicenseService.VerifyAccessSeq s lib user toolID
          (s.RecordLicenseMinted ms t0 user toolID e nonce).2 ts).1[j]? =
        some (Result.ok
          { Valid := true
            Tier := "licensed"
            CallsRemaining := 1000 - ((j : Int) + 1)
            ExpiresAt := some (timeUnix (bigInt64 e))
            ProvenanceHash := ""
            Reason := "" }) := by
  have hent : mapGet (s.RecordLicenseMinted ms t0 user toolID e nonce).2.data
      (licenseKey user toolID) =
      some { value := Value.license
              { UserAddress := user.Hex
                ToolID := bigString toolID
                ExpiresAt := timeUnix (bigInt64 e)
                Nonce := ""
                Price := ""
                CreatedAt := t0
                MaxCalls := 1000
                CallsUsed := 0
                Tier := "licensed" },
             expiresAt := t0 + 30 * 24 * Hour } := by
    rcases RecordLicenseMinted_cases s ms t0 user toolID e nonce with
      ⟨_, e1⟩ | ⟨p, _, _, e1⟩ | ⟨p, _, _, e1⟩ | ⟨v, _, _, e1⟩
    · rw [e1] at hrec; cases hrec
    · rw [e1] at hrec; cases hrec
    · rw [e1]
      simp only
      rw [Delete_snd_data_ne _ (licenseKey_ne_pendingKey user user toolID toolID).symm,
        Set_snd_data_self]
    · rw [e1] at hrec; cases hrec
  have hchain : List.Chain (fun prev next => next ≤ prev + 24 * Hour)
      (t0 + 30 * 24 * Hour - 24 * Hour) ts := by
    cases ts with
    | nil => exact List.Chain.nil
    | cons a l =>
      refine List.Chain.cons ?_ hgap
      have := hfirst a rfl
      linarith
  obtain ⟨h1, _⟩ := VerifyAccessSeq_hits s lib user toolID ts _ _ _ 0 hent rfl hchain hbefore
    (by omega) (by show (-2 ^ 62 : Int) ≤ 1000; decide) (by show (1000 : Int) ≤ 2 ^ 62; decide)
  intro j t hj
  rw [h1 j t hj]
  simp

/-- C14 evaluated: a license recorded at day 30 and accessed one hour and 24
hours later is resolved as licensed at the second access, 998 calls remaining. -/
theorem C14_licensed_while_refreshed_witness :
    (LicenseService.VerifyAccessSeq (exampleService noLicenseChain) exampleLib exampleUser 42
        (LicenseService.RecordLicenseMinted (exampleService noLicenseChain)
          exampleStalePendingStore (30 * 24 * Hour + Minute) exampleUser 42 5184000
          2592000000000000).2
        [30 * 24 * Hour + Hour, 30 * 24 * Hour + 24 * Hour]).1[1]? =
      some (Result.ok
        { Valid := true
          Tier := "licensed"
          CallsRemaining := 1000 - (((1 : Nat) : Int) + 1)
          ExpiresAt := some (timeUnix (bigInt64 5184000))
          ProvenanceHash := ""
          Reason := "" }) :=
  C14_licensed_while_refreshed (exampleService noLicenseChain) exampleLib
    exampleStalePendingStore (30 * 24 * Hour + Minute) exampleUser 42 5184000 2592000000000000
    [30 * 24 * Hour + Hour, 30 * 24 * Hour + 24 * Hour] (by decide)
    (by intro t h; simp only [List.head?_cons, Option.some.injEq] at h; subst h; decide)
    (List.Chain.cons (by decide) List.Chain.nil)
    (by
      intro t ht
      simp only [List.mem_cons, List.mem_singleton, List.not_mem_nil, or_false] at ht
      rcases ht with rfl | rfl <;> decide)
    (by simp) 1 (30 * 24 * Hour + 24 * Hour) rfl

/-! ## The signer -/

/-- What a successful `CreateLicenseSignature` has computed. -/
theorem CreateLicenseSignature_ok (s : EIP712Signer) (c : Crypto) (user : Address)
    (toolId expiresAt nonce : Int) (r sigS sigV : Bytes)
    (h : s.CreateLicenseSignature c user toolId expiresAt nonce = Result.ok (r, sigS, sigV)) :
    ∃ (domainSeparator hash signature : Bytes),
      c.HashStruct s.domain "EIP712Domain" s.domain.Map = (domainSeparator, none) ∧
      c.HashStruct s.domain "MintLicense"
        [("user", user.Hex), ("toolId", bigString toolId), ("expiresAt", bigString expiresAt),
         ("nonce", bigString nonce)] = (hash, none) ∧
      c.Sign (c.Keccak256 ([0x19, 0x01] ++ domainSeparator ++ hash)) s.privateKey =
        (signature, none) ∧
      65 ≤ signature.length ∧
      r = signature.take 32 ∧ sigS = (signature.drop 32).take 32 ∧
      sigV = (if (signature.drop 64).headD 0 < 27 then
                ((signature.drop 64).headD 0 + 27) :: (signature.drop 64).tail
              else signature.drop 64) := by
  unfold EIP712Signer.CreateLicenseSignature at h
  rcases hd : c.HashStruct s.domain "EIP712Domain" s.domain.Map with ⟨ds, e1⟩
  rw [hd] at h
  cases e1 with
  | some x => simp at h
  | none =>
    simp only at h
    rcases hm : c.HashStruct s.domain "MintLicense"
        [("user", user.Hex), ("toolId", bigString toolId), ("expiresAt", bigString expiresAt),
         ("nonce", bigString nonce)] with ⟨hash, e2⟩
    rw [hm] at h
    cases e2 with
    | some x => simp at h
    | none =>
      simp only at h
      rcases hs : c.Sign (c.Keccak256 ([0x19, 0x01] ++ ds ++ hash)) s.privateKey with ⟨sig, e3⟩
      rw [hs] at h
      cases e3 with
      | some x => simp at h
      | none =>
        simp only at h
        by_cases hl : sig.length < 65
        · simp [hl] at h
        · simp only [hl, if_false, Result.ok.injEq, Prod.mk.injEq] at h
          exact ⟨ds, hash, sig, rfl, rfl, hs, not_lt.mp hl, h.1.symm, h.2.1.symm, h.2.2.symm⟩

theorem take_take_drop_of_length_65 (sig : Bytes) (h : sig.length = 65) :
    sig.take 32 ++ (sig.drop 32).take 32 ++ [sig.getD 64 0] = sig := by
  have h1 : sig.drop 64 = [sig.getD 64 0] := by
    have hl : (sig.drop 64).length = 1 := by simp [h]
    match hd : sig.drop 64, hl with
    | [x], _ =>
      have : sig.getD 64 0 = x := by
        have h2 : (sig.drop 64)[0]? = some x := by rw [hd]; rfl
        rw [List.getElem?_drop] at h2
        simp only [List.getD_eq_getElem?_getD]
        rw [show 64 + 0 = 64 from rfl] at h2
        rw [h2]; rfl
      rw [this]
  have h2 : (sig.drop 32).take 32 ++ sig.drop 64 = sig.drop 32 := by
    have : sig.drop 64 = (sig.drop 32).drop 32 := by rw [List.drop_drop]
    rw [this, List.take_append_drop]
  rw [← h1, List.append_assoc, h2, List.take_append_drop]

/-- C15. Sign-then-verify round trip: for a signer built by `NewSigner`, with a
library whose `crypto.Sign` yields 65-byte signatures with a recovery id below
27 from which `crypto.SigToPub` recovers the public key of the signing key, if
`CreateLicenseSignature(user, toolId, expiresAt, nonce)` returns `(r, s, v)`
then `VerifySignature(user, toolId, expiresAt, nonce, r, s, v)` returns true
with no error. -/
theorem C15_sign_then_verify (c : Crypto) (k : CryptoKeys) (privateKeyHex : String)
    (chainID : Int) (verifyingContract : Address) (s : EIP712Signer) (user : Address)
    (toolId expiresAt nonce : Int) (r sigS sigV : Bytes)
    (hnew : NewSigner k privateKeyHex chainID verifyingContract = Result.ok s)
    (hlib : ∀ (hash signature publicKey : Bytes),
      c.Sign hash s.privateKey = (signature, none) →
      k.PublicECDSA s.privateKey = some publicKey →
      signature.length = 65 ∧ signature.getD 64 0 < 27 ∧
        k.SigToPub hash signature = (some publicKey, none))
    (hcreate : s.CreateLicenseSignature c user toolId expiresAt nonce =
      Result.ok (r, sigS, sigV)) :
    s.VerifySignature c k user toolId expiresAt nonce r sigS sigV = Result.ok true := by
  obtain ⟨pub, hpub, haddr⟩ : ∃ pub, k.PublicECDSA s.privateKey = some pub ∧
      s.publicAddress = k.PubkeyToAddress pub := by
    unfold NewSigner at hnew
    rcases hk : k.HexToECDSA privateKeyHex with ⟨key, e⟩
    rw [hk] at hnew
    cases e with
    | some x => simp at hnew
    | none =>
      cases key with
      | none => simp at hnew
      | some key =>
        simp only at hnew
        cases hp : k.PublicECDSA key with
        | none => rw [hp] at hnew; simp at hnew
        | some pub =>
          rw [hp] at hnew
          simp only [Result.ok.injEq] at hnew
          subst hnew
          exact ⟨pub, hp, rfl⟩
  obtain ⟨ds, hash, sig, hd, hm, hs, _, hr, hsS, hsV⟩ :=
    CreateLicenseSignature_ok s c user toolId expiresAt nonce r sigS sigV hcreate
  obtain ⟨hlen, hv, hrec⟩ := hlib _ sig pub hs hpub
  have hdrop : sig.drop 64 = [sig.getD 64 0] := by
    have h1 := take_take_drop_of_length_65 sig hlen
    have h2 : sig.take 32 ++ (sig.drop 32).take 32 = sig.take 64 := by
      have : sig.take 64 = (sig.take 32) ++ ((sig.drop 32).take 32) := by
        rw [show 64 = 32 + 32 from rfl, List.take_add]
      rw [this]
    rw [h2] at h1
    have h3 := List.take_append_drop 64 sig
    rw [← h3] at h1
    have h4 : sig.take 64 ++ [sig.getD 64 0] = sig.take 64 ++ sig.drop 64 := by
      rw [h3]
      have := take_take_drop_of_length_65 sig hlen
      rw [h2] at this
      exact this
    exact (List.append_cancel_left h4).symm
  have hV : sigV = [sig.getD 64 0 + 27] := by
    rw [hsV, hdrop]
    simp only [List.headD_cons, List.tail_cons, hv, if_true]
  have hsig : r ++ sigS ++ sigV = sig.take 32 ++ (sig.drop 32).take 32 ++ [sig.getD 64 0 + 27] := by
    rw [hr, hsS, hV]
  have hlen64 : (sig.take 32 ++ (sig.drop 32).take 32).length = 64 := by
    simp [hlen]
  unfold EIP712Signer.VerifySignature
  simp only [hd, hm, hsig]
  have hlen' : ¬ (sig.take 32 ++ (sig.drop 32).take 32 ++ [sig.getD 64 0 + 27]).length ≤ 64 := by
    rw [List.length_append, hlen64]; simp
  rw [if_neg hlen']
  have hget : (sig.take 32 ++ (sig.drop 32).take 32 ++ [sig.getD 64 0 + 27]).getD 64 0 =
      sig.getD 64 0 + 27 := by
    rw [List.getD_eq_getElem?_getD, List.getElem?_append_right (by rw [hlen64]), hlen64]
    rfl
  have hset : (sig.take 32 ++ (sig.drop 32).take 32 ++ [sig.getD 64 0 + 27]).set 64
      (sig.getD 64 0 + 27 - 27) = sig := by
    rw [List.set_append_right _ _ (by rw [hlen64]), hlen64]
    simp only [Nat.sub_self, List.set_cons_zero, Nat.add_sub_cancel]
    exact take_take_drop_of_length_65 sig hlen
  rw [hget]
  simp only [ge_iff_le, Nat.le_add_left, if_true, hset, hrec, haddr]
  simp

/-- C15 evaluated with the stand-in library: the signature made for
`(user, 42, 1893456000, 123456)` verifies. -/
theorem C15_sign_then_verify_witness :
    exampleSigner.VerifySignature exampleCrypto exampleKeys exampleUser 42 1893456000 123456
      (List.replicate 32 7) (List.replicate 32 7) [28] = Result.ok true :=
  C15_sign_then_verify exampleCrypto exampleKeys "ab" 1337
    { Hex := "0x1234567890123456789012345678901234567890" } exampleSigner exampleUser
    42 1893456000 123456 (List.replicate 32 7) (List.replicate 32 7) [28] rfl
    (by
      intro hash signature publicKey hs hp
      simp only [exampleCrypto, Prod.mk.injEq, and_true] at hs
      simp only [exampleKeys, Option.some.injEq] at hp
      subst hs
      subst hp
      refine ⟨by decide, by decide, ?_⟩
      simp [exampleKeys])
    (by decide)

/-! ## C17 -/

/-- C17. The code at the failing inputs: whenever the two typed-data hashes
succeed and `sigR`, `sigS`, `sigV` have a combined length below 65 bytes,
`VerifySignature` panics on the index expression `signature[64]` (index out of
range), where the claim requires a boolean or a recovery error. -/
theorem C17_short_signature_panics (s : EIP712Signer) (c : Crypto) (k : CryptoKeys)
    (user : Address) (toolId expiresAt nonce : Int) (sigR sigS sigV : Bytes)
    (hdomain : (c.HashStruct s.domain "EIP712Domain" s.domain.Map).2 = none)
    (hmessage : (c.HashStruct s.domain "MintLicense"
      [("user", user.Hex), ("toolId", bigString toolId), ("expiresAt", bigString expiresAt),
       ("nonce", bigString nonce)]).2 = none)
    (hshort : sigR.length + sigS.length + sigV.length < 65) :
    s.VerifySignature c k user toolId expiresAt nonce sigR sigS sigV =
      Result.panic ("runtime error: index out of range [64] with length "
        ++ toString (sigR.length + sigS.length + sigV.length)) := by
  rcases hd : c.HashStruct s.domain "EIP712Domain" s.domain.Map with ⟨ds, e1⟩
  rw [hd] at hdomain
  simp only at hdomain
  subst hdomain
  rcases hm : c.HashStruct s.domain "MintLicense"
      [("user", user.Hex), ("toolId", bigString toolId), ("expiresAt", bigString expiresAt),
       ("nonce", bigString nonce)] with ⟨hash, e2⟩
  rw [hm] at hmessage
  simp only at hmessage
  subst hmessage
  have hl : sigR.length + sigS.length + sigV.length ≤ 64 := by omega
  unfold EIP712Signer.VerifySignature
  simp only [hd, hm, List.length_append, if_pos hl]

/-- C17 evaluated: empty `sigR`, `sigS` and `sigV` make `VerifySignature` panic. -/
theorem C17_short_signature_panics_witness :
    exampleSigner.VerifySignature exampleCrypto exampleKeys exampleUser 42 1893456000 123456
      [] [] [] = Result.panic "runtime error: index out of range [64] with length 0" :=
  C17_short_signature_panics exampleSigner exampleCrypto exampleKeys exampleUser 42 1893456000
    123456 [] [] [] rfl rfl (by decide)
/-! ## C21 -/

set_option maxRecDepth 100000 in
/-- The vote id of `exampleSubmission`, as SHA-256 gives it. -/
theorem exampleSubmission_voteID :
    exampleVoteService.generateVoteID stdLib exampleSubmission =
      "80989baeb5b9957c82f75211833a0f46cac4fbd9eacb0faffa442a0dcdf91edf" := by
  decide

set_option maxRecDepth 100000 in
/-- C21, counterexample: the vote of `exampleSubmission` is recorded and live,
and the same submission arrives again with an empty signature field. The
signature check comes first: the answer is "signature must be 65 bytes", not
"vote already submitted". -/
theorem C21_counterexample :
    (exampleVotedStore.Get 1 ("vote:" ++ exampleVoteService.generateVoteID stdLib
        { exampleSubmission with Signature := "" })).1.isSome = true ∧
      exampleVoteService.SubmitVote stdLib exampleCrypto strictKeys exampleEth exampleVotedStore 1
          { exampleSubmission with Signature := "" } =
        (Result.ok { Valid := false, Reason := "signature must be 65 bytes", VoteID := "" },
          exampleVotedStore) := by
  decide

/-- C21 (amended): replay guard. For every submission whose vote id
`generateVoteID(submission)` has a live entry at `vote:{voteId}`, `SubmitVote`
leaves the whole store (pending list, stored vote, cached reputation) unchanged
and answers `valid = false`: with reason "vote already submitted" when the
signature check passes, and with the reason of the signature check when it
does not. -/
theorem C21_replay_guard (s : VoteService) (lib : Lib) (c : Crypto) (k : CryptoKeys)
    (eth : EthLib) (ms : MemoryStore) (now : Time) (sub : VoteSubmission)
    (hlive : (ms.Get now ("vote:" ++ s.generateVoteID lib sub)).1.isSome = true) :
    (∀ reason, s.verifyVoteSignature c k eth sub = Result.ok (true, reason) →
      s.SubmitVote lib c k eth ms now sub =
        (Result.ok { Valid := false, Reason := "vote already submitted", VoteID := "" }, ms)) ∧
    (∀ reason, s.verifyVoteSignature c k eth sub = Result.ok (false, reason) →
      s.SubmitVote lib c k eth ms now sub =
        (Result.ok { Valid := false, Reason := reason, VoteID := "" }, ms)) ∧
    (s.SubmitVote lib c k eth ms now sub).2 = ms := by
  refine ⟨?_, ?_, ?_⟩
  · intro reason h
    rw [SubmitVote_of_valid s lib c k eth ms now sub reason h]
    exact verified_of_live s lib ms now sub hlive
  · intro reason h
    exact SubmitVote_of_invalid s lib c k eth ms now sub reason h
  · by_cases h : ∃ reason, s.verifyVoteSignature c k eth sub = Result.ok (true, reason)
    · obtain ⟨reason, h⟩ := h
      rw [SubmitVote_of_valid s lib c k eth ms now sub reason h,
        verified_of_live s lib ms now sub hlive]
    · exact SubmitVote_snd_of_not_verified s lib c k eth ms now sub
        (fun reason hr => h ⟨reason, hr⟩)

set_option maxRecDepth 100000 in
/-- C21, witness: the recorded vote of `exampleSubmission` is live at instant 1;
the submission arrives again, its signature is refused by the check made with
`strictKeys`, and the answer carries the reason of the check, the store being
left as it is. -/
theorem C21_replay_guard_witness :
    (exampleVotedStore.Get 1
        ("vote:" ++ exampleVoteService.generateVoteID stdLib exampleSubmission)).1.isSome = true ∧
      exampleVoteService.SubmitVote stdLib exampleCrypto strictKeys exampleEth exampleVotedStore 1
          exampleSubmission =
        (Result.ok { Valid := false, Reason := "failed to recover public key", VoteID := "" },
          exampleVotedStore) :=
  ⟨by decide,
    (C21_replay_guard exampleVoteService stdLib exampleCrypto strictKeys exampleEth
      exampleVotedStore 1 exampleSubmission (by decide)).2.1 "failed to recover public key"
      (by decide)⟩

set_option maxRecDepth 100000 in
/-- The replay guard itself on the recorded vote of `exampleSubmission`: the
part of `SubmitVote` that follows the signature check answers "vote already
submitted" and leaves the store as it is. -/
theorem verified_replay_example :
    VoteService.SubmitVote.verified exampleVoteService stdLib exampleVotedStore 1
        exampleSubmission =
      (Result.ok { Valid := false, Reason := "vote already submitted", VoteID := "" },
        exampleVotedStore) := by
  decide

/-! ## C22 -/

/-- C22: the vote service keys its lookups by the voter address as it is
written in the submission. For every two different spellings `a1`, `a2` of a
voter address (two letter cases of one address among them) and every tool,
`isVoterEligible` answers differently on the store that holds a usage counter
under the first spelling: eligible for `a1`, not eligible for `a2`. -/
theorem C22_spellings_diverge (s : VoteService) (now : Time) (a1 a2 toolID : String)
    (h : a1 ≠ a2) :
    (s.isVoterEligible
        { data := [("usage:" ++ a1 ++ ":" ++ toolID,
            { value := Value.int64 1, expiresAt := now })] } now a1 toolID).1.1 = true ∧
      (s.isVoterEligible
        { data := [("usage:" ++ a1 ++ ":" ++ toolID,
            { value := Value.int64 1, expiresAt := now })] } now a2 toolID).1.1 = false := by
  have hu : "usage:" ++ a1 ++ ":" ++ toolID ≠ "usage:" ++ a2 ++ ":" ++ toolID :=
    fun e => h (usageKey_inj e)
  have hl1 : "usage:" ++ a1 ++ ":" ++ toolID ≠ "license:" ++ a1 ++ ":" ++ toolID :=
    ne_of_head (head_usageKey _ _) (head_licenseKey _ _) (by decide)
  have hl2 : "usage:" ++ a1 ++ ":" ++ toolID ≠ "license:" ++ a2 ++ ":" ++ toolID :=
    ne_of_head (head_usageKey _ _) (head_licenseKey _ _) (by decide)
  constructor
  · rw [isVoterEligible_eq, Get_fst]
    simp [mapGet, positiveUsage]
  · rw [isVoterEligible_eq, Get_fst, Get_fst]
    simp [mapGet, hu, hl2, positiveUsage]

/-- C22, witness: the lowercase and the uppercase spelling of `exampleVoter`. -/
theorem C22_spellings_diverge_witness :
    exampleVoter ≠ exampleVoterUpper ∧
      (exampleVoteService.isVoterEligible
        { data := [("usage:" ++ exampleVoter ++ ":" ++ "42",
            { value := Value.int64 1, expiresAt := 0 })] } 0 exampleVoter "42").1.1 = true ∧
      (exampleVoteService.isVoterEligible
        { data := [("usage:" ++ exampleVoter ++ ":" ++ "42",
            { value := Value.int64 1, expiresAt := 0 })] } 0 exampleVoterUpper "42").1.1 = false :=
  ⟨by decide, C22_spellings_diverge exampleVoteService 0 exampleVoter exampleVoterUpper "42"
    (by decide)⟩

set_option maxRecDepth 100000 in
/-- The vote ids of two submissions that differ in the letter case of the voter
address only, as SHA-256 gives them, and the answers of the part of
`SubmitVote` that follows the signature check to the second, once the vote of
the first is recorded: the second vote is not recognised as submitted; it is
refused as not eligible where only the first spelling has a usage counter, and
accepted where both have. -/
theorem verified_case_variant :
    exampleVoteService.generateVoteID stdLib exampleSubmission =
        "80989baeb5b9957c82f75211833a0f46cac4fbd9eacb0faffa442a0dcdf91edf" ∧
      exampleVoteService.generateVoteID stdLib
          { exampleSubmission with VoterAddress := exampleVoterUpper } =
        "0ec38d5ae1c3614d01b0ce3fa839b5c3e641f588202cfce1b64acf63ebe640cd" ∧
      (VoteService.SubmitVote.verified exampleVoteService stdLib exampleVotedStore 1
          { exampleSubmission with VoterAddress := exampleVoterUpper }).1 =
        Result.ok { Valid := false, Reason := "voter not eligible - must use tool before voting",
                    VoteID := "" } ∧
      (VoteService.SubmitVote.verified exampleVoteService stdLib
          { data := ("usage:0x70997970C51812DC3A010C7D01B50E0D17DC79C8:42",
              { value := Value.int64 1, expiresAt := Hour }) :: exampleVotedStore.data } 1
          { exampleSubmission with VoterAddress := exampleVoterUpper }).1 =
        Result.ok { Valid := true, Reason := "",
                    VoteID := "0ec38d5ae1c3614d01b0ce3fa839b5c3e641f588202cfce1b64acf63ebe640cd" } := by
  decide

/-! ## C23 -/

/-- The effects of the part of `SubmitVote` that follows the signature check,
for a submission with no live entry at `vote:{voteId}` and an eligible voter:
the answer is `valid = true` with `voteId = generateVoteID(submission)`;
afterwards `pending:vote:{toolId}` holds the previous pending list with one
vote appended at the end (id, tool, voter, score, nonce and signature of the
submission, `processed = false`, empty `batchId`) under a 10-minute TTL,
`vote:{voteId}` holds that vote under a 24-hour TTL, and the cached reputation
of the tool (all zero when there was none) has `totalScore` increased by the
score and `totalVotes` by 1, in `int64` arithmetic. -/
theorem verified_success_effects (s : VoteService) (lib : Lib) (ms : MemoryStore)
    (now : Time) (sub : VoteSubmission)
    (hs : s.batchInterval = 5 * Minute)
    (hfresh : (ms.Get now ("vote:" ++ s.generateVoteID lib sub)).1 = none)
    (helig : (s.isVoterEligible ms now sub.VoterAddress sub.ToolID).1.1 = true) :
    (VoteService.SubmitVote.verified s lib ms now sub).1 =
        Result.ok { Valid := true, Reason := "", VoteID := s.generateVoteID lib sub } ∧
      mapGet (VoteService.SubmitVote.verified s lib ms now sub).2.data ("pending:vote:" ++ sub.ToolID) =
        some
          { value := Value.votes
              (cachedVotes (ms.Get now ("pending:vote:" ++ sub.ToolID)).1 ++
                [{ ID := s.generateVoteID lib sub, ToolID := sub.ToolID,
                   VoterAddress := sub.VoterAddress, Score := sub.Score, Nonce := sub.Nonce,
                   Signature := sub.Signature, CreatedAt := now, Processed := false,
                   BatchID := "" }])
            expiresAt := now + 10 * Minute } ∧
      mapGet (VoteService.SubmitVote.verified s lib ms now sub).2.data
          ("vote:" ++ s.generateVoteID lib sub) =
        some
          { value := Value.vote
              { ID := s.generateVoteID lib sub, ToolID := sub.ToolID,
                VoterAddress := sub.VoterAddress, Score := sub.Score, Nonce := sub.Nonce,
                Signature := sub.Signature, CreatedAt := now, Processed := false,
                BatchID := "" }
            expiresAt := now + 24 * Hour } ∧
      (∀ rep, cachedReputation (ms.Get now ("reputation:" ++ sub.ToolID)).1 = some rep →
        mapGet (VoteService.SubmitVote.verified s lib ms now sub).2.data ("reputation:" ++ sub.ToolID) =
          some
            { value := Value.reputation
                { rep with
                  TotalScore := wrap64 (rep.TotalScore + sub.Score)
                  TotalVotes := wrap64 (rep.TotalVotes + 1)
                  LastCalculatedAt := now }
              expiresAt := now + 1 * Minute }) ∧
      (cachedReputation (ms.Get now ("reputation:" ++ sub.ToolID)).1 = none →
        mapGet (VoteService.SubmitVote.verified s lib ms now sub).2.data ("reputation:" ++ sub.ToolID) =
          some
            { value := Value.reputation
                { ToolID := sub.ToolID
                  TotalScore := wrap64 (0 + sub.Score)
                  TotalVotes := wrap64 (0 + 1)
                  LastCalculatedAt := now
                  LastBatchAt := zeroTime }
              expiresAt := now + 1 * Minute }) := by
  have hpv : "pending:vote:" ++ sub.ToolID ≠ "vote:" ++ s.generateVoteID lib sub :=
    ne_of_head (head_pendingVoteKey _) (head_voteKey _) (by decide)
  have hrp : "reputation:" ++ sub.ToolID ≠ "pending:vote:" ++ sub.ToolID :=
    ne_of_head (head_reputationKey _) (head_pendingVoteKey _) (by decide)
  have hrv : "reputation:" ++ sub.ToolID ≠ "vote:" ++ s.generateVoteID lib sub :=
    ne_of_head (head_reputationKey _) (head_voteKey _) (by decide)
  have hother : ∀ k', "vote:" ++ s.generateVoteID lib sub ≠ k' →
      "usage:" ++ sub.VoterAddress ++ ":" ++ sub.ToolID ≠ k' →
      "license:" ++ sub.VoterAddress ++ ":" ++ sub.ToolID ≠ k' →
      mapGet (s.isVoterEligible (ms.Get now ("vote:" ++ s.generateVoteID lib sub)).2 now
        sub.VoterAddress sub.ToolID).2.data k' = mapGet ms.data k' := by
    intro k' h1 h2 h3
    rw [isVoterEligible_data_other s _ now _ _ h2 h3, Get_snd_data_ne ms now h1]
  have hpend := hother ("pending:vote:" ++ sub.ToolID) hpv.symm
    (ne_of_head (head_usageKey _ _) (head_pendingVoteKey _) (by decide))
    (ne_of_head (head_licenseKey _ _) (head_pendingVoteKey _) (by decide))
  have hrep := hother ("reputation:" ++ sub.ToolID) hrv.symm
    (ne_of_head (head_usageKey _ _) (head_reputationKey _) (by decide))
    (ne_of_head (head_licenseKey _ _) (head_reputationKey _) (by decide))
  have httl : wrap64 (s.batchInterval * 2) = 10 * Minute := by
    rw [hs]; decide
  rw [verified_of_fresh s lib ms now sub hfresh helig]
  refine ⟨store_fst _ _ _ _ _, ?_, ?_, ?_⟩
  · rw [store_snd, updateCachedReputation_data_other _ _ _ _ _ hrp,
      Set_snd_data_ne _ now _ _ hpv.symm, Set_snd_data_self, httl,
      Get_fst_congr _ _ now _ hpend]
  · rw [store_snd, updateCachedReputation_data_other _ _ _ _ _ hrv, Set_snd_data_self]
  · have hfinal : ∀ (p v : Value) (d1 d2 : Duration),
        (((((s.isVoterEligible (ms.Get now ("vote:" ++ s.generateVoteID lib sub)).2 now
          sub.VoterAddress sub.ToolID).2.Get now ("pending:vote:" ++ sub.ToolID)).2.Set now
            ("pending:vote:" ++ sub.ToolID) p d1).2.Set now
              ("vote:" ++ s.generateVoteID lib sub) v d2).2.Get now
                ("reputation:" ++ sub.ToolID)).1 =
          (ms.Get now ("reputation:" ++ sub.ToolID)).1 := by
      intro p v d1 d2
      apply Get_fst_congr
      rw [Set_snd_data_ne _ now _ _ hrv.symm, Set_snd_data_ne _ now _ _ hrp.symm,
        Get_snd_data_ne _ now hrp.symm, hrep]
    constructor
    · intro rep hrepv
      rw [store_snd, updateCachedReputation_data_self, hfinal, hrepv]
    · intro hnone
      rw [store_snd, updateCachedReputation_data_self, hfinal, hnone]

set_option maxRecDepth 100000 in
/-- The part of `SubmitVote` that follows the signature check on
`exampleSubmission`, at instant 0 on a store that holds a usage counter of the
voter and no vote: the vote is accepted under its id. -/
theorem verified_success_example :
    (VoteService.SubmitVote.verified exampleVoteService stdLib exampleUsageStore 0
        exampleSubmission).1 =
      Result.ok { Valid := true, Reason := "",
                  VoteID := "80989baeb5b9957c82f75211833a0f46cac4fbd9eacb0faffa442a0dcdf91edf" } := by
  decide

/-- C23: the success effects of `SubmitVote` are out of reach. The signature
check raises the recovery byte of the signature to 27 or more and hands it to
`crypto.SigToPub`, which refuses a recovery byte of 4 or more. For every
recovery function with that contract, every store and every submission,
`SubmitVote` leaves the store as it is and never answers `valid = true`; a
submission with a signature of 65 bytes and a tool id in decimal, whoever
signed it, is answered "failed to recover public key". -/
theorem C23_success_unreachable (s : VoteService) (lib : Lib) (c : Crypto) (k : CryptoKeys)
    (eth : EthLib) (ms : MemoryStore) (now : Time) (sub : VoteSubmission)
    (hk : k.RefusesHighRecoveryByte) :
    (s.SubmitVote lib c k eth ms now sub).2 = ms ∧
      (∀ r : VoteVerificationResult,
        (s.SubmitVote lib c k eth ms now sub).1 = Result.ok r → r.Valid = false) ∧
      (∀ (signatureBytes : Bytes) (toolID : Int),
        hexDecodeString sub.Signature = some signatureBytes → signatureBytes.length = 65 →
        bigSetString sub.ToolID = some toolID →
        s.SubmitVote lib c k eth ms now sub =
          (Result.ok { Valid := false, Reason := "failed to recover public key", VoteID := "" },
            ms)) := by
  have hnot := verifyVoteSignature_of_strict_recovery s c k eth sub hk
  refine ⟨SubmitVote_snd_of_not_verified s lib c k eth ms now sub hnot, ?_, ?_⟩
  · intro r hr
    cases hsig : s.verifyVoteSignature c k eth sub with
    | err e => simp [VoteService.SubmitVote, hsig] at hr
    | panic e => simp [VoteService.SubmitVote, hsig] at hr
    | ok p =>
      obtain ⟨isValid, reason⟩ := p
      cases isValid with
      | true => exact absurd hsig (hnot reason)
      | false =>
        rw [SubmitVote_of_invalid s lib c k eth ms now sub reason hsig] at hr
        simp only [Result.ok.injEq] at hr
        rw [← hr]
  · intro signatureBytes toolID hdec hlen htool
    exact SubmitVote_of_invalid s lib c k eth ms now sub _
      (verifyVoteSignature_failed_recovery s c k eth sub hk signatureBytes toolID hdec hlen htool)

set_option maxRecDepth 100000 in
/-- C23, witness: `exampleSubmission` is fresh, its voter is eligible and its
signature is one that the recovery function of `strictKeys` attributes to the
voter; submitted at instant 0 it is answered "failed to recover public key" and
nothing is stored. -/
theorem C23_success_unreachable_witness :
    strictKeys.RefusesHighRecoveryByte ∧
      (exampleUsageStore.Get 0
        ("vote:" ++ exampleVoteService.generateVoteID stdLib exampleSubmission)).1 = none ∧
      (exampleVoteService.isVoterEligible exampleUsageStore 0 exampleSubmission.VoterAddress
        exampleSubmission.ToolID).1.1 = true ∧
      exampleVoteService.SubmitVote stdLib exampleCrypto strictKeys exampleEth exampleUsageStore 0
          exampleSubmission =
        (Result.ok { Valid := false, Reason := "failed to recover public key", VoteID := "" },
          exampleUsageStore) :=
  ⟨strictKeys_refuses, by decide, by decide,
    (C23_success_unreachable exampleVoteService stdLib exampleCrypto strictKeys exampleEth
      exampleUsageStore 0 exampleSubmission strictKeys_refuses).2.2 exampleSignatureBytes 42
      (by decide) (by decide) (by decide)⟩

/-! ## C24 -/

/-- The running `int64` sum of `ProcessBatch` is the sum of the scores as long
as it stays within the `int64` range. -/
theorem foldl_totalScore (votes : List Vote) (acc : Int)
    (hscore : ∀ v ∈ votes, -128 ≤ v.Score ∧ v.Score ≤ 127)
    (hlo : -2 ^ 63 ≤ acc - 128 * (votes.length : Int))
    (hhi : acc + 128 * (votes.length : Int) < 2 ^ 63) :
    votes.foldl (fun totalScore vote => wrap64 (totalScore + vote.Score)) acc =
      acc + (votes.map Vote.Score).sum := by
  induction votes generalizing acc with
  | nil => simp
  | cons v rest ih =>
    have hv := hscore v (List.mem_cons_self v rest)
    have hlen : ((v :: rest).length : Int) = (rest.length : Int) + 1 := by
      simp
    rw [hlen] at hlo hhi
    have h1 : wrap64 (acc + v.Score) = acc + v.Score := by
      apply wrap64_of_range <;> omega
    simp only [List.foldl_cons, List.map_cons, List.sum_cons, h1]
    rw [ih (acc + v.Score) (fun w hw => hscore w (List.mem_cons_of_mem v hw)) (by omega)
      (by omega)]
    ring

/-- The result of `ProcessBatch.build`. -/
theorem build_fst (s : VoteService) (lib : Lib) (srt : SortLib) (ms : MemoryStore) (now : Time)
    (toolID : String) (votes : List Vote) :
    (VoteService.ProcessBatch.build s lib srt ms now toolID votes).1 =
      Result.ok
        { ID := "batch_" ++ toolID ++ "_" ++ toString (Time.Unix now)
          ToolID := toolID
          VotesCount := Int.ofNat votes.length
          TotalScore := batchTotalScore votes
          MerkleRoot :=
            s.generateMerkleRoot lib srt (votes.map (fun vote => { vote with Processed := true }))
          BlockchainTx := ""
          CommittedAt := zeroTime
          CreatedAt := now } := by
  simp [VoteService.ProcessBatch.build, Set_fst]

/-- `ProcessBatch` on a non-empty pending list. -/
theorem ProcessBatch_of_pending (s : VoteService) (lib : Lib) (srt : SortLib) (ms : MemoryStore)
    (now : Time) (toolID : String) (votes : List Vote)
    (hpending : (ms.Get now ("pending:vote:" ++ toolID)).1 = some (Value.votes votes))
    (hne : votes ≠ []) :
    s.ProcessBatch lib srt ms now toolID =
      VoteService.ProcessBatch.build s lib srt ms now toolID votes := by
  have hlen : votes.length ≠ 0 := fun h => hne (List.length_eq_zero.mp h)
  simp [VoteService.ProcessBatch, hpending, hlen,
    Get_snd_of_found ms now _ (Value.votes votes) hpending]

/-- C24: batch totals. For every tool whose pending list is a non-empty list
of votes (scores being `int8` values, the list shorter than 2^56), the batch
returned by `ProcessBatch(toolId)` has `toolId` equal to the argument,
`votesCount` equal to the length of the pending list and `totalScore` equal to
the signed integer sum of the scores of the votes in the list. -/
theorem C24_batch_totals (s : VoteService) (lib : Lib) (srt : SortLib) (ms : MemoryStore)
    (now : Time) (toolID : String) (votes : List Vote)
    (hpending : (ms.Get now ("pending:vote:" ++ toolID)).1 = some (Value.votes votes))
    (hne : votes ≠ [])
    (hscore : ∀ v ∈ votes, -128 ≤ v.Score ∧ v.Score ≤ 127)
    (hlen : votes.length < 2 ^ 56) :
    ∃ batch : VoteBatch,
      (s.ProcessBatch lib srt ms now toolID).1 = Result.ok batch ∧
        batch.ToolID = toolID ∧
        batch.VotesCount = votes.length ∧
        batch.TotalScore = (votes.map Vote.Score).sum := by
  rw [ProcessBatch_of_pending s lib srt ms now toolID votes hpending hne, build_fst]
  refine ⟨_, rfl, rfl, rfl, ?_⟩
  have hl : (votes.length : Int) < 2 ^ 56 := by exact_mod_cast hlen
  have h := foldl_totalScore votes 0 hscore (by omega) (by omega)
  simpa [batchTotalScore] using h

set_option maxRecDepth 100000 in
/-- C24, witness: a pending list of two votes with scores 1 and -1, as in the
test `ProcessVoteBatch`: the batch has `votesCount = 2` and `totalScore = 0`. -/
theorem C24_batch_totals_witness :
    (examplePendingVotesStore.Get 0 ("pending:vote:" ++ "42")).1 =
        some (Value.votes [exampleVoteA, exampleVoteC]) ∧
      [exampleVoteA, exampleVoteC] ≠ [] ∧
      (∀ v ∈ [exampleVoteA, exampleVoteC], -128 ≤ v.Score ∧ v.Score ≤ 127) ∧
      [exampleVoteA, exampleVoteC].length < 2 ^ 56 ∧
      ∃ batch : VoteBatch,
        (exampleVoteService.ProcessBatch stdLib stdSort examplePendingVotesStore 0 "42").1 =
            Result.ok batch ∧
          batch.ToolID = "42" ∧
          batch.VotesCount = ([exampleVoteA, exampleVoteC].length : Int) ∧
          batch.TotalScore = ([exampleVoteA, exampleVoteC].map Vote.Score).sum :=
  ⟨by decide, by decide, by decide, by decide,
    C24_batch_totals exampleVoteService stdLib stdSort examplePendingVotesStore 0 "42"
      [exampleVoteA, exampleVoteC] (by decide) (by decide) (by decide) (by decide)⟩

/-! ## C25 and C26: the batch root -/

/-- The inner loop of the insertion sort permutes. -/
theorem insertBack_perm (less : Vote → Vote → Bool) (x : Vote) (l : List Vote) :
    List.Perm (insertBack less x l) (x :: l) := by
  induction l with
  | nil => exact List.Perm.refl _
  | cons y ys ih =>
    unfold insertBack
    split
    · exact (List.Perm.cons y ih).trans (List.Perm.swap x y ys)
    · exact List.Perm.refl _

/-- The inner loop of the insertion sort keeps the sorted part sorted (it is
held last element first, so in non-increasing order of the ids). -/
theorem insertBack_sorted (x : Vote) (l : List Vote)
    (h : List.Pairwise (fun a b : Vote => b.ID.data ≤ a.ID.data) l) :
    List.Pairwise (fun a b : Vote => b.ID.data ≤ a.ID.data) (insertBack lessByID x l) := by
  induction l with
  | nil => simp [insertBack]
  | cons y ys ih =>
    rw [List.pairwise_cons] at h
    unfold insertBack
    by_cases hxy : lessByID x y = true
    · rw [if_pos hxy]
      rw [List.pairwise_cons]
      refine ⟨?_, ih h.2⟩
      intro z hz
      have hz2 : z ∈ x :: ys := (insertBack_perm lessByID x ys).subset hz
      rcases List.mem_cons.mp hz2 with rfl | hz3
      · exact le_of_lt (of_decide_eq_true hxy)
      · exact h.1 z hz3
    · rw [if_neg hxy]
      have hyx : y.ID.data ≤ x.ID.data := by
        have : ¬ x.ID.data < y.ID.data := fun hlt => hxy (decide_eq_true hlt)
        exact not_lt.mp this
      rw [List.pairwise_cons]
      refine ⟨?_, List.pairwise_cons.mpr h⟩
      intro z hz
      rcases List.mem_cons.mp hz with rfl | hz3
      · exact hyx
      · exact le_trans (h.1 z hz3) hyx

theorem foldl_insertBack_perm (less : Vote → Vote → Bool) (votes acc : List Vote) :
    List.Perm (votes.foldl (fun sorted x => insertBack less x sorted) acc) (votes ++ acc) := by
  induction votes generalizing acc with
  | nil => exact List.Perm.refl _
  | cons v rest ih =>
    simp only [List.foldl_cons]
    refine (ih (insertBack less v acc)).trans ?_
    refine (List.Perm.append_left rest (insertBack_perm less v acc)).trans ?_
    simp

theorem foldl_insertBack_sorted (votes acc : List Vote)
    (h : List.Pairwise (fun a b : Vote => b.ID.data ≤ a.ID.data) acc) :
    List.Pairwise (fun a b : Vote => b.ID.data ≤ a.ID.data)
      (votes.foldl (fun sorted x => insertBack lessByID x sorted) acc) := by
  induction votes generalizing acc with
  | nil => exact h
  | cons v rest ih =>
    simp only [List.foldl_cons]
    exact ih _ (insertBack_sorted v acc h)

/-- The insertion sort meets the contract of `sort.Slice`. -/
theorem stdSort_SortsByID : stdSort.SortsByID := by
  intro votes
  constructor
  · show List.Perm (insertionSortLessFunc votes lessByID) votes
    unfold insertionSortLessFunc
    refine (List.reverse_perm _).trans ?_
    simpa using foldl_insertBack_perm lessByID votes []
  · show List.Pairwise _ (insertionSortLessFunc votes lessByID)
    unfold insertionSortLessFunc
    rw [List.pairwise_reverse]
    exact foldl_insertBack_sorted votes [] List.Pairwise.nil

/-- Two lists of pairs that are permutations of one another and are both in
non-decreasing order of their first components, these being pairwise distinct,
are equal. -/
theorem eq_of_perm_of_sorted_fst {α β : Type} [LinearOrder α] (a b : List (α × β))
    (hp : List.Perm a b)
    (ha : List.Pairwise (fun x y => x.1 ≤ y.1) a) (hb : List.Pairwise (fun x y => x.1 ≤ y.1) b)
    (hn : (a.map Prod.fst).Nodup) : a = b := by
  have hnb : (b.map Prod.fst).Nodup := (hp.map Prod.fst).nodup_iff.mp hn
  have strict : ∀ l : List (α × β), List.Pairwise (fun x y => x.1 ≤ y.1) l →
      (l.map Prod.fst).Nodup → List.Pairwise (fun x y => x.1 < y.1) l := by
    intro l hl hnd
    have hnd2 : List.Pairwise (fun x y : α × β => x.1 ≠ y.1) l := by
      unfold List.Nodup at hnd
      exact List.pairwise_map.mp hnd
    exact (hl.and hnd2).imp (fun h => lt_of_le_of_ne h.1 h.2)
  have hanti : ∀ x y : α × β, x.1 < y.1 → y.1 < x.1 → x = y :=
    fun x y h1 h2 => absurd h1 (lt_asymm h2)
  haveI : IsAntisymm (α × β) (fun x y => x.1 < y.1) := ⟨hanti⟩
  exact List.eq_of_perm_of_sorted hp (strict a ha hn) (strict b hb hnb)

/-- The digest computed by `generateMerkleRoot` depends on the sorted votes
through the data of their leaves only. -/
theorem digest_congr (lib : Lib) (a b : List Vote)
    (h : a.map (leafData lib) = b.map (leafData lib)) :
    VoteService.generateMerkleRoot.digest lib a = VoteService.generateMerkleRoot.digest lib b := by
  have hm : ∀ l : List Vote,
      l.map (fun vote => lib.sha256 (stringBytes (leafData lib vote))) =
        (l.map (leafData lib)).map (fun d => lib.sha256 (stringBytes d)) := by
    intro l; simp
  unfold VoteService.generateMerkleRoot.digest
  simp only [hm, h]

/-- Under the contract of `sort.Slice`, the root of a list of votes with
pairwise distinct ids depends only on the set of the pairs of an id and the
data of its leaf. -/
theorem generateMerkleRoot_congr (s : VoteService) (lib : Lib) (srt : SortLib)
    (hsort : srt.SortsByID) (l1 l2 : List Vote) (hn : (l1.map Vote.ID).Nodup)
    (hp : List.Perm (l1.map (fun v => (v.ID, leafData lib v)))
      (l2.map (fun v => (v.ID, leafData lib v)))) :
    s.generateMerkleRoot lib srt l1 = s.generateMerkleRoot lib srt l2 := by
  unfold VoteService.generateMerkleRoot
  apply digest_congr
  obtain ⟨hp1, hs1⟩ := hsort l1
  obtain ⟨hp2, hs2⟩ := hsort l2
  have hp' : List.Perm (l1.map (fun v => (v.ID.data, leafData lib v)))
      (l2.map (fun v => (v.ID.data, leafData lib v))) := by
    have h := hp.map (fun t : String × String => (t.1.data, t.2))
    simpa [List.map_map, Function.comp] using h
  have hperm : List.Perm ((srt.Slice l1 lessByID).map (fun v => (v.ID.data, leafData lib v)))
      ((srt.Slice l2 lessByID).map (fun v => (v.ID.data, leafData lib v))) :=
    ((hp1.map _).trans hp').trans (hp2.map _).symm
  have hsa : List.Pairwise (fun x y : List Char × String => x.1 ≤ y.1)
      ((srt.Slice l1 lessByID).map (fun v => (v.ID.data, leafData lib v))) :=
    List.pairwise_map.mpr hs1
  have hsb : List.Pairwise (fun x y : List Char × String => x.1 ≤ y.1)
      ((srt.Slice l2 lessByID).map (fun v => (v.ID.data, leafData lib v))) :=
    List.pairwise_map.mpr hs2
  have hinj : Function.Injective String.data := fun a b h => String.ext h
  have hnd : (((srt.Slice l1 lessByID).map (fun v => (v.ID.data, leafData lib v))).map
      Prod.fst).Nodup := by
    rw [List.map_map]
    have h1 : ((srt.Slice l1 lessByID).map Vote.ID).Nodup :=
      ((hp1.map Vote.ID).nodup_iff).mpr hn
    have h2 := h1.map hinj
    simpa [List.map_map, Function.comp] using h2
  have heq := eq_of_perm_of_sorted_fst _ _ hperm hsa hsb hnd
  have := congrArg (List.map Prod.snd) heq
  simpa [List.map_map, Function.comp] using this

set_option maxRecDepth 100000 in
/-- C25, counterexample: two votes that share the id `vote-1` and differ in
voter, score and nonce. The comparison by id never moves one before the other,
so the sort leaves each input in its order, and the two orders of the same two
votes have different roots (SHA-256, timestamps formatted in UTC). -/
theorem C25_counterexample :
    List.Perm [exampleVoteA, exampleVoteB] [exampleVoteB, exampleVoteA] ∧
      exampleVoteService.generateMerkleRoot stdLib stdSort [exampleVoteA, exampleVoteB] =
        "a377e107be4f6f8e2e8bfa59b7278f6c491aa608122d8d0579676d9d043fbd38" ∧
      exampleVoteService.generateMerkleRoot stdLib stdSort [exampleVoteB, exampleVoteA] =
        "20368878bf8acbc4f082215e8a8a07e3177924962ac2dadeadef81a182b67a96" :=
  ⟨List.Perm.swap _ _ _, by decide, by decide⟩

/-- C25 (amended): batch root determinism. For every list of votes whose ids
are pairwise distinct and every permutation of that list, `generateMerkleRoot`
returns the same root, whatever sort meeting the contract of `sort.Slice` is
used; so two `ProcessBatch` runs whose pending lists are that list and a
permutation of it return batches with identical `merkleRoot` values. -/
theorem C25_root_of_permutation (s : VoteService) (lib : Lib) (srt : SortLib)
    (hsort : srt.SortsByID) (l1 l2 : List Vote) (hn : (l1.map Vote.ID).Nodup)
    (hp : List.Perm l1 l2) :
    s.generateMerkleRoot lib srt l1 = s.generateMerkleRoot lib srt l2 ∧
      ∀ (ms1 ms2 : MemoryStore) (now1 now2 : Time) (toolID : String),
        (ms1.Get now1 ("pending:vote:" ++ toolID)).1 = some (Value.votes l1) →
        (ms2.Get now2 ("pending:vote:" ++ toolID)).1 = some (Value.votes l2) →
        l1 ≠ [] →
        ∃ b1 b2 : VoteBatch,
          (s.ProcessBatch lib srt ms1 now1 toolID).1 = Result.ok b1 ∧
            (s.ProcessBatch lib srt ms2 now2 toolID).1 = Result.ok b2 ∧
            b1.MerkleRoot = b2.MerkleRoot := by
  refine ⟨generateMerkleRoot_congr s lib srt hsort l1 l2 hn (hp.map _), ?_⟩
  intro ms1 ms2 now1 now2 toolID h1 h2 hne
  have hne2 : l2 ≠ [] := fun h => hne (List.Perm.eq_nil (h ▸ hp))
  rw [ProcessBatch_of_pending s lib srt ms1 now1 toolID l1 h1 hne, build_fst,
    ProcessBatch_of_pending s lib srt ms2 now2 toolID l2 h2 hne2, build_fst]
  refine ⟨_, _, rfl, rfl, ?_⟩
  apply generateMerkleRoot_congr s lib srt hsort
  · simpa [List.map_map, Function.comp] using hn
  · exact (hp.map _).map _

/-- C25, witness: the votes `vote-1` and `vote-2` in their two orders, sorted by
the insertion sort. -/
theorem C25_root_of_permutation_witness :
    stdSort.SortsByID ∧ ([exampleVoteA, exampleVoteC].map Vote.ID).Nodup ∧
      List.Perm [exampleVoteA, exampleVoteC] [exampleVoteC, exampleVoteA] ∧
      exampleVoteService.generateMerkleRoot stdLib stdSort [exampleVoteA, exampleVoteC] =
        exampleVoteService.generateMerkleRoot stdLib stdSort [exampleVoteC, exampleVoteA] :=
  ⟨stdSort_SortsByID, by decide, List.Perm.swap _ _ _,
    (C25_root_of_permutation exampleVoteService stdLib stdSort stdSort_SortsByID
      [exampleVoteA, exampleVoteC] [exampleVoteC, exampleVoteA] (by decide)
      (List.Perm.swap _ _ _)).1⟩

set_option maxRecDepth 100000 in
/-- C26, counterexample: two lists of one vote each that differ in the tool and
in the signature of the vote are not permutations of one another and have the
same root: neither field enters the data of the leaf. -/
theorem C26_counterexample :
    ¬ List.Perm [exampleVoteA] [{ exampleVoteA with ToolID := "43", Signature := "sig9" }] ∧
      exampleVoteService.generateMerkleRoot stdLib stdSort [exampleVoteA] =
        exampleVoteService.generateMerkleRoot stdLib stdSort
          [{ exampleVoteA with ToolID := "43", Signature := "sig9" }] := by
  constructor
  · rw [List.singleton_perm_singleton]
    decide
  · decide

/-- C26 (amended): what the root reflects. The root is a function of the id,
voter address, score, nonce and creation time as formatted (to the second) of
the votes: for every two lists, the first with pairwise distinct ids, that
carry the same such tuples up to order, `generateMerkleRoot` returns the same
root, whatever the tool, signature, `processed` flag and batch id of the votes
and whatever sort meeting the contract of `sort.Slice` is used. -/
theorem C26_root_of_hashed_fields (s : VoteService) (lib : Lib) (srt : SortLib)
    (hsort : srt.SortsByID) (l1 l2 : List Vote) (hn : (l1.map Vote.ID).Nodup)
    (hp : List.Perm
      (l1.map (fun v => (v.ID, v.VoterAddress, v.Score, v.Nonce, lib.formatRFC3339 v.CreatedAt)))
      (l2.map (fun v => (v.ID, v.VoterAddress, v.Score, v.Nonce, lib.formatRFC3339 v.CreatedAt)))) :
    s.generateMerkleRoot lib srt l1 = s.generateMerkleRoot lib srt l2 := by
  apply generateMerkleRoot_congr s lib srt hsort l1 l2 hn
  have h := hp.map (fun t : String × String × Int × Nat × String =>
    (t.1, t.1 ++ ":" ++ t.2.1 ++ ":" ++ toString t.2.2.1 ++ ":" ++ toString t.2.2.2.1 ++ ":"
      ++ t.2.2.2.2))
  simpa [List.map_map, Function.comp, leafData] using h

set_option maxRecDepth 100000 in
/-- C26, witness: the votes `vote-1` and `vote-2`, and the same two votes in the
other order with another tool, other signatures, marked processed and assigned
to a batch. -/
theorem C26_root_of_hashed_fields_witness :
    stdSort.SortsByID ∧ ([exampleVoteA, exampleVoteC].map Vote.ID).Nodup ∧
      exampleVoteService.generateMerkleRoot stdLib stdSort [exampleVoteA, exampleVoteC] =
        exampleVoteService.generateMerkleRoot stdLib stdSort
          [{ exampleVoteC with ToolID := "43", Signature := "sig8", Processed := true,
                               BatchID := "batch_43_0" },
           { exampleVoteA with ToolID := "43", Signature := "sig9", Processed := true,
                               BatchID := "batch_43_0" }] :=
  ⟨stdSort_SortsByID, by decide,
    C26_root_of_hashed_fields exampleVoteService stdLib stdSort stdSort_SortsByID
      [exampleVoteA, exampleVoteC]
      [{ exampleVoteC with ToolID := "43", Signature := "sig8", Processed := true,
                           BatchID := "batch_43_0" },
       { exampleVoteA with ToolID := "43", Signature := "sig9", Processed := true,
                           BatchID := "batch_43_0" }]
      (by decide) (List.Perm.swap _ _ _)⟩

/-! ## C27 -/

/-- The test of `processAllPendingBatches` fails for every key: the first 12
bytes of the key are compared with the 13 bytes of `pending:vote:`. -/
theorem isPendingVoteKey_false (key : String) : isPendingVoteKey key = false := by
  unfold isPendingVoteKey
  have h13 : (stringBytes "pending:vote:").length = 13 := by decide
  have hne : (stringBytes key).take 12 ≠ stringBytes "pending:vote:" := by
    intro h
    have hlen := congrArg List.length h
    rw [h13, List.length_take] at hlen
    omega
  simp [hne]

theorem foldl_processKey (bp : BatchProcessor) (lib : Lib) (srt : SortLib) (now : Time)
    (keys : List String) (acc : List (String × Result VoteBatch) × MemoryStore) :
    keys.foldl (bp.processKey lib srt now) acc = acc := by
  induction keys with
  | nil => rfl
  | cons key rest ih =>
    have h : bp.processKey lib srt now acc key = acc := by
      simp [BatchProcessor.processKey, isPendingVoteKey_false]
    rw [List.foldl_cons, h, ih]

/-- C27: one run of `processAllPendingBatches` makes no call of `ProcessBatch`
and leaves the store as it is, whatever keys the store holds: the test
`key[:12] == "pending:vote:"` compares 12 bytes with a string of 13 and never
succeeds, so no pending tool is ever dispatched. -/
theorem C27_never_dispatches (bp : BatchProcessor) (lib : Lib) (srt : SortLib)
    (ms : MemoryStore) (now : Time) :
    bp.processAllPendingBatches lib srt ms now = ([], ms) :=
  foldl_processKey bp lib srt now ms.Keys ([], ms)

set_option maxRecDepth 100000 in
/-- The failing input of C27: a store whose key `pending:vote:42` holds two
votes. The run dispatches nothing and the pending list stays, whereas
`ProcessBatch("42")` called directly returns a batch of the two votes, deletes
the pending list and stores the batch. -/
theorem processAllPendingBatches_example :
    examplePendingVotesStore.Keys = ["pending:vote:42"] ∧
      exampleBatchProcessor.processAllPendingBatches stdLib stdSort examplePendingVotesStore 0 =
        ([], examplePendingVotesStore) ∧
      (∃ batch : VoteBatch,
        (exampleVoteService.ProcessBatch stdLib stdSort examplePendingVotesStore 0 "42").1 =
          Result.ok batch ∧ batch.VotesCount = 2 ∧ batch.ID = "batch_42_0") ∧
      mapGet (exampleVoteService.ProcessBatch stdLib stdSort examplePendingVotesStore 0 "42").2.data
        "pending:vote:42" = none ∧
      (mapGet (exampleVoteService.ProcessBatch stdLib stdSort examplePendingVotesStore 0 "42").2.data
        "batch:42:batch_42_0").isSome = true := by
  refine ⟨by decide, by decide, ⟨_, rfl, by decide, by decide⟩, by decide, by decide⟩

/-! ## C28 -/

/-- `ValidateSignature` on a signature that decodes to 65 bytes from which the
key of the address is recovered: the answer is that of the timestamp test. -/
theorem ValidateSignature_of_signed (s : VerificationService) (k : CryptoKeys) (eth : EthLib)
    (now : Time) (userAddress : String) (ts : Int) (signature : String) (sigBytes pubKey : Bytes)
    (hdec : decodeSignature signature = some sigBytes) (hlen : sigBytes.length = 65)
    (hrec : k.SigToPub (eth.TextHash (stringBytes (userAddress ++ ":" ++ toString ts)))
        (if sigBytes.getD 64 0 = 27 ∨ sigBytes.getD 64 0 = 28 then
          sigBytes.set 64 (sigBytes.getD 64 0 - 27)
        else sigBytes) = (some pubKey, none))
    (haddr : k.PubkeyToAddress pubKey = eth.HexToAddress userAddress) :
    s.ValidateSignature k eth now userAddress ts signature =
      Result.ok (decide (¬ (wrap64 (Time.Unix now - ts) > 300 ∨ ts > Time.Unix now))) := by
  unfold VerificationService.ValidateSignature
  by_cases h : wrap64 (Time.Unix now - ts) > 300 ∨ ts > Time.Unix now
  · simp [h]
  · simp only [h, if_false, hdec, hlen, ne_eq, not_true_eq_false, hrec, haddr]
    simp

/-- C28: the timestamp window of `ValidateSignature`. For every address, every
64-bit signed timestamp `ts` and every signature that decodes to 65 bytes from
which the key of the address is recovered for the text `<address>:<ts>`, the
call at Unix second `now` returns true if and only if `0 <= now - ts <= 300`,
provided the difference `now - ts` is below 2^63; when it is not (that is, for
`ts <= now - 2^63`) the `int64` subtraction wraps around to a negative number
and the call returns true although the timestamp is older than 300 seconds. -/
theorem C28_timestamp_window (s : VerificationService) (k : CryptoKeys) (eth : EthLib)
    (now : Time) (userAddress : String) (ts : Int) (signature : String) (sigBytes pubKey : Bytes)
    (hts : -2 ^ 63 ≤ ts ∧ ts < 2 ^ 63)
    (hnow : -2 ^ 63 ≤ Time.Unix now ∧ Time.Unix now < 2 ^ 63)
    (hdec : decodeSignature signature = some sigBytes) (hlen : sigBytes.length = 65)
    (hrec : k.SigToPub (eth.TextHash (stringBytes (userAddress ++ ":" ++ toString ts)))
        (if sigBytes.getD 64 0 = 27 ∨ sigBytes.getD 64 0 = 28 then
          sigBytes.set 64 (sigBytes.getD 64 0 - 27)
        else sigBytes) = (some pubKey, none))
    (haddr : k.PubkeyToAddress pubKey = eth.HexToAddress userAddress) :
    (Time.Unix now - ts < 2 ^ 63 →
      (s.ValidateSignature k eth now userAddress ts signature = Result.ok true ↔
        0 ≤ Time.Unix now - ts ∧ Time.Unix now - ts ≤ 300)) ∧
    (2 ^ 63 ≤ Time.Unix now - ts →
      s.ValidateSignature k eth now userAddress ts signature = Result.ok true) := by
  rw [ValidateSignature_of_signed s k eth now userAddress ts signature sigBytes pubKey hdec hlen
    hrec haddr]
  generalize Time.Unix now = n at hnow ⊢
  obtain ⟨hts1, hts2⟩ := hts
  obtain ⟨hn1, hn2⟩ := hnow
  constructor
  · intro hlt
    by_cases hfut : ts > n
    · have h1 : ¬ (0 ≤ n - ts ∧ n - ts ≤ 300) := by omega
      simp [hfut, h1]
    · have hw : wrap64 (n - ts) = n - ts := wrap64_of_range (by omega) hlt
      rw [hw]
      simp only [Result.ok.injEq, decide_eq_true_eq]
      constructor
      · intro h; omega
      · intro h; omega
  · intro hge
    have hw : wrap64 (n - ts) < 0 := by
      unfold wrap64
      omega
    have h1 : ¬ (wrap64 (n - ts) > 300 ∨ ts > n) := by omega
    simp [h1]

set_option maxRecDepth 100000 in
/-- C28, witness: a signature attributed to `exampleVoter` by the stand-ins,
presented at Unix second 1700000000 with the timestamp `now - 300`, is accepted. -/
theorem C28_timestamp_window_witness :
    exampleVerificationService.ValidateSignature strictKeys exampleEth (1700000000 * Second)
      exampleVoter 1699999700 ("0x" ++ exampleSignature) = Result.ok true :=
  ((C28_timestamp_window exampleVerificationService strictKeys exampleEth (1700000000 * Second)
    exampleVoter 1699999700 ("0x" ++ exampleSignature) exampleSignatureBytes
    (exampleSignatureBytes.take 20) (by decide) (by decide) (by decide) (by decide) (by decide)
    (by decide)).1 (by decide)).mpr ⟨by decide, by decide⟩

set_option maxRecDepth 100000 in
/-- The three timestamps of the specification and the failing input of C28, at
Unix second 1700000000 with a signature the stand-ins attribute to the address:
`now - 300` is accepted, `now - 301` and `now + 60` are rejected, and the
timestamp -2^63, older than any other, is accepted. -/
theorem ValidateSignature_example :
    exampleVerificationService.ValidateSignature strictKeys exampleEth (1700000000 * Second)
        exampleVoter (1700000000 - 300) ("0x" ++ exampleSignature) = Result.ok true ∧
      exampleVerificationService.ValidateSignature strictKeys exampleEth (1700000000 * Second)
        exampleVoter (1700000000 - 301) ("0x" ++ exampleSignature) = Result.ok false ∧
      exampleVerificationService.ValidateSignature strictKeys exampleEth (1700000000 * Second)
        exampleVoter (1700000000 + 60) ("0x" ++ exampleSignature) = Result.ok false ∧
      exampleVerificationService.ValidateSignature strictKeys exampleEth (1700000000 * Second)
        exampleVoter (-9223372036854775808) ("0x" ++ exampleSignature) = Result.ok true := by
  decide

/-! ## C29 -/

/-- After a `VerifyAccess` that answered with the licensed tier, the license key
holds a license entry that expires from the store 24 hours later. -/
theorem VerifyAccess_licensed_entry (s : LicenseService) (lib : Lib) (ms : MemoryStore)
    (now : Time) (user : Address) (toolID : Int) (r : AccessResult)
    (hres : (s.VerifyAccess lib ms now user toolID).1 = Result.ok r)
    (htier : r.Tier = "licensed") :
    r.Valid = true ∧
      ∃ L : License,
        mapGet (s.VerifyAccess lib ms now user toolID).2.data (licenseKey user toolID) =
          some { value := Value.license L, expiresAt := now + 24 * Hour } := by
  cases hu : unexpiredLicense (ms.Get now (licenseKey user toolID)).1 now with
  | some L =>
    rw [VerifyAccess_of_cached s lib ms now user toolID L hu] at hres ⊢
    simp only [Result.ok.injEq] at hres
    subst hres
    exact ⟨rfl, _, Set_snd_data_self _ now _ _ _⟩
  | none =>
    rw [VerifyAccess_of_uncached s lib ms now user toolID hu] at hres ⊢
    rcases chain_view_cases s.blockchain user toolID with ⟨hv, m, hm⟩ | ⟨hv, hm⟩ | hno
    · rw [chain_of_valid s lib _ now user toolID m hv hm] at hres ⊢
      simp only [Result.ok.injEq] at hres
      subst hres
      exact ⟨rfl, _, Set_snd_data_self _ now _ _ _⟩
    · rw [chain_of_nil_metadata s lib _ now user toolID hv hm] at hres
      cases hres
    · rw [chain_of_no_license s lib _ now user toolID hno, freeTier_eq] at hres
      rcases freeTierResult_tier s lib now user toolID _ r hres with ⟨_, _, ht⟩ | ⟨_, _, ht, _⟩
      · rw [ht] at htier; exact absurd htier (by decide)
      · rw [ht] at htier; exact absurd htier (by decide)

/-- A submission of an eligible voter is not refused for want of eligibility,
whatever the outcome of the signature check and of the replay guard. -/
theorem SubmitVote_not_ineligible (s : VoteService) (lib : Lib) (c : Crypto) (k : CryptoKeys)
    (eth : EthLib) (ms : MemoryStore) (now : Time) (sub : VoteSubmission)
    (helig : (s.isVoterEligible ms now sub.VoterAddress sub.ToolID).1.1 = true) (v : String) :
    (s.SubmitVote lib c k eth ms now sub).1 ≠
      Result.ok { Valid := false, Reason := "voter not eligible - must use tool before voting",
                  VoteID := v } := by
  cases hsig : s.verifyVoteSignature c k eth sub with
  | err e => simp [VoteService.SubmitVote, hsig]
  | panic e => simp [VoteService.SubmitVote, hsig]
  | ok p =>
    obtain ⟨isValid, reason⟩ := p
    cases isValid with
    | false =>
      rw [SubmitVote_of_invalid s lib c k eth ms now sub reason hsig]
      intro h
      simp only [Result.ok.injEq, VoteVerificationResult.mk.injEq, true_and] at h
      rcases verifyVoteSignature_reason s c k eth sub reason hsig with h1 | h1 | h1 | h1 | h1 <;>
        · rw [h1] at h
          exact absurd h.1 (by decide)
    | true =>
      rw [SubmitVote_of_valid s lib c k eth ms now sub reason hsig]
      cases hfresh : (ms.Get now ("vote:" ++ s.generateVoteID lib sub)).1 with
      | some x =>
        rw [verified_of_live s lib ms now sub (by rw [hfresh]; rfl)]
        intro h
        simp only [Result.ok.injEq, VoteVerificationResult.mk.injEq, true_and] at h
        exact absurd h.1 (by decide)
      | none =>
        rw [verified_of_fresh s lib ms now sub hfresh helig, store_fst]
        intro h
        simp at h

/-- A voter with a license entry for the tool is eligible: after a
`LicenseService.VerifyAccess(voter, tool)` call that answered with the licensed
tier (the answer is then valid), and until 24 hours after that call,
`isVoterEligible` holds for the hex rendering of the voter and the decimal
rendering of the tool, and no `SubmitVote` for them is answered "voter not
eligible - must use tool before voting". -/
theorem licensed_voter_eligible (ls : LicenseService) (vs : VoteService) (lib : Lib)
    (c : Crypto) (k : CryptoKeys) (eth : EthLib) (ms : MemoryStore) (t1 t2 : Time)
    (user : Address) (toolID : Int) (r : AccessResult) (sub : VoteSubmission)
    (hres : (ls.VerifyAccess lib ms t1 user toolID).1 = Result.ok r)
    (htier : r.Tier = "licensed")
    (h24 : t2 ≤ t1 + 24 * Hour)
    (hvoter : sub.VoterAddress = user.Hex) (htool : sub.ToolID = bigString toolID) :
    r.Valid = true ∧
      (vs.isVoterEligible (ls.VerifyAccess lib ms t1 user toolID).2 t2 sub.VoterAddress
        sub.ToolID).1.1 = true ∧
      ∀ v : String,
        (vs.SubmitVote lib c k eth (ls.VerifyAccess lib ms t1 user toolID).2 t2 sub).1 ≠
          Result.ok { Valid := false, Reason := "voter not eligible - must use tool before voting",
                      VoteID := v } := by
  obtain ⟨hvalid, L, hentry⟩ := VerifyAccess_licensed_entry ls lib ms t1 user toolID r hres htier
  have hkey : "license:" ++ sub.VoterAddress ++ ":" ++ sub.ToolID = licenseKey user toolID := by
    rw [hvoter, htool]; rfl
  have helig : (vs.isVoterEligible (ls.VerifyAccess lib ms t1 user toolID).2 t2 sub.VoterAddress
      sub.ToolID).1.1 = true := by
    rw [isVoterEligible_eq, hkey,
      Get_of_live _ t2 _ _ hentry (by show t2 ≤ t1 + 24 * Hour; exact h24)]
    simp
  exact ⟨hvalid, helig, SubmitVote_not_ineligible vs lib c k eth _ t2 sub helig⟩

/-- After a `VerifyAccess` that answered with the free tier on a store with no
entry under the license key, the answer is valid and the store has no entry
under the license key. -/
theorem VerifyAccess_free_entry (s : LicenseService) (lib : Lib) (ms : MemoryStore)
    (now : Time) (user : Address) (toolID : Int) (r : AccessResult)
    (hlic : mapGet ms.data (licenseKey user toolID) = none)
    (hres : (s.VerifyAccess lib ms now user toolID).1 = Result.ok r)
    (htier : r.Tier = "free") :
    r.Valid = true ∧
      mapGet (s.VerifyAccess lib ms now user toolID).2.data (licenseKey user toolID) = none := by
  have hu : unexpiredLicense (ms.Get now (licenseKey user toolID)).1 now = none := by
    rw [Get_of_absent ms now _ hlic]; rfl
  rw [VerifyAccess_of_uncached s lib ms now user toolID hu, Get_of_absent ms now _ hlic] at hres ⊢
  rcases chain_view_cases s.blockchain user toolID with ⟨hv, m, hm⟩ | ⟨hv, hm⟩ | hno
  · rw [chain_of_valid s lib _ now user toolID m hv hm] at hres
    simp only [Result.ok.injEq] at hres
    subst hres
    exact absurd htier (show ("licensed" : String) ≠ "free" by decide)
  · rw [chain_of_nil_metadata s lib _ now user toolID hv hm] at hres
    cases hres
  · rw [chain_of_no_license s lib _ now user toolID hno, freeTier_eq] at hres ⊢
    refine ⟨?_, ?_⟩
    · rcases freeTierResult_tier s lib now user toolID _ r hres with ⟨_, hvalid, _⟩ | ⟨_, _, ht, _⟩
      · exact hvalid
      · rw [ht] at htier; exact absurd htier (by decide)
    · show mapGet (ms.Increment now (freeTierKey user toolID) 1 (24 * Hour)).2.data
        (licenseKey user toolID) = none
      rw [Increment_snd_data_ne ms now 1 _ (Ne.symm (licenseKey_ne_freeTierKey user user toolID toolID))]
      exact hlic

/-- C29: a voter who has used the tool in the free tier is not eligible. For
every voter and tool with no entry at `license:{voter}:{tool}` and none at
`usage:{voter}:{tool}`, after a `LicenseService.VerifyAccess(voter, tool)` call
that answered with the free tier, the answer is `valid = true`, and at every
later instant `isVoterEligible` answers false for the hex rendering of the
voter and the decimal rendering of the tool: the access wrote
`free:{voter}:{tool}` only. The step of `SubmitVote` that follows the signature
check then answers a fresh submission of that voter for that tool "voter not
eligible - must use tool before voting". -/
theorem C29_free_tier_user_not_eligible (ls : LicenseService) (vs : VoteService) (lib : Lib)
    (ms : MemoryStore) (t1 t2 : Time) (user : Address) (toolID : Int) (r : AccessResult)
    (hlic : mapGet ms.data (licenseKey user toolID) = none)
    (husage : mapGet ms.data ("usage:" ++ user.Hex ++ ":" ++ bigString toolID) = none)
    (hres : (ls.VerifyAccess lib ms t1 user toolID).1 = Result.ok r)
    (htier : r.Tier = "free") :
    r.Valid = true ∧
      (vs.isVoterEligible (ls.VerifyAccess lib ms t1 user toolID).2 t2 user.Hex
        (bigString toolID)).1.1 = false ∧
      ∀ sub : VoteSubmission, sub.VoterAddress = user.Hex → sub.ToolID = bigString toolID →
        ((ls.VerifyAccess lib ms t1 user toolID).2.Get t2
          ("vote:" ++ vs.generateVoteID lib sub)).1 = none →
        (VoteService.SubmitVote.verified vs lib (ls.VerifyAccess lib ms t1 user toolID).2 t2
            sub).1 =
          Result.ok { Valid := false, Reason := "voter not eligible - must use tool before voting",
                      VoteID := "" } := by
  obtain ⟨hvalid, hafter⟩ := VerifyAccess_free_entry ls lib ms t1 user toolID r hlic hres htier
  have hu1 : "usage:" ++ user.Hex ++ ":" ++ bigString toolID ≠ licenseKey user toolID :=
    ne_of_head (head_usageKey _ _) (head_licenseKey _ _) (by decide)
  have hu2 : "usage:" ++ user.Hex ++ ":" ++ bigString toolID ≠ freeTierKey user toolID :=
    ne_of_head (head_usageKey _ _) (by simp [freeTierKey]) (show 'u' ≠ 'f' by decide)
  have husage2 : mapGet (ls.VerifyAccess lib ms t1 user toolID).2.data
      ("usage:" ++ user.Hex ++ ":" ++ bigString toolID) = none := by
    rw [VerifyAccess_data_other ls lib ms t1 user toolID _ hu1 hu2]
    exact husage
  have helig : (vs.isVoterEligible (ls.VerifyAccess lib ms t1 user toolID).2 t2 user.Hex
      (bigString toolID)).1.1 = false := by
    rw [isVoterEligible_eq, Get_of_absent _ t2 _ husage2,
      Get_of_absent _ t2 ("license:" ++ user.Hex ++ ":" ++ bigString toolID) hafter]
    rfl
  refine ⟨hvalid, helig, ?_⟩
  intro sub hvoter htool hfresh
  apply verified_of_not_eligible vs lib _ t2 sub hfresh
  rw [hvoter, htool]
  exact helig

set_option maxRecDepth 100000 in
/-- C29, witness: on the empty store, with a chain view that knows no license,
`VerifyAccess` by `exampleVoter` for tool 42 succeeds in the free tier and
writes the free counter only. One nanosecond later the voter is not eligible,
and the step after the signature check refuses the fresh `exampleSubmission`. -/
theorem C29_free_tier_user_not_eligible_witness :
    (exampleService noLicenseChain).VerifyAccess stdLib NewMemoryStore 0 { Hex := exampleVoter } 42 =
        (Result.ok
          { Valid := true, Tier := "free", CallsRemaining := 99, ExpiresAt := none,
            ProvenanceHash := "1b1ac26ee72b048713deafa0efa4a180c978831b2650228126acaf11f33a37d2",
            Reason := "" },
         { data := [("free:0x70997970c51812dc3a010c7d01b50e0d17dc79c8:42",
             { value := Value.int64 1, expiresAt := 24 * Hour })] }) ∧
      (exampleVoteService.isVoterEligible
        ((exampleService noLicenseChain).VerifyAccess stdLib NewMemoryStore 0
          { Hex := exampleVoter } 42).2 1 exampleVoter "42").1.1 = false ∧
      (VoteService.SubmitVote.verified exampleVoteService stdLib
        ((exampleService noLicenseChain).VerifyAccess stdLib NewMemoryStore 0
          { Hex := exampleVoter } 42).2 1 exampleSubmission).1 =
        Result.ok { Valid := false, Reason := "voter not eligible - must use tool before voting",
                    VoteID := "" } :=
  ⟨by decide,
    (C29_free_tier_user_not_eligible (exampleService noLicenseChain) exampleVoteService stdLib
      NewMemoryStore 0 1 { Hex := exampleVoter } 42
      { Valid := true, Tier := "free", CallsRemaining := 99, ExpiresAt := none,
        ProvenanceHash := "1b1ac26ee72b048713deafa0efa4a180c978831b2650228126acaf11f33a37d2",
        Reason := "" }
      (by decide) (by decide) (by decide) (by decide)).2.1,
    (C29_free_tier_user_not_eligible (exampleService noLicenseChain) exampleVoteService stdLib
      NewMemoryStore 0 1 { Hex := exampleVoter } 42
      { Valid := true, Tier := "free", CallsRemaining := 99, ExpiresAt := none,
        ProvenanceHash := "1b1ac26ee72b048713deafa0efa4a180c978831b2650228126acaf11f33a37d2",
        Reason := "" }
      (by decide) (by decide) (by decide) (by decide)).2.2 exampleSubmission
      (by decide) (by decide) (by decide)⟩

/-! ## C30 -/

theorem hexDigit_lower (n : Nat) (h : n < 16) : hexDigit n ∈ "0123456789abcdef".data := by
  revert n
  decide

/-- `hex.EncodeToString` yields two characters per byte, all of them lowercase
hexadecimal digits. -/
theorem hexEncodeToString_spec (b : Bytes) :
    (hexEncodeToString b).length = 2 * b.length ∧
      ∀ ch ∈ (hexEncodeToString b).data, ch ∈ "0123456789abcdef".data := by
  unfold hexEncodeToString
  induction b with
  | nil => simp
  | cons x rest ih =>
    obtain ⟨ih1, ih2⟩ := ih
    simp only [String.length, List.flatMap_cons, List.length_append, List.length_cons,
      List.length_nil] at ih1 ⊢
    constructor
    · omega
    · intro ch hch
      simp only [List.cons_append, List.nil_append, List.mem_cons] at hch
      rcases hch with rfl | rfl | hch
      · exact hexDigit_lower _ (Nat.mod_lt _ (by decide))
      · exact hexDigit_lower _ (Nat.mod_lt _ (by decide))
      · exact ih2 ch hch

theorem sha256_be_length (n k : Nat) : (sha256.be n k).length = k := by
  induction k with
  | zero => rfl
  | succ k ih => simp [sha256.be, ih]

/-- A SHA-256 digest has 32 bytes. -/
theorem Sum256_length (msg : Bytes) : (sha256.Sum256 msg).length = 32 := by
  simp [sha256.Sum256, sha256_be_length]

/-- The shape of the provenance hash: two calls with the same three arguments
made at instants with the same `UnixNano` reading return the same hash, and
every hash returned is a string of 64 lowercase hexadecimal characters (the
digest having 32 bytes). -/
theorem generateProvenanceHash_spec (s : VerificationService) (lib : Lib) (now1 now2 : Time)
    (licenseID toolID userAddress : String) (hlen : ∀ b : Bytes, (lib.sha256 b).length = 32) :
    (Time.UnixNano now1 = Time.UnixNano now2 →
      s.generateProvenanceHash lib now1 licenseID toolID userAddress =
        s.generateProvenanceHash lib now2 licenseID toolID userAddress) ∧
      (s.generateProvenanceHash lib now1 licenseID toolID userAddress).length = 64 ∧
      ∀ ch ∈ (s.generateProvenanceHash lib now1 licenseID toolID userAddress).data,
        ch ∈ "0123456789abcdef".data := by
  refine ⟨?_, ?_, ?_⟩
  · intro h
    unfold VerificationService.generateProvenanceHash
    simp only [h]
  · unfold VerificationService.generateProvenanceHash
    rw [(hexEncodeToString_spec _).1, hlen]
  · unfold VerificationService.generateProvenanceHash
    exact (hexEncodeToString_spec _).2

set_option maxRecDepth 100000 in
/-- C30: two successive calls of `generateProvenanceHash` with the same three
arguments do not return the same hash. With the arguments of the test
`Generate Provenance Hash` ("license1", "tool1", "user1") and of the test
`Hash with Empty Strings`, two calls made one nanosecond apart return different
hashes (SHA-256): the `UnixNano` reading of the call is part of the hashed
data. -/
theorem C30_successive_calls_differ :
    exampleVerificationService.generateProvenanceHash stdLib 0 "license1" "tool1" "user1" =
        "adc9055b8ccd58848b9f651dce2670923bb0ed44e515d034a23910f60f463c02" ∧
      exampleVerificationService.generateProvenanceHash stdLib 1 "license1" "tool1" "user1" =
        "af1aa0fb45abd103ee8ece8f4216398329b7e763f30b888a5cfd99026f0c5dcf" ∧
      exampleVerificationService.generateProvenanceHash stdLib 0 "license1" "tool1" "user1" ≠
        exampleVerificationService.generateProvenanceHash stdLib 1 "license1" "tool1" "user1" ∧
      exampleVerificationService.generateProvenanceHash stdLib 0 "" "" "" ≠
        exampleVerificationService.generateProvenanceHash stdLib 1 "" "" "" := by
  decide

end SkillChain
